import Mathlib

/-!
# Token authentication and session lifecycle of the MERN backend

A shallow embedding of the authentication core of the repository:

* `middleware/verifyToken.js`  : `verifyToken`
* `middleware/authenticate.js` : `auth`
* `routes/auth.js`             : `register`, `login`, `logout`, `refresh`
* `server.js`                  : `refresh` (the handler registered on the app itself)
* `routes/admin.js`            : `verifyAdmin`
* `routes/users.js`            : `register`, `login`, and the listing of the users
* `routes/adminRegistration.js`: `register-admin`
* `models/token.js`            : the `Token` collection with its unique index on `token`
* `models/user.js`             : the `User` collection, its validators of `role` and
  `password`, its pre-save hook and `correctPassword`

Conventions of the embedding.

* Time is `Date.now()`, a natural number of milliseconds.  A handler takes the clock
  reading of its request as an argument.  The middleware `auth` takes two: its own
  expiry check, made after the store lookup, can only differ from the one inside
  `jwt.verify` at a later reading.
* The `tokens` collection is the list of its documents in insertion order.  A
  document is identified by its place in the collection, so "the document that
  `findOne` returned" is the first match of the filter.
* A store call can reject.  Every handler takes a list of flags, one per store call
  it makes, in program order; flag `i` set means that call `i` rejects.
* `jsonwebtoken` and `bcryptjs` are libraries outside the repository.  They are
  modelled symbolically: a signed token is the pair of its payload and of the key
  it was signed with, so that signing is deterministic and injective, and a token
  verifies under a secret exactly when it was signed with it; a bcrypt hash is the
  value it was made from, with its cost and salt, and comparing reads of a password
  the 72 bytes bcrypt reads.
* What a library or the store draws is an argument of the handler: the salt of a
  `bcrypt.hash`, the `_id` of a new account.
* `String.prototype.toLowerCase` belongs to the runtime.  It is a field of the
  environment, so every theorem holds for whatever that method does; the worked
  examples use ASCII strings and an environment that lowers the letters A to Z.
-/

namespace MernBackend

/-! ## Values -/

/-- A MongoDB ObjectId, a 12-byte number. -/
abbrev ObjectId := Nat

/-- A signing secret, read from the process environment. -/
abbrev Secret := String

/-- What the handlers take from the process they run in: the two secrets of
`process.env` the core reads, and the method `String.prototype.toLowerCase` of the
runtime, which routes/users.js calls and which mongoose calls for the setter
`lowercase: true` of the `email` path.  The method is outside the repository; the proofs
use two facts about it: it gives the empty string for the empty string only, and
applying it twice is applying it once. -/
structure Env where
  JWT_SECRET : Secret
  JWT_REFRESH_SECRET : Secret
  toLowerCase : String → String
  toLowerCase_eq_empty : ∀ s, toLowerCase s = "" → s = ""
  toLowerCase_idem : ∀ s, toLowerCase (toLowerCase s) = toLowerCase s

/-- The payload of a token as `jwt.verify` returns it: the fields given to `jwt.sign`
(`role` is absent when the caller passed none or `undefined`), the issue time and the
expiry, both in seconds. -/
structure Claims where
  id : ObjectId
  role : Option String
  iat : Nat
  exp : Nat
deriving DecidableEq, Repr

/-- A JavaScript string as the token code paths see it: either the compact
serialisation of a token signed over `payload` with `key`, or any other string (the
empty string included), which `jwt.verify` refuses under every secret. -/
inductive TokenString where
  | jws (payload : Claims) (key : Secret)
  | text (s : String)
deriving DecidableEq, Repr

/-- The errors the handlers catch, by `err.name`; `MongoError` stands for every
rejection of a store call. -/
inductive JsError where
  | TokenExpiredError
  | JsonWebTokenError
  | MongoError
deriving DecidableEq, Repr

/-- The object given to `jwt.sign`. -/
structure Payload where
  id : ObjectId
  role : Option String
deriving DecidableEq, Repr

/-- The call `jwt.sign(payload, secret, { expiresIn })` at clock reading `now`:
`iat` is the clock in whole seconds and `exp` is `iat + expiresIn`.  The library signs
with HMAC, so the same payload signed with the same secret within the same second is
the same string. -/
def jwtSign (payload : Payload) (secret : Secret) (expiresIn : Nat) (now : Nat) :
    TokenString :=
  .jws { id := payload.id, role := payload.role,
         iat := now / 1000, exp := now / 1000 + expiresIn } secret

/-- The call `jwt.verify(token, secret)` at clock reading `now`: the signature is
checked first (`JsonWebTokenError`), then the expiry (`TokenExpiredError` once the
clock in whole seconds has reached `exp`). -/
def jwtVerify (token : TokenString) (secret : Secret) (now : Nat) : Except JsError Claims :=
  match token with
  | .text _ => .error .JsonWebTokenError
  | .jws payload key =>
    if key ≠ secret then .error .JsonWebTokenError
    else if payload.exp ≤ now / 1000 then .error .TokenExpiredError
    else .ok payload

/-- JavaScript falsiness of an optional string: `undefined` or the empty string. -/
def falsy : Option TokenString → Bool
  | none => true
  | some (.text s) => s == ""
  | some (.jws _ _) => false

/-- JavaScript falsiness of an optional plain string. -/
def falsyStr : Option String → Bool
  | none => true
  | some s => s == ""

/-! ## The `Token` model (models/token.js) -/

/-- A document of the `tokens` collection. -/
structure TokenDoc where
  userId : ObjectId
  token : TokenString
  blacklisted : Bool
  isRefreshToken : Bool
  createdAt : Nat
  lastUsedAt : Nat
deriving DecidableEq, Repr

/-- The `tokens` collection. -/
abbrev Db := List TokenDoc

/-- The flags of the store calls of one request. -/
abbrev Faults := List Bool

/-- Whether store call number `i` of the request rejects. -/
def Faults.fails (f : Faults) (i : Nat) : Bool := f.getD i false

/-- Apply `g` to the first document that matches `q`. -/
def updateFirst (q : TokenDoc → Bool) (g : TokenDoc → TokenDoc) : Db → Db
  | [] => []
  | d :: ds => if q d then g d :: ds else d :: updateFirst q g ds

/-- The call `Token.findOne(filter)`. -/
def Token.findOne (fault : Bool) (q : TokenDoc → Bool) (db : Db) :
    Except JsError (Option TokenDoc) :=
  if fault then .error .MongoError else .ok (db.find? q)

/-- The call `Token.create(doc)`.  The unique index on `token` refuses a second
document with the same token string. -/
def Token.create (fault : Bool) (doc : TokenDoc) (db : Db) : Except JsError Db :=
  if fault then .error .MongoError
  else if db.any (fun d => d.token == doc.token) then .error .MongoError
  else .ok (db ++ [doc])

/-- The call `Token.findOneAndUpdate(filter, update)`: the first match is updated,
and no match is no error.  The unique index refuses an update that gives the
document a token string another document holds. -/
def Token.findOneAndUpdate (fault : Bool) (q : TokenDoc → Bool) (g : TokenDoc → TokenDoc)
    (db : Db) : Except JsError Db :=
  if fault then .error .MongoError
  else match db.find? q with
    | none => .ok db
    | some d =>
      if (g d).token ≠ d.token && db.any (fun e => e.token == (g d).token) then
        .error .MongoError
      else .ok (updateFirst q g db)

/-- The calls `storedToken.save()` and `Token.findByIdAndUpdate(storedToken._id, update)`,
where `storedToken` is what `findOne` returned for the filter `q`. -/
def Token.findByIdAndUpdate (fault : Bool) (q : TokenDoc → Bool) (g : TokenDoc → TokenDoc)
    (db : Db) : Except JsError Db :=
  if fault then .error .MongoError else .ok (updateFirst q g db)

/-! ## Requests and responses -/

/-- A request, as far as the gates read it: the value of the `Authorization` header
cut at its spaces, as `split(' ')` cuts it (so the list is not empty when the header
is present). -/
structure Request where
  authorization : Option (List TokenString)
deriving DecidableEq, Repr

/-- The `user` object of an issuance response. -/
structure UserView where
  id : ObjectId
  name : String
  email : String
  role : String
deriving DecidableEq, Repr

/-- A response: the status and the fields of the JSON body the core sets. -/
structure Response where
  status : Nat
  success : Option Bool
  error : Option String
  code : Option String
  message : Option String
  token : Option TokenString
  refreshToken : Option TokenString
  expiresIn : Option Nat
  user : Option UserView
deriving DecidableEq, Repr

/-- The response `res.status(status).json({ success: false, error })`. -/
def failure (status : Nat) (error : String) : Response :=
  { status := status, success := some false, error := some error, code := none,
    message := none, token := none, refreshToken := none, expiresIn := none, user := none }

/-- The response `res.status(status).json({ success: false, error, code })`. -/
def failureCode (status : Nat) (error : String) (code : String) : Response :=
  { failure status error with code := some code }

/-- The response `res.status(status).json({ error })`, with no `success` field. -/
def bare (status : Nat) (error : String) : Response :=
  { failure status error with success := none }

/-- The response `res.status(status).json({ error, code })`, with no `success` field. -/
def bareCode (status : Nat) (error : String) (code : String) : Response :=
  { failure status error with success := none, code := some code }

/-- What a middleware did: it called `next()` with `req.user` set, or it sent a
response. -/
inductive Gate (α : Type) where
  | next (user : α)
  | respond (r : Response)
deriving DecidableEq, Repr

/-- The object `req.user` of `verifyToken`. -/
structure ReqUser where
  id : ObjectId
  role : Option String
deriving DecidableEq, Repr

/-- The expression `req.headers.authorization?.split(' ')[1]`. -/
def bearer (req : Request) : Option TokenString :=
  match req.authorization with
  | none => none
  | some pieces => pieces.get? 1

/-! ## middleware/verifyToken.js -/

/-- The filter of `verifyToken`. -/
def accessFilter (token : TokenString) (userId : ObjectId) (d : TokenDoc) : Bool :=
  d.token == token && d.userId == userId && d.isRefreshToken == false &&
    d.blacklisted == false

/-- The `catch` block of `verifyToken`. -/
def verifyTokenCatch (err : JsError) : Response :=
  if err = .TokenExpiredError then
    failureCode 401 "Session expired. Please refresh your token." "TOKEN_EXPIRED"
  else failureCode 401 "Invalid authentication token" "AUTH_FAILED"

/-- The middleware `verifyToken`. -/
def verifyToken (env : Env) (req : Request) (now : Nat) (f : Faults) (db : Db) :
    Gate ReqUser × Db :=
  match bearer req with
  | none => (.respond (failure 401 "Authentication required. No token found."), db)
  | some token =>
    if falsy (some token) then
      (.respond (failure 401 "Authentication required. No token found."), db)
    else
      match jwtVerify token env.JWT_SECRET now with
      | .error err => (.respond (verifyTokenCatch err), db)
      | .ok decoded =>
        match Token.findOne (f.fails 0) (accessFilter token decoded.id) db with
        | .error err => (.respond (verifyTokenCatch err), db)
        | .ok none => (.respond (failure 401 "Invalid session. Please login again."), db)
        | .ok (some storedToken) =>
          if now - storedToken.lastUsedAt > 60000 then
            match Token.findByIdAndUpdate (f.fails 1) (accessFilter token decoded.id)
                (fun d => { d with lastUsedAt := now }) db with
            | .error err => (.respond (verifyTokenCatch err), db)
            | .ok db1 => (.next { id := decoded.id, role := decoded.role }, db1)
          else (.next { id := decoded.id, role := decoded.role }, db)

/-! ## middleware/authenticate.js -/

/-- The test `authHeader?.startsWith('Bearer ')` on the pieces of the header. -/
def startsWithBearer : Option (List TokenString) → Bool
  | some (first :: _ :: _) => first == .text "Bearer"
  | _ => false

/-- The expression `authHeader.replace('Bearer ', '')` for a header that starts with
`'Bearer '`: what follows the first space.  When that remainder still holds a space
it is no compact serialisation; `jwt.verify` throws on it and `auth` reads it nowhere
else, so one such string stands for all of them. -/
def replaceBearer : List TokenString → TokenString
  | [_, t] => t
  | _ => .text " "

/-- The filter of `auth`, which does not look at `isRefreshToken`. -/
def authFilter (token : TokenString) (userId : ObjectId) (d : TokenDoc) : Bool :=
  d.token == token && d.userId == userId && d.blacklisted == false

/-- The `catch` block of `auth`. -/
def authCatch (err : JsError) : Response :=
  if err = .TokenExpiredError then bareCode 401 "Session expired" "TOKEN_EXPIRED"
  else bareCode 401 "Invalid authentication" "AUTH_FAILED"

/-- The middleware `auth`.  It reads the clock twice: `now` inside `jwt.verify` and
`later` at its own expiry check and at the update of `lastUsedAt`, after the store
lookup has been awaited. -/
def auth (env : Env) (req : Request) (now later : Nat) (f : Faults) (db : Db) :
    Gate Claims × Db :=
  if !startsWithBearer req.authorization then
    (.respond (bare 401 "Authorization token required"), db)
  else
    let token := replaceBearer (req.authorization.getD [])
    match jwtVerify token env.JWT_SECRET now with
    | .error err => (.respond (authCatch err), db)
    | .ok decoded =>
      match Token.findOne (f.fails 0) (authFilter token decoded.id) db with
      | .error err => (.respond (authCatch err), db)
      | .ok none => (.respond (bare 401 "Invalid token"), db)
      | .ok (some _) =>
        if decoded.exp * 1000 < later then
          match Token.findByIdAndUpdate (f.fails 1) (authFilter token decoded.id)
              (fun d => { d with blacklisted := true }) db with
          | .error err => (.respond (authCatch err), db)
          | .ok db1 => (.respond (bare 401 "Token expired"), db1)
        else
          match Token.findByIdAndUpdate (f.fails 1) (authFilter token decoded.id)
              (fun d => { d with lastUsedAt := later }) db with
          | .error err => (.respond (authCatch err), db)
          | .ok db1 => (.next decoded, db1)

/-! ## The `User` model (models/user.js), as far as login reads it -/

/-- A value of the `password` field: a plain string, or the bcrypt hash of such a
value with its cost and salt. -/
inductive PwString where
  | plain (s : String)
  | bcrypt (of : PwString) (rounds : Nat) (salt : Nat)
deriving DecidableEq, Repr

/-- The bytes of the UTF-8 encoding of a character. -/
def utf8 (c : Char) : List Nat :=
  if c.toNat < 128 then [c.toNat]
  else if c.toNat < 2048 then [192 + c.toNat / 64, 128 + c.toNat % 64]
  else if c.toNat < 65536 then
    [224 + c.toNat / 4096, 128 + c.toNat / 64 % 64, 128 + c.toNat % 64]
  else
    [240 + c.toNat / 262144, 128 + c.toNat / 4096 % 64, 128 + c.toNat / 64 % 64,
      128 + c.toNat % 64]

/-- What bcryptjs reads of a string it hashes: the bytes of its UTF-8 encoding and a
final NUL byte, taken round and round until the 72 bytes of the key schedule are
filled. -/
def bcryptKey (s : String) : List Nat :=
  (List.range 72).map
    (fun i => (s.toList.flatMap utf8 ++ [0]).getD (i % (s.toList.flatMap utf8 ++ [0]).length) 0)

/-- What bcryptjs reads of a value of the `password` field: of a plain string its key;
a hash is a string of 60 characters, which the key holds whole. -/
def PwString.read : PwString → List Nat ⊕ PwString
  | .plain s => .inl (bcryptKey s)
  | .bcrypt of rounds salt => .inr (.bcrypt of rounds salt)

/-- The call `bcrypt.compare(candidate, hash)`: it hashes the candidate with the cost
and salt of `hash` and compares, so it tells whether bcryptjs reads of the candidate
what it read of the value `hash` was made from.  A stored value that is no hash, taken
to be of another length than the 60 characters of one, compares false. -/
def bcryptCompare (candidate : PwString) (hash : PwString) : Bool :=
  match hash with
  | .plain _ => false
  | .bcrypt inner _ _ => decide (inner.read = candidate.read)

/-- A document of the `users` collection. -/
structure User where
  _id : ObjectId
  name : String
  email : String
  password : PwString
  role : String
  active : Bool
deriving DecidableEq, Repr

/-- The method `user.correctPassword(candidatePassword)`. -/
def User.correctPassword (user : User) (candidatePassword : String) : Bool :=
  bcryptCompare (.plain candidatePassword) user.password

/-- The call `User.findOne({ email })`, with the `pre(/^find/)` hook that drops
inactive users.  Mongoose casts the filter with the setters of the schema, so the email
is put in lower case before it is compared with the stored ones. -/
def User.findOne (env : Env) (users : List User) (email : String) : Option User :=
  users.find? (fun u => u.active && u.email == env.toLowerCase email)

/-! ## routes/auth.js -/

/-- The body of a login request. -/
structure LoginBody where
  email : Option String
  password : Option String
deriving DecidableEq, Repr

/-- The success response of login. -/
def loginOk (user : User) (token refreshToken : TokenString) : Response :=
  { status := 200, success := some true, error := none, code := none,
    message := some "Login successful", token := some token,
    refreshToken := some refreshToken, expiresIn := some 3600,
    user := some { id := user._id, name := user.name, email := user.email,
                   role := user.role } }

/-- The handler `router.post('/login')` of routes/auth.js.  Store call 0 is
`User.findOne`, calls 1 and 2 are the two `Token.create`. -/
def login (env : Env) (users : List User) (body : LoginBody) (now : Nat) (f : Faults)
    (db : Db) : Response × Db :=
  if falsyStr body.email || falsyStr body.password then
    (failure 400 "Please provide both email and password.", db)
  else if f.fails 0 then (failure 500 "Login failed due to a server error", db)
  else
    match User.findOne env users (body.email.getD "") with
    | none => (failure 400 "Invalid email or password", db)
    | some user =>
      if !user.correctPassword (body.password.getD "") then
        (failure 400 "Invalid email or password", db)
      else
        let token := jwtSign { id := user._id, role := some user.role } env.JWT_SECRET 900 now
        let refreshToken :=
          jwtSign { id := user._id, role := none } env.JWT_REFRESH_SECRET 604800 now
        match Token.create (f.fails 1)
            { userId := user._id, token := refreshToken, blacklisted := false,
              isRefreshToken := true, createdAt := now, lastUsedAt := now } db with
        | .error _ => (failure 500 "Login failed due to a server error", db)
        | .ok db1 =>
          match Token.create (f.fails 2)
              { userId := user._id, token := token, blacklisted := false,
                isRefreshToken := false, createdAt := now, lastUsedAt := now } db1 with
          | .error _ => (failure 500 "Login failed due to a server error", db1)
          | .ok db2 => (loginOk user token refreshToken, db2)

/-- The handler `router.post('/logout')` of routes/auth.js. -/
def logout (req : Request) (f : Faults) (db : Db) : Response × Db :=
  if falsy (bearer req) then (failure 400 "Token not provided", db)
  else
    match Token.findOneAndUpdate (f.fails 0) (fun d => d.token == (bearer req).getD (.text ""))
        (fun d => { d with blacklisted := true }) db with
    | .error _ => (failure 500 "Logout failed", db)
    | .ok db1 =>
      ({ status := 200, success := some true, error := none, code := none,
         message := some "Logged out successfully", token := none, refreshToken := none,
         expiresIn := none, user := none }, db1)

/-- The filter of both refresh handlers. -/
def refreshFilter (token : TokenString) (userId : ObjectId) (d : TokenDoc) : Bool :=
  d.token == token && d.userId == userId && d.isRefreshToken == true &&
    d.blacklisted == false

/-- The success response of both refresh handlers. -/
def refreshOk (token refreshToken : TokenString) : Response :=
  { status := 200, success := some true, error := none, code := none, message := none,
    token := some token, refreshToken := some refreshToken, expiresIn := some 900,
    user := none }

/-- What both refresh handlers do between the `jwt.verify` that succeeded with
`decoded` and their response: the lookup (store call 0), the two `jwt.sign`, the
`findOneAndUpdate` that writes the new refresh token into the document of the old one
and sets its `blacklisted` to `blacklistedUpdate` (call 1), and the `Token.create` of
the new access token (call 2).  An error is the one the `catch` block receives. -/
def rotate (env : Env) (blacklistedUpdate : Bool) (refreshToken : TokenString)
    (decoded : Claims) (now : Nat) (f : Faults) (db : Db) :
    Except JsError Response × Db :=
  match Token.findOne (f.fails 0) (refreshFilter refreshToken decoded.id) db with
  | .error err => (.error err, db)
  | .ok none => (.ok (failure 401 "Invalid refresh token"), db)
  | .ok (some _) =>
    let newAccessToken :=
      jwtSign { id := decoded.id, role := decoded.role } env.JWT_SECRET 900 now
    let newRefreshToken :=
      jwtSign { id := decoded.id, role := none } env.JWT_REFRESH_SECRET 604800 now
    match Token.findOneAndUpdate (f.fails 1) (fun d => d.token == refreshToken)
        (fun d => { d with token := newRefreshToken, lastUsedAt := now,
                           blacklisted := blacklistedUpdate }) db with
    | .error err => (.error err, db)
    | .ok db1 =>
      match Token.create (f.fails 2)
          { userId := decoded.id, token := newAccessToken, blacklisted := false,
            isRefreshToken := false, createdAt := now, lastUsedAt := now } db1 with
      | .error err => (.error err, db1)
      | .ok db2 => (.ok (refreshOk newAccessToken newRefreshToken), db2)

/-- The message both refresh `catch` blocks choose. -/
def refreshErrorMessage (err : JsError) : String :=
  if err = .TokenExpiredError then "Refresh token expired" else "Invalid refresh token"

/-- The handler `router.post('/refresh')` of routes/auth.js: its update writes
`blacklisted: false`, and its `catch` block sends no code. -/
def refreshAuth (env : Env) (refreshToken : Option TokenString) (now : Nat) (f : Faults)
    (db : Db) : Response × Db :=
  match jwtVerify (refreshToken.getD (.text "")) env.JWT_REFRESH_SECRET now with
  | .error err => (failure 401 (refreshErrorMessage err), db)
  | .ok decoded =>
    match rotate env false (refreshToken.getD (.text "")) decoded now f db with
    | (.error err, db1) => (failure 401 (refreshErrorMessage err), db1)
    | (.ok r, db1) => (r, db1)

/-! ## server.js -/

/-- The handler `app.post('/api/auth/refresh')` of server.js: it answers a missing
token first, its update writes `blacklisted: true`, and its `catch` block sends the
code `REFRESH_FAILED`. -/
def refreshServer (env : Env) (refreshToken : Option TokenString) (now : Nat) (f : Faults)
    (db : Db) : Response × Db :=
  if falsy refreshToken then (failure 401 "Refresh token required", db)
  else
    match jwtVerify (refreshToken.getD (.text "")) env.JWT_REFRESH_SECRET now with
    | .error err => (failureCode 401 (refreshErrorMessage err) "REFRESH_FAILED", db)
    | .ok decoded =>
      match rotate env true (refreshToken.getD (.text "")) decoded now f db with
      | (.error err, db1) => (failureCode 401 (refreshErrorMessage err) "REFRESH_FAILED", db1)
      | (.ok r, db1) => (r, db1)

/-! ## Sequences of operations -/

/-- One operation of the core on the `tokens` collection, with all it reads besides
the collection: the request, the clock readings, the store flags and, for login, the
`users` collection of the moment. -/
inductive Op where
  | login (users : List User) (body : LoginBody) (now : Nat) (f : Faults)
  | logout (req : Request) (f : Faults)
  | refreshAuth (refreshToken : Option TokenString) (now : Nat) (f : Faults)
  | refreshServer (refreshToken : Option TokenString) (now : Nat) (f : Faults)
  | verifyToken (req : Request) (now : Nat) (f : Faults)
  | auth (req : Request) (now later : Nat) (f : Faults)

/-- The collection after one operation. -/
def step (env : Env) (db : Db) : Op → Db
  | .login users body now f => (login env users body now f db).2
  | .logout req f => (logout req f db).2
  | .refreshAuth refreshToken now f => (refreshAuth env refreshToken now f db).2
  | .refreshServer refreshToken now f => (refreshServer env refreshToken now f db).2
  | .verifyToken req now f => (verifyToken env req now f db).2
  | .auth req now later f => (auth env req now later f db).2

/-- The collection after a sequence of operations, run one after the other. -/
def run (env : Env) (db : Db) (ops : List Op) : Db := ops.foldl (step env) db

/-- The invariant the unique index on `token` keeps: no two documents hold the same
token string. -/
def UniqueTokens (db : Db) : Prop := (db.map (fun d => d.token)).Nodup

instance (db : Db) : Decidable (UniqueTokens db) := by
  unfold UniqueTokens; infer_instance

/-! ## Names for what the handlers sign, and predicates of the proofs -/

/-- The new access token the refresh handlers sign for `decoded` at `now`. -/
def newAccess (env : Env) (decoded : Claims) (now : Nat) : TokenString :=
  jwtSign { id := decoded.id, role := decoded.role } env.JWT_SECRET 900 now

/-- The new refresh token the refresh handlers sign for `decoded` at `now`. -/
def newRefresh (env : Env) (decoded : Claims) (now : Nat) : TokenString :=
  jwtSign { id := decoded.id, role := none } env.JWT_REFRESH_SECRET 604800 now

/-- The access token login signs for `user` at `now`. -/
def loginAccess (env : Env) (user : User) (now : Nat) : TokenString :=
  jwtSign { id := user._id, role := some user.role } env.JWT_SECRET 900 now

/-- The refresh token login signs for `user` at `now`. -/
def loginRefresh (env : Env) (user : User) (now : Nat) : TokenString :=
  jwtSign { id := user._id, role := none } env.JWT_REFRESH_SECRET 604800 now

/-- A response that refuses with 401 and carries no token. -/
def Refused (r : Response) : Prop :=
  r.status = 401 ∧ r.success = some false ∧ r.token = none ∧ r.refreshToken = none

/-- An update that leaves `token` and `isRefreshToken` alone and never clears
`blacklisted`. -/
def Keeps (g : TokenDoc → TokenDoc) : Prop :=
  ∀ d, (g d).token = d.token ∧ (g d).isRefreshToken = d.isRefreshToken ∧
    (d.blacklisted = true → (g d).blacklisted = true)

/-- The collection keeps its unique index and holds an access document with the token
string `token`; when `b` is set that document is blacklisted. -/
def Holds (token : TokenString) (b : Bool) (db : Db) : Prop :=
  UniqueTokens db ∧
    ∃ d ∈ db, d.token = token ∧ d.isRefreshToken = false ∧ (b = true → d.blacklisted = true)

/-! ## A worked example -/

/-- The case mapping of the worked examples: it lowers the letters A to Z, as
`toLowerCase` does on the strings of the examples, which are all ASCII. -/
def asciiLowerCase (s : String) : String := String.mk (s.data.map Char.toLower)

/-- The environment of the worked examples. -/
def demoEnv : Env :=
  { JWT_SECRET := "access-secret"
    JWT_REFRESH_SECRET := "refresh-secret"
    toLowerCase := asciiLowerCase
    toLowerCase_eq_empty := by
      intro s h
      have h1 : s.data.map Char.toLower = [] := congrArg String.data h
      have h2 : s.data = [] := by
        cases hs : s.data with
        | nil => rfl
        | cons a l => rw [hs] at h1; cases h1
      cases s
      simp only at h2
      subst h2
      rfl
    toLowerCase_idem := by
      intro s
      have hc : ∀ c : Char, c.toLower.toLower = c.toLower := by
        intro c
        by_cases h : 65 ≤ c.toNat ∧ c.toNat ≤ 90
        · have hc : c = Char.ofNat c.toNat := (Char.ofNat_toNat c).symm
          obtain ⟨h1, h2⟩ := h
          generalize c.toNat = n at hc h1 h2
          subst hc
          interval_cases n <;> rfl
        · have h1 : c.toLower = c := by
            unfold Char.toLower
            simp only [ge_iff_le]
            rw [if_neg h]
          rw [h1, h1]
      unfold asciiLowerCase
      simp [List.map_map, Function.comp_def, hc] }

/-- A user of the worked examples, with the password "password1" stored hashed. -/
def alice : User :=
  { _id := 1, name := "Alice", email := "alice@example.com",
    password := .bcrypt (.plain "password1") 12 0, role := "user", active := true }

/-- The login body with the credentials of `alice`. -/
def aliceBody : LoginBody := { email := some "alice@example.com", password := some "password1" }

/-- The login of `alice` at time 0 on the empty collection. -/
def aliceSession : Response × Db := login demoEnv [alice] aliceBody 0 [] []

/-- The access token of `aliceSession`. -/
def aliceAccess : TokenString :=
  .jws { id := 1, role := some "user", iat := 0, exp := 900 } "access-secret"

/-- The refresh token of `aliceSession`. -/
def aliceRefresh : TokenString :=
  .jws { id := 1, role := none, iat := 0, exp := 604800 } "refresh-secret"

/-- The request with the header `Bearer <token>`. -/
def bearerRequest (token : TokenString) : Request :=
  { authorization := some [.text "Bearer", token] }

/-- Operations run before the logout of the worked example. -/
def demoBefore : List Op :=
  [.verifyToken (bearerRequest aliceAccess) 70000 [],
   .refreshServer (some aliceRefresh) 2000 []]

/-- Operations run after the logout of the worked example; the login is the one of
`aliceSession` once more. -/
def demoAfter : List Op :=
  [.login [alice] aliceBody 0 [], .refreshAuth (some aliceRefresh) 5000 [],
   .auth (bearerRequest aliceAccess) 3000 3000 []]

/-! ## routes/admin.js and the user listing of routes/users.js -/

/-- The middleware `verifyAdmin` of routes/admin.js.  It makes no store call: the
`Token` model is not read anywhere in that file. -/
def verifyAdmin (env : Env) (req : Request) (now : Nat) : Gate Claims :=
  if !startsWithBearer req.authorization then
    .respond (bare 401 "Access denied. No token provided.")
  else
    match jwtVerify ((bearer req).getD (.text "")) env.JWT_SECRET now with
    | .error _ => .respond (bare 403 "Invalid or expired token.")
    | .ok decoded =>
      if decoded.role ≠ some "admin" then .respond (bare 403 "Access denied. Admins only.")
      else .next decoded

/-- A user as `User.find().select('-password')` returns it. -/
structure UserData where
  _id : ObjectId
  name : String
  email : String
  role : String
deriving DecidableEq, Repr

/-- The call `User.find().select('-password')`, with the `pre(/^find/)` hook that drops
inactive users. -/
def User.find (users : List User) : List UserData :=
  (users.filter (fun u => u.active)).map
    (fun u => { _id := u._id, name := u.name, email := u.email, role := u.role })

/-- The route `router.get('/', verifyToken, ...)` of routes/users.js: the gate, then
the handler.  The result is the response, the `data` array of its body when it has one,
and the `tokens` collection as the gate left it.  `f` holds the flags of the store
calls of the gate and `findFails` tells whether `User.find` rejects; the text of
`error.message` is not modelled. -/
def listUsers (env : Env) (users : List User) (req : Request) (now : Nat) (f : Faults)
    (findFails : Bool) (db : Db) : (Response × Option (List UserData)) × Db :=
  match verifyToken env req now f db with
  | (.respond r, db1) => ((r, none), db1)
  | (.next user, db1) =>
    if user.role ≠ some "admin" then ((bare 403 "Access denied. Admins only.", none), db1)
    else if findFails then
      (({ failure 500 "MongoError" with message := some "Error fetching users" }, none), db1)
    else
      (({ status := 200, success := some true, error := none, code := none, message := none,
          token := none, refreshToken := none, expiresIn := none, user := none },
        some (User.find users)), db1)

/-! ## A worked example with an administrator -/

/-- An administrator of the worked examples, with the password "password2" stored
hashed. -/
def bob : User :=
  { _id := 2, name := "Bob", email := "bob@example.com",
    password := .bcrypt (.plain "password2") 12 0, role := "admin", active := true }

/-- The login body with the credentials of `bob`. -/
def bobBody : LoginBody := { email := some "bob@example.com", password := some "password2" }

/-- The login of `bob` at time 0 on the empty collection. -/
def bobSession : Response × Db := login demoEnv [alice, bob] bobBody 0 [] []

/-- The access token of `bobSession`. -/
def bobAccess : TokenString :=
  .jws { id := 2, role := some "admin", iat := 0, exp := 900 } "access-secret"

/-- The refresh token of `bobSession`. -/
def bobRefresh : TokenString :=
  .jws { id := 2, role := none, iat := 0, exp := 604800 } "refresh-secret"

/-- The login of Alice on the empty collection followed by her logout. -/
def demoRevoked : List Op :=
  [.login [alice] aliceBody 0 [], .logout (bearerRequest aliceAccess) []]

/-! ## Predicates of the proofs about single documents -/

/-- Every blacklisted document of `db` is still in its place in `db2`, and still
blacklisted there. -/
def BlacklistKept (db db2 : Db) : Prop :=
  ∀ (i : Nat) (d : TokenDoc), db[i]? = some d → d.blacklisted = true →
    ∃ d2 : TokenDoc, db2[i]? = some d2 ∧ d2.blacklisted = true

/-! ## Predicates of the proofs about the owner of a document -/

/-- Every document of the collection holds a signed token, and the `id` claim of that
token is the `userId` of the document. -/
def Owned (db : Db) : Prop :=
  ∀ d ∈ db, ∃ p key, d.token = .jws p key ∧ d.userId = p.id

/-- Every document of `db` is still in its place in `db2`, with the `userId` it had. -/
def UserIdKept (db db2 : Db) : Prop :=
  ∀ (i : Nat) (d : TokenDoc), db[i]? = some d →
    ∃ d2 : TokenDoc, db2[i]? = some d2 ∧ d2.userId = d.userId

/-! ## The `User` model (models/user.js), as far as registration writes it -/

/-- The call `bcrypt.hash(s, rounds)`; `salt` is the salt the library draws. -/
def bcryptHash (s : PwString) (rounds salt : Nat) : PwString := .bcrypt s rounds salt

/-- The property `length` of a string: the number of its UTF-16 code units, two for a
character beyond U+FFFF. -/
def utf16Length (s : String) : Nat :=
  (s.toList.map (fun c => if c.toNat < 65536 then 1 else 2)).sum

/-- The `length` of a value of the `password` field: a bcrypt hash is a string of 60
characters. -/
def PwString.length : PwString → Nat
  | .plain s => utf16Length s
  | .bcrypt _ _ _ => 60

/-- The fields a handler passes to `new User(...)`, as far as `User` keeps them; `role`
is absent when the handler passes none. -/
structure NewUser where
  name : String
  email : String
  password : PwString
  role : Option String
deriving DecidableEq, Repr

/-- The hook `userSchema.pre('save')` on a new document: its `password` counts as
modified, so the hook replaces it by its bcrypt hash of cost 12. -/
def preSave (password : PwString) (salt : Nat) : PwString := bcryptHash password 12 salt

/-- The call `save()` on a new document.  The setter `lowercase: true` has put the
email in lower case.  Validation runs first, on the values the handler passed: `role`
(`default: 'user'`) is in the `enum`, `password` has the `minlength` 8.  Then the
pre-save hook hashes the password, and the insert goes through unless the unique index
on `email` refuses it.  `fault` is a rejection for any other reason: the store, or a
validator of `name`, `email` or `phone`, which are not modelled.  `newId` is the `_id`
of the new document. -/
def User.save (env : Env) (fault : Bool) (doc : NewUser) (newId : ObjectId) (salt : Nat)
    (users : List User) : Except JsError (List User) :=
  if fault then .error .MongoError
  else if !(doc.role.getD "user" == "admin" || doc.role.getD "user" == "user") then
    .error .MongoError
  else if doc.password.length < 8 then .error .MongoError
  else if users.any (fun u => u.email == env.toLowerCase doc.email) then
    .error .MongoError
  else
    .ok (users ++ [{ _id := newId, name := doc.name, email := env.toLowerCase doc.email,
                     password := preSave doc.password salt, role := doc.role.getD "user",
                     active := true }])

/-- The `password` of a document as a query returns it: the schema declares the path
with `select: false`, so it is there only when the query carries
`.select('+password')`. -/
def User.selectedPassword (user : User) (selectPassword : Bool) : Option PwString :=
  if selectPassword then some user.password else none

/-- The operator `typeof` on a value that is a string or `undefined`. -/
def typeofStr (v : Option PwString) : String :=
  match v with
  | none => "undefined"
  | some _ => "string"

/-- The call `bcrypt.compare(s, hash)` of bcryptjs on values that may be `undefined`:
the promise rejects with the message "Illegal arguments: ..." unless both are
strings. -/
def bcryptCompareArgs (s hash : Option PwString) : Except String Bool :=
  match s, hash with
  | some s, some hash => .ok (bcryptCompare s hash)
  | _, _ => .error ("Illegal arguments: " ++ typeofStr s ++ ", " ++ typeofStr hash)

/-! ## Registration in routes/auth.js -/

/-- The body of a registration request. -/
structure RegisterBody where
  name : Option String
  email : Option String
  password : Option String
  phone : Option String
  role : Option String
deriving DecidableEq, Repr

/-- The response `res.status(201).json({ success: true, message })`. -/
def registered (message : String) : Response :=
  { status := 201, success := some true, error := none, code := none,
    message := some message, token := none, refreshToken := none, expiresIn := none,
    user := none }

/-- The handler `router.post('/register')` of routes/auth.js, which no middleware
guards: `role` comes from the body, `'user'` when the body has none, and the password
goes to the model as it came.  Store call 0 is `User.findOne`, call 1 is `save`. -/
def register (env : Env) (users : List User) (body : RegisterBody) (newId : ObjectId)
    (salt : Nat) (f : Faults) : Response × List User :=
  if falsyStr body.name || falsyStr body.email || falsyStr body.password ||
      falsyStr body.phone then
    (failure 400 "Please provide all fields (name, email, password, phone).", users)
  else if f.fails 0 then (failure 500 "Server error during registration", users)
  else
    match User.findOne env users (body.email.getD "") with
    | some _ => (failure 400 "Email already exists", users)
    | none =>
      match User.save env (f.fails 1)
          { name := body.name.getD "", email := body.email.getD "",
            password := .plain (body.password.getD ""),
            role := some (body.role.getD "user") } newId salt users with
      | .error _ => (failure 500 "Server error during registration", users)
      | .ok users1 => (registered "User registered successfully", users1)

/-! ## Registration and login in routes/users.js -/

/-- The handler `router.post('/register')` of routes/users.js: it hashes the password
with cost 10 and gives the hash to the model, whose pre-save hook hashes what it gets.
The `userId` of the success body is left out.  Store call 0 is `User.findOne`, call 1
is `save`. -/
def usersRegister (env : Env) (users : List User) (body : RegisterBody) (newId : ObjectId)
    (salt hookSalt : Nat) (f : Faults) : Response × List User :=
  if falsyStr body.email || falsyStr body.name || falsyStr body.password ||
      falsyStr body.phone then
    (failureCode 400 "All fields are required" "MISSING_FIELDS", users)
  else if f.fails 0 then
    (failureCode 500 "Registration failed. Please try again later." "SERVER_ERROR", users)
  else
    match User.findOne env users (env.toLowerCase (body.email.getD "")) with
    | some _ =>
      (failureCode 409 "This email is already registered. Please use a different email."
        "USER_EXISTS", users)
    | none =>
      let hashedPassword := bcryptHash (.plain (body.password.getD "")) 10 salt
      match User.save env (f.fails 1)
          { email := env.toLowerCase (body.email.getD ""), name := body.name.getD "",
            password := hashedPassword, role := none } newId hookSalt users with
      | .error _ =>
        (failureCode 500 "Registration failed. Please try again later." "SERVER_ERROR",
          users)
      | .ok users1 => (registered "Registration successful! Redirecting...", users1)

/-- The handler `router.post('/login')` of routes/users.js.  Its query has no
`.select('+password')`, so `user.password` is `undefined` when it reaches
`bcrypt.compare`.  A missing email finds no document, the path being required.  The
`catch` block sends `error.message`; for a rejection of the store (call 0) the name of
the error stands for it.  The handler makes no call on the `tokens` collection. -/
def usersLogin (env : Env) (users : List User) (body : LoginBody) (now : Nat)
    (f : Faults) : Response :=
  if f.fails 0 then bare 500 "MongoError"
  else
    match body.email.bind (User.findOne env users) with
    | none => bare 404 "User not found"
    | some user =>
      match bcryptCompareArgs (body.password.map .plain) (user.selectedPassword false) with
      | .error message => bare 500 message
      | .ok false => bare 400 "Invalid credentials"
      | .ok true =>
        { status := 200, success := none, error := none, code := none, message := none,
          token := some (jwtSign { id := user._id, role := some user.role }
            env.JWT_SECRET 3600 now),
          refreshToken := none, expiresIn := none,
          user := some { id := user._id, name := user.name, email := user.email,
                         role := user.role } }

/-! ## routes/adminRegistration.js -/

/-- The class `\s` of a regular expression. -/
def isSpace (c : Char) : Bool :=
  c.toNat == 9 || c.toNat == 10 || c.toNat == 11 || c.toNat == 12 || c.toNat == 13 ||
    c.toNat == 32 || c.toNat == 160 || c.toNat == 5760 ||
    (8192 ≤ c.toNat && c.toNat ≤ 8202) || c.toNat == 8232 || c.toNat == 8233 ||
    c.toNat == 8239 || c.toNat == 8287 || c.toNat == 12288 || c.toNat == 65279

/-- The test of `phonePattern`: ten digits. -/
def phonePattern (s : String) : Bool :=
  s.toList.length == 10 && s.toList.all Char.isDigit

/-- The test of `emailRegex`: no space, one `@` with something before it, and after it
a dot with something on both sides. -/
def emailRegex (s : String) : Bool :=
  let name := s.toList.takeWhile (fun c => c != '@')
  let domain := (s.toList.dropWhile (fun c => c != '@')).drop 1
  s.toList.all (fun c => !isSpace c) && s.toList.contains '@' && !name.isEmpty &&
    !domain.contains '@' && ((domain.drop 1).dropLast).contains '.'

/-- The test of `passwordRegex`: six or more letters and digits, with a letter and a
digit among them. -/
def passwordRegex (s : String) : Bool :=
  s.toList.all Char.isAlphanum && 6 ≤ s.toList.length && s.toList.any Char.isAlpha &&
    s.toList.any Char.isDigit

/-- The handler `router.post('/register-admin')` of routes/adminRegistration.js, which
no middleware guards: it hashes the password with cost 10 and gives the hash to the
model, whose pre-save hook hashes what it gets, and it signs a token for the new
administrator.  Store call 0 is `User.findOne`, call 1 is `save`; the handler makes no
call on the `tokens` collection. -/
def registerAdmin (env : Env) (users : List User) (body : RegisterBody) (newId : ObjectId)
    (salt hookSalt : Nat) (now : Nat) (f : Faults) : Response × List User :=
  if falsyStr body.name || falsyStr body.email || falsyStr body.phone ||
      falsyStr body.password then
    (bare 400 "All fields are required", users)
  else if !phonePattern (body.phone.getD "") then (bare 400 "Phone must be 10 digits", users)
  else if !emailRegex (body.email.getD "") then (bare 400 "Invalid email format", users)
  else if !passwordRegex (body.password.getD "") then
    (bare 400 "Password must be 6+ characters with letters and numbers", users)
  else if f.fails 0 then (bare 500 "Server error during registration", users)
  else
    match User.findOne env users (body.email.getD "") with
    | some _ => (bare 400 "Email already exists", users)
    | none =>
      let hashedPassword := bcryptHash (.plain (body.password.getD "")) 10 salt
      match User.save env (f.fails 1)
          { name := body.name.getD "", email := body.email.getD "",
            password := hashedPassword, role := some "admin" } newId hookSalt users with
      | .error _ => (bare 500 "Server error during registration", users)
      | .ok users1 =>
        ({ status := 201, success := some true, error := none, code := none,
           message := none,
           token := some (jwtSign { id := newId, role := some "admin" }
             env.JWT_SECRET 3600 now),
           refreshToken := none, expiresIn := none, user := none }, users1)

/-! ## A worked example of registration -/

/-- The body with which Carol registers. -/
def carolBody : RegisterBody :=
  { name := some "Carol", email := some "carol@example.com", password := some "passw0rd1",
    phone := some "0123456789", role := none }

/-- The login body with the credentials of Carol. -/
def carolLogin : LoginBody :=
  { email := some "carol@example.com", password := some "passw0rd1" }

/-! # Theorems

## The filters and `find?` -/

theorem accessFilter_iff (token : TokenString) (userId : ObjectId) (d : TokenDoc) :
    accessFilter token userId d = true ↔
      d.token = token ∧ d.userId = userId ∧ d.isRefreshToken = false ∧ d.blacklisted = false := by
  simp [accessFilter, and_assoc]

theorem find?_isSome_of_mem {q : TokenDoc → Bool} {db : Db} {r : TokenDoc}
    (hr : r ∈ db) (hq : q r = true) : ∃ s, db.find? q = some s := by
  cases h : db.find? q with
  | some s => exact ⟨s, rfl⟩
  | none =>
    rw [List.find?_eq_none] at h
    exact absurd hq (h r hr)

/-! ## C1: the contract of `verifyToken` -/

theorem verifyToken_next_iff (env : Env) (req : Request) (now : Nat) (f : Faults) (db : Db)
    (user : ReqUser) :
    (verifyToken env req now f db).1 = .next user ↔
      ∃ token d, bearer req = some token ∧ jwtVerify token env.JWT_SECRET now = .ok d ∧
        user = { id := d.id, role := d.role } ∧
        (∃ r ∈ db, r.token = token ∧ r.userId = d.id ∧ r.isRefreshToken = false ∧
          r.blacklisted = false) ∧
        f.fails 0 = false ∧
        (f.fails 1 = true → ∀ s, db.find? (accessFilter token d.id) = some s →
          now - s.lastUsedAt ≤ 60000) := by
  unfold verifyToken
  cases hb : bearer req with
  | none => simp
  | some token =>
    by_cases hfalsy : falsy (some token) = true
    · simp only [hfalsy, if_true]
      constructor
      · intro h; cases h
      · rintro ⟨t, d, ht, hv, -⟩
        cases ht
        cases token with
        | jws p k => simp [falsy] at hfalsy
        | text s => simp [jwtVerify] at hv
    · simp only [hfalsy]
      cases hv : jwtVerify token env.JWT_SECRET now with
      | error e =>
        constructor
        · intro h; simp at h
        · rintro ⟨t, d, ht, hv', -⟩
          cases ht; rw [hv] at hv'; cases hv'
      | ok decoded =>
        cases h0 : f.fails 0 with
        | true =>
          constructor
          · intro h; simp [Token.findOne] at h
          · rintro ⟨t, d, -, -, -, -, h, -⟩; cases h
        | false =>
          simp only [Token.findOne, Bool.false_eq_true, if_false]
          cases hf : db.find? (accessFilter token decoded.id) with
          | none =>
            constructor
            · intro h; simp at h
            · rintro ⟨t, d, ht, hv', -, ⟨r, hr, h1, h2, h3, h4⟩, -⟩
              cases ht; rw [hv] at hv'; injection hv' with hv'; subst hv'
              rw [List.find?_eq_none] at hf
              exact absurd ((accessFilter_iff _ _ _).2 ⟨h1, h2, h3, h4⟩) (hf r hr)
          | some s =>
            have hs := List.find?_some hf
            have hmem := List.mem_of_find?_eq_some hf
            rw [accessFilter_iff] at hs
            by_cases htouch : now - s.lastUsedAt > 60000
            · simp only [htouch, if_true, Token.findByIdAndUpdate]
              cases h1 : f.fails 1 with
              | true =>
                constructor
                · intro h; simp at h
                · rintro ⟨t, d, ht, hv', -, -, -, h⟩
                  cases ht; rw [hv] at hv'; injection hv' with hv'; subst hv'
                  have := h rfl s hf
                  omega
              | false =>
                simp only [Bool.false_eq_true, if_false]
                constructor
                · intro h
                  injection h with h
                  exact ⟨token, decoded, rfl, hv, h.symm, ⟨s, hmem, hs⟩, trivial, by simp⟩
                · rintro ⟨t, d, ht, hv', hu, -⟩
                  cases ht; rw [hv] at hv'; injection hv' with hv'; subst hv'; rw [hu]
            · simp only [htouch, if_false]
              constructor
              · intro h
                injection h with h
                refine ⟨token, decoded, rfl, hv, h.symm, ⟨s, hmem, hs⟩, trivial, ?_⟩
                intro _ s' hs'
                rw [hf] at hs'; injection hs' with hs'; subst hs'; omega
              · rintro ⟨t, d, ht, hv', hu, -⟩
                cases ht; rw [hv] at hv'; injection hv' with hv'; subst hv'; rw [hu]

theorem verifyToken_respond (env : Env) (req : Request) (now : Nat) (f : Faults) (db : Db)
    (r : Response) (h : (verifyToken env req now f db).1 = .respond r) :
    r.status = 401 ∧ r.success = some false := by
  unfold verifyToken at h
  repeat' split at h
  all_goals first
    | (injection h with h; subst h
       simp [failure, failureCode, verifyTokenCatch]
       try split <;> simp)
    | cases h

theorem verifyToken_respond_store (env : Env) (req : Request) (now : Nat) (f : Faults)
    (db : Db) (r : Response) :
    (verifyToken env req now f db).1 = .respond r → (verifyToken env req now f db).2 = db := by
  unfold verifyToken
  repeat' split
  all_goals first
    | (intro _; rfl)
    | (intro h; cases h)

/-- C1. For every request, collection, clock reading and store flags, `verifyToken`
calls `next` with `req.user = user` exactly when the token taken from the
Authorization header verifies under the access secret with claims `d`, the collection
holds a document with that token string, `userId = d.id`, `isRefreshToken = false` and
`blacklisted = false`, the store calls the gate makes do not reject, and
`user` is `d.id` with `d.role`.  In every other case the gate sends a response instead,
with status 401 and `success = false`. -/
theorem verifyToken_contract (env : Env) (req : Request) (now : Nat) (f : Faults) (db : Db) :
    (∀ user, (verifyToken env req now f db).1 = .next user ↔
      ∃ token d, bearer req = some token ∧ jwtVerify token env.JWT_SECRET now = .ok d ∧
        user = { id := d.id, role := d.role } ∧
        (∃ r ∈ db, r.token = token ∧ r.userId = d.id ∧ r.isRefreshToken = false ∧
          r.blacklisted = false) ∧
        f.fails 0 = false ∧
        (f.fails 1 = true → ∀ s, db.find? (accessFilter token d.id) = some s →
          now - s.lastUsedAt ≤ 60000)) ∧
    ((∀ user, (verifyToken env req now f db).1 ≠ .next user) →
      ∃ r, (verifyToken env req now f db).1 = .respond r ∧ r.status = 401 ∧
        r.success = some false) := by
  refine ⟨fun user => verifyToken_next_iff env req now f db user, fun hn => ?_⟩
  cases h : (verifyToken env req now f db).1 with
  | next user => exact absurd h (hn user)
  | respond r => exact ⟨r, rfl, verifyToken_respond env req now f db r h⟩

/-- C1 at the worked example: the gate accepts the access token of `aliceSession`, so
the conditions of the contract hold there. -/
theorem verifyToken_contract_witness :
    ∃ token d, bearer (bearerRequest aliceAccess) = some token ∧
      jwtVerify token demoEnv.JWT_SECRET 1000 = .ok d ∧
      ({ id := 1, role := some "user" } : ReqUser) = { id := d.id, role := d.role } ∧
      (∃ r ∈ aliceSession.2, r.token = token ∧ r.userId = d.id ∧ r.isRefreshToken = false ∧
        r.blacklisted = false) ∧
      Faults.fails [] 0 = false ∧
      (Faults.fails [] 1 = true →
        ∀ s, aliceSession.2.find? (accessFilter token d.id) = some s →
          1000 - s.lastUsedAt ≤ 60000) :=
  ((verifyToken_contract demoEnv (bearerRequest aliceAccess) 1000 [] aliceSession.2).1
    { id := 1, role := some "user" }).1 (by decide)

/-! ## The store calls and the unique index -/

theorem updateFirst_map_token (q : TokenDoc → Bool) (g : TokenDoc → TokenDoc)
    (hg : ∀ d, (g d).token = d.token) (db : Db) :
    (updateFirst q g db).map (fun d => d.token) = db.map (fun d => d.token) := by
  induction db with
  | nil => rfl
  | cons d ds ih =>
    unfold updateFirst
    split
    · simp [hg]
    · simp [ih]

theorem mem_updateFirst (q : TokenDoc → Bool) (g : TokenDoc → TokenDoc) (db : Db)
    (d : TokenDoc) (hd : d ∈ db) :
    d ∈ updateFirst q g db ∨ (q d = true ∧ g d ∈ updateFirst q g db) := by
  induction db with
  | nil => cases hd
  | cons e es ih =>
    unfold updateFirst
    rcases List.mem_cons.1 hd with rfl | hd
    · by_cases hq : q d = true
      · right; simp [hq]
      · left; simp [hq]
    · by_cases hq : q e = true
      · left; simp [hq, hd]
      · rcases ih hd with h | ⟨h1, h2⟩
        · left; simp [hq, h]
        · right; simp [hq, h1, h2]

theorem mem_of_mem_updateFirst (q : TokenDoc → Bool) (g : TokenDoc → TokenDoc) (db : Db)
    (x : TokenDoc) (hx : x ∈ updateFirst q g db) :
    x ∈ db ∨ ∃ d, db.find? q = some d ∧ x = g d := by
  induction db with
  | nil => simp [updateFirst] at hx
  | cons e es ih =>
    unfold updateFirst at hx
    by_cases hq : q e = true
    · rw [if_pos hq, List.mem_cons] at hx
      rcases hx with rfl | hx
      · right; exact ⟨e, List.find?_cons_of_pos _ hq, rfl⟩
      · left; exact List.mem_cons_of_mem _ hx
    · rw [if_neg hq, List.mem_cons] at hx
      rcases hx with rfl | hx
      · left; exact List.mem_cons_self _ _
      · rcases ih hx with h | ⟨d, h1, h2⟩
        · left; exact List.mem_cons_of_mem _ h
        · right; exact ⟨d, by rw [List.find?_cons_of_neg _ hq]; exact h1, h2⟩

theorem updateFirst_of_find?_none (q : TokenDoc → Bool) (g : TokenDoc → TokenDoc) (db : Db)
    (h : db.find? q = none) : updateFirst q g db = db := by
  induction db with
  | nil => rfl
  | cons e es ih =>
    unfold updateFirst
    by_cases hq : q e = true
    · rw [List.find?_cons_of_pos _ hq] at h; cases h
    · rw [List.find?_cons_of_neg _ hq] at h
      rw [if_neg hq, ih h]

theorem mem_updateFirst_of_find? (q : TokenDoc → Bool) (g : TokenDoc → TokenDoc) (db : Db)
    (d : TokenDoc) (h : db.find? q = some d) : g d ∈ updateFirst q g db := by
  induction db with
  | nil => simp at h
  | cons e es ih =>
    unfold updateFirst
    by_cases hq : q e = true
    · rw [List.find?_cons_of_pos _ hq] at h; injection h with h; subst h
      rw [if_pos hq]; exact List.mem_cons_self _ _
    · rw [List.find?_cons_of_neg _ hq] at h
      rw [if_neg hq]; exact List.mem_cons_of_mem _ (ih h)

theorem unique_eq_of_token {db : Db} (hu : UniqueTokens db) {a b : TokenDoc}
    (ha : a ∈ db) (hb : b ∈ db) (h : a.token = b.token) : a = b :=
  List.inj_on_of_nodup_map hu ha hb h

theorem unique_updateFirst (q : TokenDoc → Bool) (g : TokenDoc → TokenDoc) (db : Db)
    (hu : UniqueTokens db) (d : TokenDoc) (hf : db.find? q = some d)
    (hc : (g d).token = d.token ∨ ∀ e ∈ db, e.token ≠ (g d).token) :
    UniqueTokens (updateFirst q g db) := by
  induction db with
  | nil => simp at hf
  | cons e es ih =>
    unfold UniqueTokens at hu ih ⊢
    rw [List.map_cons, List.nodup_cons] at hu
    unfold updateFirst
    by_cases hq : q e = true
    · rw [List.find?_cons_of_pos _ hq] at hf; injection hf with hf; subst hf
      rw [if_pos hq, List.map_cons, List.nodup_cons]
      refine ⟨?_, hu.2⟩
      rcases hc with hc | hc
      · rw [hc]; exact hu.1
      · intro hmem
        rcases List.mem_map.1 hmem with ⟨x, hx, hxt⟩
        exact hc x (List.mem_cons_of_mem _ hx) hxt
    · rw [List.find?_cons_of_neg _ hq] at hf
      rw [if_neg hq, List.map_cons, List.nodup_cons]
      have hdmem : d ∈ es := List.mem_of_find?_eq_some hf
      refine ⟨?_, ih hu.2 hf ?_⟩
      · intro hmem
        rcases List.mem_map.1 hmem with ⟨x, hx, hxt⟩
        rcases mem_of_mem_updateFirst q g es x hx with hx | ⟨d', hd', rfl⟩
        · exact hu.1 (List.mem_map.2 ⟨x, hx, hxt⟩)
        · rw [hf] at hd'; injection hd' with hd'; subst hd'
          rcases hc with hc | hc
          · rw [hc] at hxt
            exact hu.1 (List.mem_map.2 ⟨d, hdmem, hxt⟩)
          · exact hc e (List.mem_cons_self _ _) hxt.symm
      · rcases hc with hc | hc
        · exact Or.inl hc
        · exact Or.inr (fun x hx => hc x (List.mem_cons_of_mem _ hx))

/-! ## C2: a document with a given token string stays, and stays blacklisted -/

theorem unique_updateFirst_keeps (q : TokenDoc → Bool) (g : TokenDoc → TokenDoc)
    (hg : ∀ d, (g d).token = d.token) (db : Db) (hu : UniqueTokens db) :
    UniqueTokens (updateFirst q g db) := by
  unfold UniqueTokens at hu ⊢
  rw [updateFirst_map_token q g hg]; exact hu

theorem holds_updateFirst (T : TokenString) (b : Bool) (q : TokenDoc → Bool)
    (g : TokenDoc → TokenDoc) (hg : Keeps g) (db : Db) (h : Holds T b db) :
    Holds T b (updateFirst q g db) := by
  obtain ⟨hu, d, hd, h1, h2, h3⟩ := h
  refine ⟨unique_updateFirst_keeps q g (fun d => (hg d).1) db hu, ?_⟩
  rcases mem_updateFirst q g db d hd with hm | ⟨-, hm⟩
  · exact ⟨d, hm, h1, h2, h3⟩
  · exact ⟨g d, hm, (hg d).1.trans h1, (hg d).2.1.trans h2, fun hb => (hg d).2.2 (h3 hb)⟩

theorem holds_findByIdAndUpdate (T : TokenString) (b : Bool) (fault : Bool)
    (q : TokenDoc → Bool) (g : TokenDoc → TokenDoc) (hg : Keeps g) (db db1 : Db)
    (h : Holds T b db) (hok : Token.findByIdAndUpdate fault q g db = .ok db1) :
    Holds T b db1 := by
  unfold Token.findByIdAndUpdate at hok
  split at hok
  · cases hok
  · injection hok with hok; subst hok; exact holds_updateFirst T b q g hg db h

theorem create_ok (fault : Bool) (doc : TokenDoc) (db db1 : Db)
    (hok : Token.create fault doc db = .ok db1) :
    db1 = db ++ [doc] ∧ ∀ e ∈ db, e.token ≠ doc.token := by
  unfold Token.create at hok
  split at hok
  · cases hok
  · split at hok
    · cases hok
    · rename_i hany
      injection hok with hok
      refine ⟨hok.symm, ?_⟩
      intro e he het
      apply hany
      rw [List.any_eq_true]
      exact ⟨e, he, by simp [het]⟩

theorem unique_create (fault : Bool) (doc : TokenDoc) (db db1 : Db) (hu : UniqueTokens db)
    (hok : Token.create fault doc db = .ok db1) : UniqueTokens db1 := by
  obtain ⟨rfl, hne⟩ := create_ok fault doc db db1 hok
  unfold UniqueTokens at hu ⊢
  rw [List.map_append, List.nodup_append]
  refine ⟨hu, by simp, ?_⟩
  intro a ha hb
  simp only [List.map_cons, List.map_nil, List.mem_singleton] at hb
  rcases List.mem_map.1 ha with ⟨e, he, het⟩
  exact hne e he (het.trans hb)

theorem holds_create (T : TokenString) (b : Bool) (fault : Bool) (doc : TokenDoc)
    (db db1 : Db) (h : Holds T b db) (hok : Token.create fault doc db = .ok db1) :
    Holds T b db1 := by
  refine ⟨unique_create fault doc db db1 h.1 hok, ?_⟩
  obtain ⟨rfl, -⟩ := create_ok fault doc db db1 hok
  obtain ⟨-, d, hd, hrest⟩ := h
  exact ⟨d, List.mem_append_left _ hd, hrest⟩

theorem findOneAndUpdate_ok (fault : Bool) (q : TokenDoc → Bool) (g : TokenDoc → TokenDoc)
    (db db1 : Db) (hok : Token.findOneAndUpdate fault q g db = .ok db1) :
    db1 = updateFirst q g db ∧
      ∀ d, db.find? q = some d →
        ((g d).token = d.token ∨ ∀ e ∈ db, e.token ≠ (g d).token) := by
  unfold Token.findOneAndUpdate at hok
  split at hok
  · cases hok
  · split at hok
    · rename_i hnone
      injection hok with hok
      refine ⟨by rw [updateFirst_of_find?_none q g db hnone]; exact hok.symm, ?_⟩
      intro d hd; rw [hnone] at hd; cases hd
    · rename_i d0 hsome
      split at hok
      · cases hok
      · rename_i hcond
        injection hok with hok
        refine ⟨hok.symm, ?_⟩
        intro d hd
        rw [hsome] at hd; injection hd with hd; subst hd
        by_cases heq : (g d0).token = d0.token
        · exact Or.inl heq
        · right
          intro e he het
          apply hcond
          simp only [Bool.and_eq_true, decide_eq_true_eq, ne_eq, List.any_eq_true]
          exact ⟨heq, e, he, by simp [het]⟩

theorem unique_findOneAndUpdate (fault : Bool) (q : TokenDoc → Bool) (g : TokenDoc → TokenDoc)
    (db db1 : Db) (hu : UniqueTokens db)
    (hok : Token.findOneAndUpdate fault q g db = .ok db1) : UniqueTokens db1 := by
  obtain ⟨rfl, hc⟩ := findOneAndUpdate_ok fault q g db db1 hok
  cases hf : db.find? q with
  | none => rw [updateFirst_of_find?_none q g db hf]; exact hu
  | some d => exact unique_updateFirst q g db hu d hf (hc d hf)

theorem holds_findOneAndUpdate_keeps (T : TokenString) (b : Bool) (fault : Bool)
    (q : TokenDoc → Bool) (g : TokenDoc → TokenDoc) (hg : Keeps g) (db db1 : Db)
    (h : Holds T b db) (hok : Token.findOneAndUpdate fault q g db = .ok db1) :
    Holds T b db1 := by
  obtain ⟨rfl, -⟩ := findOneAndUpdate_ok fault q g db db1 hok
  exact holds_updateFirst T b q g hg db h

theorem holds_findOneAndUpdate_refresh (T : TokenString) (b : Bool) (fault : Bool)
    (rt : TokenString) (g : TokenDoc → TokenDoc) (db db1 : Db) (h : Holds T b db)
    (s : TokenDoc) (hs : s ∈ db) (hst : s.token = rt) (hsr : s.isRefreshToken = true)
    (hok : Token.findOneAndUpdate fault (fun d => d.token == rt) g db = .ok db1) :
    Holds T b db1 := by
  refine ⟨unique_findOneAndUpdate fault _ g db db1 h.1 hok, ?_⟩
  obtain ⟨rfl, -⟩ := findOneAndUpdate_ok fault _ g db db1 hok
  obtain ⟨hu, d, hd, h1, h2, h3⟩ := h
  rcases mem_updateFirst (fun d => d.token == rt) g db d hd with hm | ⟨hq, -⟩
  · exact ⟨d, hm, h1, h2, h3⟩
  · exfalso
    have hdt : d.token = rt := by simpa using hq
    have : s = d := unique_eq_of_token hu hs hd (hst.trans hdt.symm)
    subst this
    rw [hsr] at h2; cases h2

theorem refreshFilter_iff (token : TokenString) (userId : ObjectId) (d : TokenDoc) :
    refreshFilter token userId d = true ↔
      d.token = token ∧ d.userId = userId ∧ d.isRefreshToken = true ∧ d.blacklisted = false := by
  simp [refreshFilter, and_assoc]

theorem findOne_ok (fault : Bool) (q : TokenDoc → Bool) (db : Db) (r : Option TokenDoc)
    (h : Token.findOne fault q db = .ok r) : fault = false ∧ db.find? q = r := by
  unfold Token.findOne at h
  split at h
  · cases h
  · rename_i hf
    injection h with h
    exact ⟨by simpa using hf, h⟩

theorem keeps_lastUsedAt (now : Nat) : Keeps (fun d => { d with lastUsedAt := now }) := by
  intro d; simp

theorem keeps_blacklisted : Keeps (fun d => { d with blacklisted := true }) := by
  intro d; simp

theorem holds_verifyToken (T : TokenString) (b : Bool) (env : Env) (req : Request)
    (now : Nat) (f : Faults) (db : Db) (h : Holds T b db) :
    Holds T b (verifyToken env req now f db).2 := by
  unfold verifyToken
  repeat' split
  all_goals first
    | exact h
    | (rename_i hok
       exact holds_findByIdAndUpdate T b _ _ _ (keeps_lastUsedAt now) db _ h hok)

theorem holds_auth (T : TokenString) (b : Bool) (env : Env) (req : Request)
    (now later : Nat) (f : Faults) (db : Db) (h : Holds T b db) :
    Holds T b (auth env req now later f db).2 := by
  unfold auth
  dsimp only
  repeat' split
  all_goals first
    | exact h
    | (rename_i hok
       exact holds_findByIdAndUpdate T b _ _ _ (keeps_lastUsedAt later) db _ h hok)
    | (rename_i hok
       exact holds_findByIdAndUpdate T b _ _ _ keeps_blacklisted db _ h hok)

theorem holds_login (T : TokenString) (b : Bool) (env : Env) (users : List User)
    (body : LoginBody) (now : Nat) (f : Faults) (db : Db) (h : Holds T b db) :
    Holds T b (login env users body now f db).2 := by
  unfold login
  dsimp only
  split
  · exact h
  · split
    · exact h
    · split
      · exact h
      · split
        · exact h
        · split
          · exact h
          · rename_i db1 hok1
            have h1 := holds_create T b _ _ db db1 h hok1
            split
            · exact h1
            · rename_i db2 hok2
              exact holds_create T b _ _ db1 db2 h1 hok2

theorem holds_logout (T : TokenString) (b : Bool) (req : Request) (f : Faults) (db : Db)
    (h : Holds T b db) : Holds T b (logout req f db).2 := by
  unfold logout
  repeat' split
  all_goals first
    | exact h
    | (rename_i hok
       exact holds_findOneAndUpdate_keeps T b _ _ _ keeps_blacklisted db _ h hok)

theorem holds_rotate (T : TokenString) (b : Bool) (env : Env) (bl : Bool)
    (rt : TokenString) (decoded : Claims) (now : Nat) (f : Faults) (db : Db)
    (h : Holds T b db) : Holds T b (rotate env bl rt decoded now f db).2 := by
  unfold rotate
  split
  · exact h
  · exact h
  · rename_i s hfind
    obtain ⟨-, hfind⟩ := findOne_ok _ _ _ _ hfind
    have hs := List.find?_some hfind
    have hmem := List.mem_of_find?_eq_some hfind
    rw [refreshFilter_iff] at hs
    simp only
    split
    · exact h
    · rename_i db1 hupd
      have h1 : Holds T b db1 :=
        holds_findOneAndUpdate_refresh T b _ rt _ db db1 h s hmem hs.1 hs.2.2.1 hupd
      split
      · exact h1
      · rename_i db2 hcr
        exact holds_create T b _ _ db1 db2 h1 hcr

theorem holds_refreshAuth (T : TokenString) (b : Bool) (env : Env)
    (refreshToken : Option TokenString) (now : Nat) (f : Faults) (db : Db)
    (h : Holds T b db) : Holds T b (refreshAuth env refreshToken now f db).2 := by
  unfold refreshAuth
  split
  · exact h
  · rename_i decoded _
    have := holds_rotate T b env false (refreshToken.getD (.text "")) decoded now f db h
    split <;> rename_i heq <;> rw [heq] at this <;> exact this

theorem holds_refreshServer (T : TokenString) (b : Bool) (env : Env)
    (refreshToken : Option TokenString) (now : Nat) (f : Faults) (db : Db)
    (h : Holds T b db) : Holds T b (refreshServer env refreshToken now f db).2 := by
  unfold refreshServer
  split
  · exact h
  · split
    · exact h
    · rename_i decoded _
      have := holds_rotate T b env true (refreshToken.getD (.text "")) decoded now f db h
      split <;> rename_i heq <;> rw [heq] at this <;> exact this

theorem holds_step (T : TokenString) (b : Bool) (env : Env) (db : Db) (op : Op)
    (h : Holds T b db) : Holds T b (step env db op) := by
  cases op with
  | login users body now f => exact holds_login T b env users body now f db h
  | logout req f => exact holds_logout T b req f db h
  | refreshAuth rt now f => exact holds_refreshAuth T b env rt now f db h
  | refreshServer rt now f => exact holds_refreshServer T b env rt now f db h
  | verifyToken req now f => exact holds_verifyToken T b env req now f db h
  | auth req now later f => exact holds_auth T b env req now later f db h

theorem holds_run (T : TokenString) (b : Bool) (env : Env) (ops : List Op) (db : Db)
    (h : Holds T b db) : Holds T b (run env db ops) := by
  induction ops generalizing db with
  | nil => exact h
  | cons op ops ih => exact ih (step env db op) (holds_step T b env db op h)

theorem not_falsy_of_verify (token : TokenString) (secret : Secret) (now : Nat) (d : Claims)
    (h : jwtVerify token secret now = .ok d) : falsy (some token) = false := by
  cases token with
  | jws p k => rfl
  | text s => simp [jwtVerify] at h

theorem holds_of_accept (env : Env) (req : Request) (now : Nat) (f : Faults) (db : Db)
    (user : ReqUser) (hu : UniqueTokens db)
    (hacc : (verifyToken env req now f db).1 = .next user) :
    ∃ T, bearer req = some T ∧ falsy (some T) = false ∧ Holds T false db := by
  obtain ⟨T, d, hb, hv, -, ⟨r, hr, h1, -, h3, -⟩, -⟩ :=
    (verifyToken_next_iff env req now f db user).1 hacc
  exact ⟨T, hb, not_falsy_of_verify T _ _ d hv, hu, r, hr, h1, h3, by simp⟩

theorem holds_after_logout (T : TokenString) (req : Request) (f : Faults) (db : Db)
    (hb : bearer req = some T) (hnf : falsy (some T) = false) (hf : f.fails 0 = false)
    (h : Holds T false db) :
    Holds T true (logout req f db).2 ∧ (logout req f db).1.success = some true := by
  obtain ⟨hu, d, hd, h1, h2, -⟩ := h
  have hq : (fun e : TokenDoc => e.token == T) d = true := by simp [h1]
  obtain ⟨d0, hfind⟩ := find?_isSome_of_mem (q := fun e : TokenDoc => e.token == T) hd hq
  have hd0 := List.find?_some hfind
  have hd0mem := List.mem_of_find?_eq_some hfind
  have hd0t : d0.token = T := by simpa using hd0
  have hdd : d0 = d := unique_eq_of_token hu hd0mem hd (hd0t.trans h1.symm)
  subst hdd
  unfold logout
  rw [hb, hnf]
  simp only [Bool.false_eq_true, if_false, Option.getD_some, Token.findOneAndUpdate, hf,
    hfind, ne_eq, not_true_eq_false, decide_False, Bool.false_and]
  refine ⟨⟨unique_updateFirst_keeps _ _ (fun e => (keeps_blacklisted e).1) db hu, ?_⟩, trivial⟩
  exact ⟨_, mem_updateFirst_of_find? _ _ db d0 hfind, hd0t, h2, fun _ => rfl⟩

theorem verifyToken_rejects_of_holds (T : TokenString) (env : Env) (req : Request)
    (now : Nat) (f : Faults) (db : Db) (hb : bearer req = some T) (h : Holds T true db) :
    ∃ r, (verifyToken env req now f db).1 = .respond r ∧ r.status = 401 ∧
      r.success = some false := by
  cases hres : (verifyToken env req now f db).1 with
  | respond r => exact ⟨r, rfl, verifyToken_respond env req now f db r hres⟩
  | next user =>
    exfalso
    obtain ⟨T', d, hb', -, -, ⟨r, hr, h1, -, -, h4⟩, -⟩ :=
      (verifyToken_next_iff env req now f db user).1 hres
    rw [hb] at hb'; injection hb' with hb'; subst hb'
    obtain ⟨hu, d', hd', g1, -, g3⟩ := h
    have : r = d' := unique_eq_of_token hu hr hd' (h1.trans g1.symm)
    subst this
    rw [g3 rfl] at h4; cases h4

/-- C2. A token the `verifyToken` gate accepts in a collection that respects the unique
index is rejected with 401, with no call of `next`, once `logout` has been called with
it (and the store call of that logout did not reject), whatever operations of the core
run before the logout and whatever operations run after it. -/
theorem logout_revokes_forever (env : Env) (db : Db) (req : Request) (now : Nat)
    (f : Faults) (user : ReqUser) (hu : UniqueTokens db)
    (hacc : (verifyToken env req now f db).1 = .next user)
    (before : List Op) (reqOut : Request) (fOut : Faults)
    (hOut : bearer reqOut = bearer req) (hfOut : fOut.fails 0 = false)
    (after : List Op) (req2 : Request) (now2 : Nat) (f2 : Faults)
    (h2 : bearer req2 = bearer req) :
    (logout reqOut fOut (run env db before)).1.success = some true ∧
    ∃ r, (verifyToken env req2 now2 f2
            (run env (logout reqOut fOut (run env db before)).2 after)).1 = .respond r ∧
      r.status = 401 ∧ r.success = some false := by
  obtain ⟨T, hb, hnf, hT⟩ := holds_of_accept env req now f db user hu hacc
  have h1 := holds_run T false env before db hT
  have h3 := holds_after_logout T reqOut fOut _ (hOut.trans hb) hnf hfOut h1
  exact ⟨h3.2, verifyToken_rejects_of_holds T env req2 now2 f2 _ (h2.trans hb)
    (holds_run T true env after _ h3.1)⟩

/-- C2 at the worked example: the access token of `aliceSession`, accepted at first,
is refused after its logout, with operations before the logout and after it. -/
theorem logout_revokes_forever_witness :
    UniqueTokens aliceSession.2 ∧
    (verifyToken demoEnv (bearerRequest aliceAccess) 1000 [] aliceSession.2).1 =
      .next { id := 1, role := some "user" } ∧
    (logout (bearerRequest aliceAccess) [] (run demoEnv aliceSession.2 demoBefore)).1.success =
      some true ∧
    ∃ r, (verifyToken demoEnv (bearerRequest aliceAccess) 2000 []
            (run demoEnv
              (logout (bearerRequest aliceAccess) [] (run demoEnv aliceSession.2 demoBefore)).2
              demoAfter)).1 = .respond r ∧
      r.status = 401 ∧ r.success = some false :=
  ⟨by decide, by decide,
    logout_revokes_forever demoEnv aliceSession.2 (bearerRequest aliceAccess) 1000 []
      { id := 1, role := some "user" } (by decide) (by decide) demoBefore
      (bearerRequest aliceAccess) [] rfl rfl demoAfter (bearerRequest aliceAccess) 2000 [] rfl⟩

/-! ## C3 and C4: what a refresh leaves in the collection -/

theorem updateFirst_token_gone (rt : TokenString) (g : TokenDoc → TokenDoc) (db : Db)
    (hu : UniqueTokens db) (hg : ∀ d, (g d).token ≠ rt) :
    ∀ x ∈ updateFirst (fun d => d.token == rt) g db,
      x.token = rt → db.find? (fun d => d.token == rt) = none := by
  induction db with
  | nil => intro x hx; simp [updateFirst] at hx
  | cons e es ih =>
    intro x hx hxt
    unfold UniqueTokens at hu ih
    rw [List.map_cons, List.nodup_cons] at hu
    unfold updateFirst at hx
    by_cases hq : (fun d : TokenDoc => d.token == rt) e = true
    · rw [if_pos hq, List.mem_cons] at hx
      have het : e.token = rt := by simpa using hq
      rcases hx with rfl | hx
      · exact absurd hxt (hg e)
      · exact absurd (List.mem_map.2 ⟨x, hx, hxt.trans het.symm⟩) hu.1
    · rw [if_neg hq, List.mem_cons] at hx
      rcases hx with rfl | hx
      · exfalso; apply hq; simp [hxt]
      · have hcons : List.find? (fun d : TokenDoc => d.token == rt) (e :: es) =
            List.find? (fun d : TokenDoc => d.token == rt) es := List.find?_cons_of_neg _ hq
        rw [hcons]
        exact ih hu.2 x hx hxt

theorem rotate_ok (env : Env) (bl : Bool) (rt : TokenString) (decoded : Claims) (now : Nat)
    (f : Faults) (db db2 : Db) (r : Response) (hu : UniqueTokens db)
    (h : rotate env bl rt decoded now f db = (.ok r, db2)) (hs : r.success = some true) :
    r = refreshOk (newAccess env decoded now) (newRefresh env decoded now) ∧
    UniqueTokens db2 ∧
    (∀ x ∈ db2, x.token = newRefresh env decoded now → x.isRefreshToken = true →
      x.blacklisted = bl) ∧
    (newRefresh env decoded now ≠ rt →
      ∀ x ∈ db2, x.token = rt → x.isRefreshToken = false) := by
  unfold rotate at h
  split at h
  · cases h
  · injection h with h1 h2; injection h1 with h1; subst h1
    simp [failure] at hs
  · rename_i s hfind
    obtain ⟨-, hfind⟩ := findOne_ok _ _ _ _ hfind
    have hsf := List.find?_some hfind
    have hsmem := List.mem_of_find?_eq_some hfind
    rw [refreshFilter_iff] at hsf
    simp only at h
    split at h
    · cases h
    · rename_i db1 hupd
      split at h
      · cases h
      · rename_i db2' hcr
        injection h with h1 h2; injection h1 with h1; subst h1; subst h2
        have hu1 := unique_findOneAndUpdate _ _ _ db db1 hu hupd
        have hu2 := unique_create _ _ db1 db2' hu1 hcr
        obtain ⟨hdb1, -⟩ := findOneAndUpdate_ok _ _ _ db db1 hupd
        obtain ⟨hdb2, -⟩ := create_ok _ _ db1 db2' hcr
        have hq : (fun d : TokenDoc => d.token == rt) s = true := by simp [hsf.1]
        obtain ⟨s0, hfind0⟩ :=
          find?_isSome_of_mem (q := fun d : TokenDoc => d.token == rt) hsmem hq
        have hgs := mem_updateFirst_of_find? (fun d : TokenDoc => d.token == rt)
          (fun d => { d with token := newRefresh env decoded now, lastUsedAt := now,
                             blacklisted := bl }) db s0 hfind0
        refine ⟨rfl, hu2, ?_, ?_⟩
        · intro x hx hxt hxr
          rw [hdb2, List.mem_append] at hx
          rcases hx with hx | hx
          · have hgs1 : ({ s0 with token := newRefresh env decoded now, lastUsedAt := now,
                                     blacklisted := bl } : TokenDoc) ∈ db1 := by
              rw [hdb1]; exact hgs
            have := unique_eq_of_token hu1 hx hgs1 (by rw [hxt])
            rw [this]
          · rw [List.mem_singleton] at hx; subst hx; cases hxr
        · intro hne x hx hxt
          rw [hdb2, List.mem_append] at hx
          rcases hx with hx | hx
          · rw [hdb1] at hx
            have := updateFirst_token_gone rt _ db hu (fun d => hne) x hx hxt
            rw [hfind0] at this; cases this
          · rw [List.mem_singleton] at hx; subst hx; rfl

theorem rotate_miss (env : Env) (bl : Bool) (rt : TokenString) (decoded : Claims) (now : Nat)
    (f : Faults) (db : Db)
    (h : ∀ x ∈ db, x.token = rt → x.isRefreshToken = true → x.blacklisted = true) :
    rotate env bl rt decoded now f db = (.error .MongoError, db) ∨
      rotate env bl rt decoded now f db = (.ok (failure 401 "Invalid refresh token"), db) := by
  unfold rotate Token.findOne
  cases f.fails 0 with
  | true => left; rfl
  | false =>
    right
    have : db.find? (refreshFilter rt decoded.id) = none := by
      rw [List.find?_eq_none]
      intro x hx hq
      rw [refreshFilter_iff] at hq
      have := h x hx hq.1 hq.2.2.1
      rw [hq.2.2.2] at this; cases this
    simp [this]

theorem refreshServer_ok (env : Env) (rto : Option TokenString) (now : Nat) (f : Faults)
    (db : Db) (hs : (refreshServer env rto now f db).1.success = some true) :
    ∃ rt decoded, rto = some rt ∧ jwtVerify rt env.JWT_REFRESH_SECRET now = .ok decoded ∧
      rotate env true rt decoded now f db =
        (.ok (refreshServer env rto now f db).1, (refreshServer env rto now f db).2) := by
  cases rto with
  | none => simp [refreshServer, falsy, failure] at hs
  | some rt =>
    have hnf : falsy (some rt) = false := by
      cases h : falsy (some rt) with
      | false => rfl
      | true => simp [refreshServer, h, failure] at hs
    cases hv : jwtVerify rt env.JWT_REFRESH_SECRET now with
    | error e => simp [refreshServer, hnf, hv, failure, failureCode] at hs
    | ok decoded =>
      refine ⟨rt, decoded, rfl, hv, ?_⟩
      rcases hrot : rotate env true rt decoded now f db with ⟨a, db1⟩
      cases a with
      | error e => simp [refreshServer, hnf, hv, hrot, failure, failureCode] at hs
      | ok r => simp [refreshServer, hnf, hv, hrot]

theorem refreshAuth_ok (env : Env) (rto : Option TokenString) (now : Nat) (f : Faults)
    (db : Db) (hs : (refreshAuth env rto now f db).1.success = some true) :
    ∃ rt decoded, rto = some rt ∧ jwtVerify rt env.JWT_REFRESH_SECRET now = .ok decoded ∧
      rotate env false rt decoded now f db =
        (.ok (refreshAuth env rto now f db).1, (refreshAuth env rto now f db).2) := by
  cases rto with
  | none => simp [refreshAuth, jwtVerify, failure] at hs
  | some rt =>
    cases hv : jwtVerify rt env.JWT_REFRESH_SECRET now with
    | error e => simp [refreshAuth, hv, failure] at hs
    | ok decoded =>
      refine ⟨rt, decoded, rfl, hv, ?_⟩
      rcases hrot : rotate env false rt decoded now f db with ⟨a, db1⟩
      cases a with
      | error e => simp [refreshAuth, hv, hrot, failure] at hs
      | ok r => simp [refreshAuth, hv, hrot]

theorem refreshServer_miss (env : Env) (rt : TokenString) (now : Nat) (f : Faults) (db : Db)
    (h : ∀ x ∈ db, x.token = rt → x.isRefreshToken = true → x.blacklisted = true) :
    Refused (refreshServer env (some rt) now f db).1 ∧
      (refreshServer env (some rt) now f db).2 = db := by
  unfold refreshServer
  simp only [Option.getD_some]
  split
  · simp [Refused, failure]
  · split
    · simp [Refused, failure, failureCode]
    · rename_i decoded _
      rcases rotate_miss env true rt decoded now f db h with hr | hr <;> rw [hr] <;>
        simp [Refused, failure, failureCode]

theorem refreshAuth_miss (env : Env) (rt : TokenString) (now : Nat) (f : Faults) (db : Db)
    (h : ∀ x ∈ db, x.token = rt → x.isRefreshToken = true → x.blacklisted = true) :
    Refused (refreshAuth env (some rt) now f db).1 ∧
      (refreshAuth env (some rt) now f db).2 = db := by
  unfold refreshAuth
  simp only [Option.getD_some]
  split
  · simp [Refused, failure]
  · rename_i decoded _
    rcases rotate_miss env false rt decoded now f db h with hr | hr <;> rw [hr] <;>
      simp [Refused, failure]

/-- Replay of a consumed refresh token.  After a successful refresh through the
handler of server.js on a collection that respects the unique index, the refresh token
that was presented is refused with 401 by the same handler, and the collection is left
as it is.  The handler of routes/auth.js does the same whenever the refresh token it
returned differs from the one presented. -/
theorem refresh_replay_refused (env : Env) (rto : Option TokenString) (now : Nat)
    (f : Faults) (db : Db) (hu : UniqueTokens db) (now2 : Nat) (f2 : Faults) :
    ((refreshServer env rto now f db).1.success = some true →
      Refused (refreshServer env rto now2 f2 (refreshServer env rto now f db).2).1 ∧
      (refreshServer env rto now2 f2 (refreshServer env rto now f db).2).2 =
        (refreshServer env rto now f db).2) ∧
    ((refreshAuth env rto now f db).1.success = some true →
      (refreshAuth env rto now f db).1.refreshToken ≠ rto →
      Refused (refreshAuth env rto now2 f2 (refreshAuth env rto now f db).2).1 ∧
      (refreshAuth env rto now2 f2 (refreshAuth env rto now f db).2).2 =
        (refreshAuth env rto now f db).2) := by
  constructor
  · intro hs
    obtain ⟨rt, decoded, rfl, -, hrot⟩ := refreshServer_ok env rto now f db hs
    obtain ⟨-, -, h3, h4⟩ := rotate_ok env true rt decoded now f db _ _ hu hrot hs
    apply refreshServer_miss
    intro x hx hxt hxr
    by_cases hne : newRefresh env decoded now = rt
    · exact h3 x hx (hxt.trans hne.symm) hxr
    · have := h4 hne x hx hxt
      rw [hxr] at this; cases this
  · intro hs hdiff
    obtain ⟨rt, decoded, rfl, -, hrot⟩ := refreshAuth_ok env rto now f db hs
    obtain ⟨h1, -, -, h4⟩ := rotate_ok env false rt decoded now f db _ _ hu hrot hs
    apply refreshAuth_miss
    intro x hx hxt hxr
    have hne : newRefresh env decoded now ≠ rt := by
      intro heq
      apply hdiff
      rw [h1]; simp [refreshOk, heq]
    have := h4 hne x hx hxt
    rw [hxr] at this; cases this

/-- The replay theorem at the worked example, for both handlers: the refresh of
routes/auth.js takes place in a later second than the login, so the token it returns
differs from the one presented. -/
theorem refresh_replay_refused_witness :
    UniqueTokens aliceSession.2 ∧
    (refreshServer demoEnv (some aliceRefresh) 5000 [] aliceSession.2).1.success = some true ∧
    (refreshAuth demoEnv (some aliceRefresh) 5000 [] aliceSession.2).1.success = some true ∧
    (refreshAuth demoEnv (some aliceRefresh) 5000 [] aliceSession.2).1.refreshToken ≠
      some aliceRefresh ∧
    Refused (refreshServer demoEnv (some aliceRefresh) 6000 []
      (refreshServer demoEnv (some aliceRefresh) 5000 [] aliceSession.2).2).1 ∧
    Refused (refreshAuth demoEnv (some aliceRefresh) 6000 []
      (refreshAuth demoEnv (some aliceRefresh) 5000 [] aliceSession.2).2).1 :=
  ⟨by decide, by decide, by decide, by decide,
    ((refresh_replay_refused demoEnv (some aliceRefresh) 5000 [] aliceSession.2 (by decide)
      6000 []).1 (by decide)).1,
    ((refresh_replay_refused demoEnv (some aliceRefresh) 5000 [] aliceSession.2 (by decide)
      6000 []).2 (by decide) (by decide)).1⟩

/-- C3 fails on the handler of routes/auth.js.  Alice logs in at time 0 and refreshes
500 ms later, within the second her refresh token was issued in: the new refresh token
the handler signs is the same string, and the update writes it back with
`blacklisted: false`.  Presented once more a second later, the same refresh token is
accepted: the handler answers 200 with a new pair. -/
theorem refreshAuth_replay_accepted :
    aliceSession.1.refreshToken = some aliceRefresh ∧
    (refreshAuth demoEnv (some aliceRefresh) 500 [] aliceSession.2).1.success = some true ∧
    (refreshAuth demoEnv (some aliceRefresh) 500 [] aliceSession.2).1.refreshToken =
      some aliceRefresh ∧
    (refreshAuth demoEnv (some aliceRefresh) 1500 []
        (refreshAuth demoEnv (some aliceRefresh) 500 [] aliceSession.2).2).1 =
      refreshOk (.jws { id := 1, role := none, iat := 1, exp := 901 } "access-secret")
        (.jws { id := 1, role := none, iat := 1, exp := 604801 } "refresh-secret") ∧
    (refreshOk (.jws { id := 1, role := none, iat := 1, exp := 901 } "access-secret")
        (.jws { id := 1, role := none, iat := 1, exp := 604801 } "refresh-secret")).status =
      200 := by
  decide

/-- C4. After a successful refresh through the handler of server.js on a collection
that respects the unique index, the refresh token the handler returned is refused by
that same handler with 401 at every later clock reading, its claim expiry not yet
reached included: the document that holds it was written with `blacklisted: true`. -/
theorem refreshServer_returned_token_refused (env : Env) (rto : Option TokenString)
    (now : Nat) (f : Faults) (db : Db) (hu : UniqueTokens db)
    (hs : (refreshServer env rto now f db).1.success = some true)
    (now2 : Nat) (f2 : Faults) :
    (∃ t, (refreshServer env rto now f db).1.refreshToken = some t) ∧
    Refused (refreshServer env (refreshServer env rto now f db).1.refreshToken now2 f2
      (refreshServer env rto now f db).2).1 := by
  obtain ⟨rt, decoded, rfl, -, hrot⟩ := refreshServer_ok env rto now f db hs
  obtain ⟨h1, -, h3, -⟩ := rotate_ok env true rt decoded now f db _ _ hu hrot hs
  have hret : (refreshServer env (some rt) now f db).1.refreshToken =
      some (newRefresh env decoded now) := by rw [h1]; rfl
  rw [hret]
  refine ⟨⟨_, rfl⟩, (refreshServer_miss env _ now2 f2 _ ?_).1⟩
  intro x hx hxt hxr
  exact h3 x hx hxt hxr

/-- C4 at the worked example: Alice refreshes through the handler of server.js five
seconds after her login and presents the refresh token she got back one second later,
days before its claim expiry; the handler answers 401 "Invalid refresh token". -/
theorem refreshServer_returned_token_refused_witness :
    UniqueTokens aliceSession.2 ∧
    (refreshServer demoEnv (some aliceRefresh) 5000 [] aliceSession.2).1.success = some true ∧
    (refreshServer demoEnv (some aliceRefresh) 5000 [] aliceSession.2).1.refreshToken =
      some (.jws { id := 1, role := none, iat := 5, exp := 604805 } "refresh-secret") ∧
    jwtVerify (.jws { id := 1, role := none, iat := 5, exp := 604805 } "refresh-secret")
      demoEnv.JWT_REFRESH_SECRET 6000 =
      .ok { id := 1, role := none, iat := 5, exp := 604805 } ∧
    (refreshServer demoEnv
        (refreshServer demoEnv (some aliceRefresh) 5000 [] aliceSession.2).1.refreshToken
        6000 [] (refreshServer demoEnv (some aliceRefresh) 5000 [] aliceSession.2).2).1 =
      failure 401 "Invalid refresh token" ∧
    (∃ t, (refreshServer demoEnv (some aliceRefresh) 5000 [] aliceSession.2).1.refreshToken =
      some t) ∧
    Refused (refreshServer demoEnv
      (refreshServer demoEnv (some aliceRefresh) 5000 [] aliceSession.2).1.refreshToken
      6000 [] (refreshServer demoEnv (some aliceRefresh) 5000 [] aliceSession.2).2).1 :=
  ⟨by decide, by decide, by decide, rfl, by decide,
    refreshServer_returned_token_refused demoEnv (some aliceRefresh) 5000 [] aliceSession.2
      (by decide) (by decide) 6000 []⟩

/-! ## C5 and C6: the pair login returns -/

theorem login_ok (env : Env) (users : List User) (body : LoginBody) (now : Nat) (f : Faults)
    (db : Db) (hs : (login env users body now f db).1.success = some true) :
    ∃ user, User.findOne env users (body.email.getD "") = some user ∧
      user.correctPassword (body.password.getD "") = true ∧
      (login env users body now f db).1 =
        loginOk user (loginAccess env user now) (loginRefresh env user now) ∧
      (login env users body now f db).2 =
        db ++ [{ userId := user._id, token := loginRefresh env user now, blacklisted := false,
                 isRefreshToken := true, createdAt := now, lastUsedAt := now }]
           ++ [{ userId := user._id, token := loginAccess env user now, blacklisted := false,
                 isRefreshToken := false, createdAt := now, lastUsedAt := now }] := by
  have hs' := hs
  unfold login at hs'
  dsimp only at hs'
  split at hs'
  · simp [failure] at hs'
  · rename_i hA
    split at hs'
    · simp [failure] at hs'
    · rename_i hB
      split at hs'
      · simp [failure] at hs'
      · rename_i user hfind
        split at hs'
        · simp [failure] at hs'
        · rename_i hpw
          split at hs'
          · simp [failure] at hs'
          · rename_i db1 hc1
            split at hs'
            · simp [failure] at hs'
            · rename_i db2 hc2
              obtain ⟨h1, -⟩ := create_ok _ _ _ _ hc1
              obtain ⟨h2, -⟩ := create_ok _ _ _ _ hc2
              have hlogin : login env users body now f db =
                  (loginOk user (loginAccess env user now) (loginRefresh env user now),
                    db2) := by
                unfold login
                dsimp only
                rw [if_neg hA, if_neg hB]
                simp only [hfind]
                rw [if_neg hpw]
                simp only [hc1, hc2]
                rfl
              refine ⟨user, hfind, by simpa using hpw, by rw [hlogin], ?_⟩
              rw [hlogin, h2, h1]; rfl

/-- C5. Whenever login of routes/auth.js answers with a pair, its query found an account
for the email of the body, `correctPassword` accepted the password of the body, and the
pair validates in the collection login left: the `verifyToken` gate, given the access
token before its claim expiry and with the store answering, calls `next` with the id
and role of that account, and the refresh token verifies under the refresh secret
before its claim expiry with the id of that account, and the lookup of the refresh
handlers finds a document of that account for it. -/
theorem login_pair_validates (env : Env) (users : List User) (body : LoginBody) (now : Nat)
    (f : Faults) (db : Db)
    (hs : (login env users body now f db).1.success = some true) :
    ∃ user, User.findOne env users (body.email.getD "") = some user ∧
    user.correctPassword (body.password.getD "") = true ∧
    (∃ access refresh,
      (login env users body now f db).1.token = some access ∧
      (login env users body now f db).1.refreshToken = some refresh ∧
      (∀ req now2 f2, bearer req = some access → now2 / 1000 < now / 1000 + 900 →
        f2.fails 0 = false → f2.fails 1 = false →
        (verifyToken env req now2 f2 (login env users body now f db).2).1 =
          .next { id := user._id, role := some user.role }) ∧
      (∀ now2, now2 / 1000 < now / 1000 + 604800 →
        ∃ d s, jwtVerify refresh env.JWT_REFRESH_SECRET now2 = .ok d ∧ d.id = user._id ∧
          (login env users body now f db).2.find? (refreshFilter refresh d.id) = some s ∧
          s.userId = user._id)) := by
  obtain ⟨user, hu, hpw, hr, hdb⟩ := login_ok env users body now f db hs
  refine ⟨user, hu, hpw, loginAccess env user now, loginRefresh env user now,
    by rw [hr]; rfl, by rw [hr]; rfl, ?_, ?_⟩
  · intro req now2 f2 hb hexp h0 h1
    rw [verifyToken_next_iff]
    refine ⟨_, { id := user._id, role := some user.role, iat := now / 1000,
                 exp := now / 1000 + 900 }, hb, ?_, rfl, ?_, h0, ?_⟩
    · simp only [loginAccess, jwtSign, jwtVerify, ne_eq, not_true_eq_false, if_false]
      rw [if_neg (by omega)]
    · rw [hdb]
      exact ⟨_, List.mem_append_right _ (List.mem_singleton.2 rfl), rfl, rfl, rfl, rfl⟩
    · intro h; rw [h1] at h; cases h
  · intro now2 hexp
    have hv : jwtVerify (loginRefresh env user now) env.JWT_REFRESH_SECRET now2 =
        .ok { id := user._id, role := none, iat := now / 1000,
              exp := now / 1000 + 604800 } := by
      simp only [loginRefresh, jwtSign, jwtVerify, ne_eq, not_true_eq_false, if_false]
      rw [if_neg (by omega)]
    have hmem : ({ userId := user._id, token := loginRefresh env user now,
                   blacklisted := false, isRefreshToken := true, createdAt := now,
                   lastUsedAt := now } : TokenDoc) ∈ (login env users body now f db).2 := by
      rw [hdb]
      exact List.mem_append_left _ (List.mem_append_right _ (List.mem_singleton.2 rfl))
    obtain ⟨s, hs'⟩ := find?_isSome_of_mem
      (q := refreshFilter (loginRefresh env user now) user._id) hmem
      ((refreshFilter_iff _ _ _).2 ⟨rfl, rfl, rfl, rfl⟩)
    refine ⟨_, s, hv, rfl, hs', ?_⟩
    have := List.find?_some hs'
    rw [refreshFilter_iff] at this
    exact this.2.1

/-- C5 at the worked example, the login of `aliceSession`; the login succeeds as well
when Alice writes her email in capitals. -/
theorem login_pair_validates_witness :
    (login demoEnv [alice] aliceBody 0 [] []).1.success = some true ∧
    (login demoEnv [alice]
      { email := some "ALICE@EXAMPLE.COM", password := some "password1" } 0 [] []).1.success =
      some true ∧
    ∃ user, User.findOne demoEnv [alice] (aliceBody.email.getD "") = some user ∧
    user.correctPassword (aliceBody.password.getD "") = true ∧
    (∃ access refresh,
      (login demoEnv [alice] aliceBody 0 [] []).1.token = some access ∧
      (login demoEnv [alice] aliceBody 0 [] []).1.refreshToken = some refresh ∧
      (∀ req now2 f2, bearer req = some access → now2 / 1000 < 0 / 1000 + 900 →
        f2.fails 0 = false → f2.fails 1 = false →
        (verifyToken demoEnv req now2 f2 (login demoEnv [alice] aliceBody 0 [] []).2).1 =
          .next { id := user._id, role := some user.role }) ∧
      (∀ now2, now2 / 1000 < 0 / 1000 + 604800 →
        ∃ d s, jwtVerify refresh demoEnv.JWT_REFRESH_SECRET now2 = .ok d ∧ d.id = user._id ∧
          (login demoEnv [alice] aliceBody 0 [] []).2.find? (refreshFilter refresh d.id) =
            some s ∧
          s.userId = user._id)) :=
  ⟨by decide, by decide,
    login_pair_validates demoEnv [alice] aliceBody 0 [] [] (by decide)⟩

theorem verifyToken_bad_signature (env : Env) (req : Request) (now : Nat) (f : Faults)
    (db : Db) (token : TokenString) (hb : bearer req = some token)
    (hnf : falsy (some token) = false)
    (hv : jwtVerify token env.JWT_SECRET now = .error .JsonWebTokenError) :
    verifyToken env req now f db =
      (.respond (failureCode 401 "Invalid authentication token" "AUTH_FAILED"), db) := by
  unfold verifyToken
  rw [hb]
  simp only [hnf, hv, Bool.false_eq_true, if_false, verifyTokenCatch]
  rfl

/-- C6. With different access and refresh secrets, the refresh token login returned is
refused with 401 by the `verifyToken` gate, and the access token login returned is
refused with 401 by both refresh handlers, in every collection, at every clock
reading and whatever the store flags; none of them changes the collection. -/
theorem kinds_not_interchangeable (env : Env)
    (hne : env.JWT_SECRET ≠ env.JWT_REFRESH_SECRET) (users : List User) (body : LoginBody)
    (now : Nat) (f : Faults) (db : Db)
    (hs : (login env users body now f db).1.success = some true)
    (db2 : Db) (now2 : Nat) (f2 : Faults) :
    (∀ req, bearer req = (login env users body now f db).1.refreshToken →
      ∃ r, verifyToken env req now2 f2 db2 = (.respond r, db2) ∧ r.status = 401 ∧
        r.success = some false) ∧
    (Refused (refreshServer env (login env users body now f db).1.token now2 f2 db2).1 ∧
      (refreshServer env (login env users body now f db).1.token now2 f2 db2).2 = db2) ∧
    (Refused (refreshAuth env (login env users body now f db).1.token now2 f2 db2).1 ∧
      (refreshAuth env (login env users body now f db).1.token now2 f2 db2).2 = db2) := by
  obtain ⟨user, -, -, hr, -⟩ := login_ok env users body now f db hs
  have hrt : (login env users body now f db).1.refreshToken =
      some (loginRefresh env user now) := by rw [hr]; rfl
  have hat : (login env users body now f db).1.token =
      some (loginAccess env user now) := by rw [hr]; rfl
  rw [hrt, hat]
  have hv : jwtVerify (loginAccess env user now) env.JWT_REFRESH_SECRET now2 =
      .error .JsonWebTokenError := by
    simp [loginAccess, jwtSign, jwtVerify, hne]
  refine ⟨?_, ?_, ?_⟩
  · intro req hb
    refine ⟨_, verifyToken_bad_signature env req now2 f2 db2 _ hb rfl ?_, rfl, rfl⟩
    simp [loginRefresh, jwtSign, jwtVerify, Ne.symm hne]
  · unfold refreshServer
    simp only [Option.getD_some, hv]
    simp [loginAccess, jwtSign, falsy, Refused, failureCode, failure]
  · unfold refreshAuth
    simp only [Option.getD_some, hv]
    simp [Refused, failure]

/-- C6 at the worked example: the two tokens of `aliceSession`, each presented where
the other kind is expected, in the collection of that session. -/
theorem kinds_not_interchangeable_witness :
    demoEnv.JWT_SECRET ≠ demoEnv.JWT_REFRESH_SECRET ∧
    (login demoEnv [alice] aliceBody 0 [] []).1.success = some true ∧
    (∀ req, bearer req = (login demoEnv [alice] aliceBody 0 [] []).1.refreshToken →
      ∃ r, verifyToken demoEnv req 1000 [] aliceSession.2 = (.respond r, aliceSession.2) ∧
        r.status = 401 ∧ r.success = some false) ∧
    (Refused (refreshServer demoEnv (login demoEnv [alice] aliceBody 0 [] []).1.token 1000 []
        aliceSession.2).1 ∧
      (refreshServer demoEnv (login demoEnv [alice] aliceBody 0 [] []).1.token 1000 []
        aliceSession.2).2 = aliceSession.2) ∧
    (Refused (refreshAuth demoEnv (login demoEnv [alice] aliceBody 0 [] []).1.token 1000 []
        aliceSession.2).1 ∧
      (refreshAuth demoEnv (login demoEnv [alice] aliceBody 0 [] []).1.token 1000 []
        aliceSession.2).2 = aliceSession.2) :=
  ⟨by decide, by decide,
    kinds_not_interchangeable demoEnv (by decide) [alice] aliceBody 0 [] [] (by decide)
      aliceSession.2 1000 []⟩

/-! ## C7: logout twice -/

theorem updateFirst_idem (q : TokenDoc → Bool) (g : TokenDoc → TokenDoc)
    (hq : ∀ d, q (g d) = q d) (hg : ∀ d, g (g d) = g d) (db : Db) :
    updateFirst q g (updateFirst q g db) = updateFirst q g db := by
  induction db with
  | nil => rfl
  | cons e es ih =>
    by_cases h : q e = true
    · have h2 : q (g e) = true := by rw [hq]; exact h
      simp [updateFirst, h, h2, hg]
    · simp [updateFirst, h, ih]

theorem findOneAndUpdate_keeps (q : TokenDoc → Bool) (g : TokenDoc → TokenDoc)
    (hg : ∀ d, (g d).token = d.token) (db : Db) :
    Token.findOneAndUpdate false q g db = .ok (updateFirst q g db) := by
  unfold Token.findOneAndUpdate
  simp only [Bool.false_eq_true, if_false]
  cases hf : db.find? q with
  | none => simp [updateFirst_of_find?_none q g db hf]
  | some d => simp [hg]

/-- C7. Logout with a token string, when its store call does not reject, answers 200
with success = true whether the string matches a live document, a blacklisted one or
none, and a second logout gives the same response and leaves the collection as the
first one left it. -/
theorem logout_idempotent (req : Request) (f : Faults) (db : Db)
    (htoken : falsy (bearer req) = false) (hf : f.fails 0 = false) :
    (logout req f db).1.status = 200 ∧ (logout req f db).1.success = some true ∧
    (logout req f db).1.error = none ∧
    logout req f (logout req f db).2 = logout req f db := by
  have hk : ∀ d : TokenDoc, ({ d with blacklisted := true } : TokenDoc).token = d.token :=
    fun _ => rfl
  have h1 : ∀ db : Db, logout req f db =
      ({ status := 200, success := some true, error := none, code := none,
         message := some "Logged out successfully", token := none, refreshToken := none,
         expiresIn := none, user := none },
        updateFirst (fun d => d.token == (bearer req).getD (.text ""))
          (fun d => { d with blacklisted := true }) db) := by
    intro db
    unfold logout
    rw [htoken, hf]
    simp only [Bool.false_eq_true, if_false]
    rw [findOneAndUpdate_keeps _ _ hk]
  rw [h1 db, h1]
  refine ⟨rfl, rfl, rfl, ?_⟩
  exact congrArg (Prod.mk _)
    (updateFirst_idem (fun d => d.token == (bearer req).getD (.text ""))
      (fun d => { d with blacklisted := true }) (fun _ => rfl) (fun _ => rfl) db)

/-- C7 at the worked example: logout with the access token of `aliceSession`, and
logout with a string no document holds. -/
theorem logout_idempotent_witness :
    (falsy (bearer (bearerRequest aliceAccess)) = false ∧ Faults.fails [] 0 = false ∧
      (logout (bearerRequest aliceAccess) [] aliceSession.2).1.status = 200 ∧
      (logout (bearerRequest aliceAccess) [] aliceSession.2).1.success = some true ∧
      (logout (bearerRequest aliceAccess) [] aliceSession.2).1.error = none ∧
      logout (bearerRequest aliceAccess) []
          (logout (bearerRequest aliceAccess) [] aliceSession.2).2 =
        logout (bearerRequest aliceAccess) [] aliceSession.2) ∧
    (falsy (bearer (bearerRequest (.text "unknown"))) = false ∧
      (logout (bearerRequest (.text "unknown")) [] aliceSession.2).1.status = 200 ∧
      (logout (bearerRequest (.text "unknown")) [] aliceSession.2).1.success = some true ∧
      (logout (bearerRequest (.text "unknown")) [] aliceSession.2).1.error = none ∧
      logout (bearerRequest (.text "unknown")) []
          (logout (bearerRequest (.text "unknown")) [] aliceSession.2).2 =
        logout (bearerRequest (.text "unknown")) [] aliceSession.2) :=
  ⟨⟨by decide, by decide,
      logout_idempotent (bearerRequest aliceAccess) [] aliceSession.2 (by decide) (by decide)⟩,
    ⟨by decide,
      logout_idempotent (bearerRequest (.text "unknown")) [] aliceSession.2 (by decide)
        (by decide)⟩⟩

/-! ## C8, C9 and C10: how the gates refuse -/

theorem verifyToken_expired (env : Env) (req : Request) (now : Nat) (f : Faults) (db : Db)
    (p : Claims) (hb : bearer req = some (.jws p env.JWT_SECRET)) (hexp : p.exp ≤ now / 1000) :
    verifyToken env req now f db =
      (.respond (failureCode 401 "Session expired. Please refresh your token."
        "TOKEN_EXPIRED"), db) := by
  unfold verifyToken
  rw [hb]
  simp [falsy, jwtVerify, hexp, verifyTokenCatch]

/-- C8. In the `verifyToken` gate a token signed with the access secret whose claim
expiry has passed is answered 401 with code TOKEN_EXPIRED; a token signed with another
secret, or a non-empty string that is no signed token, is answered 401 with code
AUTH_FAILED; and a response of the gate carries TOKEN_EXPIRED only in the first
case. -/
theorem verifyToken_expired_code (env : Env) (req : Request) (now : Nat) (f : Faults)
    (db : Db) :
    (∀ p, bearer req = some (.jws p env.JWT_SECRET) → p.exp ≤ now / 1000 →
      verifyToken env req now f db =
        (.respond (failureCode 401 "Session expired. Please refresh your token."
          "TOKEN_EXPIRED"), db)) ∧
    (∀ p key, bearer req = some (.jws p key) → key ≠ env.JWT_SECRET →
      verifyToken env req now f db =
        (.respond (failureCode 401 "Invalid authentication token" "AUTH_FAILED"), db)) ∧
    (∀ s, bearer req = some (.text s) → s ≠ "" →
      verifyToken env req now f db =
        (.respond (failureCode 401 "Invalid authentication token" "AUTH_FAILED"), db)) ∧
    (∀ r, (verifyToken env req now f db).1 = .respond r → r.code = some "TOKEN_EXPIRED" →
      ∃ p, bearer req = some (.jws p env.JWT_SECRET) ∧ p.exp ≤ now / 1000) := by
  refine ⟨?_, ?_, ?_, ?_⟩
  · intro p hb hexp
    exact verifyToken_expired env req now f db p hb hexp
  · intro p key hb hkey
    exact verifyToken_bad_signature env req now f db _ hb rfl (by simp [jwtVerify, hkey])
  · intro s hb hs
    exact verifyToken_bad_signature env req now f db _ hb (by simp [falsy, hs])
      (by simp [jwtVerify])
  · intro r hr hcode
    unfold verifyToken at hr
    split at hr
    · injection hr with hr; subst hr; simp [failure] at hcode
    · rename_i token hb
      split at hr
      · injection hr with hr; subst hr; simp [failure] at hcode
      · split at hr
        · rename_i err hv
          injection hr with hr; subst hr
          cases token with
          | text s => simp [jwtVerify] at hv; subst hv; simp [verifyTokenCatch, failureCode] at hcode
          | jws p key =>
            by_cases hkey : key = env.JWT_SECRET
            · subst hkey
              by_cases hexp : p.exp ≤ now / 1000
              · exact ⟨p, hb, hexp⟩
              · simp [jwtVerify, hexp] at hv
            · have : err = .JsonWebTokenError := by
                simp [jwtVerify, hkey] at hv; exact hv.symm
              subst this
              simp [verifyTokenCatch, failureCode] at hcode
        · split at hr
          · rename_i err hfo
            injection hr with hr; subst hr
            unfold Token.findOne at hfo
            split at hfo
            · injection hfo with hfo; subst hfo
              simp [verifyTokenCatch, failureCode] at hcode
            · cases hfo
          · injection hr with hr; subst hr; simp [failure] at hcode
          · split at hr
            · split at hr
              · rename_i err hsv
                injection hr with hr; subst hr
                unfold Token.findByIdAndUpdate at hsv
                split at hsv
                · injection hsv with hsv; subst hsv
                  simp [verifyTokenCatch, failureCode] at hcode
                · cases hsv
              · cases hr
            · cases hr

/-- C8 at the worked example: the access token of `aliceSession` after its expiry,
and the refresh token of the session, signed with the other secret. -/
theorem verifyToken_expired_code_witness :
    verifyToken demoEnv (bearerRequest aliceAccess) 900000 [] aliceSession.2 =
      (.respond (failureCode 401 "Session expired. Please refresh your token."
        "TOKEN_EXPIRED"), aliceSession.2) ∧
    verifyToken demoEnv (bearerRequest aliceRefresh) 1000 [] aliceSession.2 =
      (.respond (failureCode 401 "Invalid authentication token" "AUTH_FAILED"),
        aliceSession.2) :=
  ⟨(verifyToken_expired_code demoEnv (bearerRequest aliceAccess) 900000 [] aliceSession.2).1
      _ rfl (by decide),
    (verifyToken_expired_code demoEnv (bearerRequest aliceRefresh) 1000 []
      aliceSession.2).2.1 _ _ rfl (by decide)⟩

theorem auth_respond (env : Env) (req : Request) (now later : Nat) (f : Faults) (db : Db)
    (r : Response) (h : (auth env req now later f db).1 = .respond r) : r.status = 401 := by
  unfold auth at h
  dsimp only at h
  repeat' split at h
  all_goals first
    | (injection h with h; subst h
       simp [bare, bareCode, failure, authCatch]
       try split <;> simp)
    | cases h

/-- C9, as the code has it.  Both gates refuse with 401 every time they refuse.  A
request whose header is missing or has no second piece (for `auth`: does not start
with `Bearer `), and a request whose validly signed token matches no document, are
refused with no machine code at all.  The `verifyToken` gate sends AUTH_FAILED only
from its `catch` block: after a signature failure or a store call that rejected. -/
theorem gate_rejection_codes (env : Env) (req : Request) (now later : Nat) (f : Faults)
    (db : Db) :
    (∀ r, (verifyToken env req now f db).1 = .respond r → r.status = 401) ∧
    (∀ r, (auth env req now later f db).1 = .respond r → r.status = 401) ∧
    (falsy (bearer req) = true →
      ∃ r, verifyToken env req now f db = (.respond r, db) ∧ r.status = 401 ∧
        r.code = none) ∧
    (∀ token d, bearer req = some token → jwtVerify token env.JWT_SECRET now = .ok d →
      f.fails 0 = false →
      (∀ x ∈ db, ¬(x.token = token ∧ x.userId = d.id ∧ x.isRefreshToken = false ∧
        x.blacklisted = false)) →
      ∃ r, verifyToken env req now f db = (.respond r, db) ∧ r.status = 401 ∧
        r.code = none) ∧
    (startsWithBearer req.authorization = false →
      ∃ r, auth env req now later f db = (.respond r, db) ∧ r.status = 401 ∧
        r.code = none) ∧
    (∀ d, startsWithBearer req.authorization = true →
      jwtVerify (replaceBearer (req.authorization.getD [])) env.JWT_SECRET now = .ok d →
      f.fails 0 = false →
      (∀ x ∈ db, ¬(x.token = replaceBearer (req.authorization.getD []) ∧ x.userId = d.id ∧
        x.blacklisted = false)) →
      ∃ r, auth env req now later f db = (.respond r, db) ∧ r.status = 401 ∧
        r.code = none) ∧
    (∀ r, (verifyToken env req now f db).1 = .respond r → r.code = some "AUTH_FAILED" →
      ∃ token, bearer req = some token ∧ falsy (some token) = false ∧
        (jwtVerify token env.JWT_SECRET now = .error .JsonWebTokenError ∨
          f.fails 0 = true ∨ f.fails 1 = true)) := by
  refine ⟨fun r h => (verifyToken_respond env req now f db r h).1,
    auth_respond env req now later f db, ?_, ?_, ?_, ?_, ?_⟩
  · intro hf
    refine ⟨failure 401 "Authentication required. No token found.", ?_, rfl, rfl⟩
    unfold verifyToken
    cases hb : bearer req with
    | none => rfl
    | some token => rw [hb] at hf; simp [hf]
  · intro token d hb hv h0 hmiss
    refine ⟨failure 401 "Invalid session. Please login again.", ?_, rfl, rfl⟩
    have hnone : db.find? (accessFilter token d.id) = none := by
      rw [List.find?_eq_none]
      intro x hx hq
      exact hmiss x hx ((accessFilter_iff _ _ _).1 hq)
    unfold verifyToken
    rw [hb]
    simp [not_falsy_of_verify token _ _ d hv, hv, Token.findOne, h0, hnone]
  · intro hsw
    refine ⟨bare 401 "Authorization token required", ?_, rfl, rfl⟩
    unfold auth
    simp [hsw]
  · intro d hsw hv h0 hmiss
    refine ⟨bare 401 "Invalid token", ?_, rfl, rfl⟩
    have hnone : db.find? (authFilter (replaceBearer (req.authorization.getD [])) d.id) =
        none := by
      rw [List.find?_eq_none]
      intro x hx hq
      apply hmiss x hx
      simpa [authFilter, and_assoc] using hq
    unfold auth
    simp [hsw, hv, Token.findOne, h0, hnone]
  · intro r hr hcode
    unfold verifyToken at hr
    split at hr
    · injection hr with hr; subst hr; simp [failure] at hcode
    · rename_i token hb
      split at hr
      · injection hr with hr; subst hr; simp [failure] at hcode
      · rename_i hnf
        refine ⟨token, hb, by simpa using hnf, ?_⟩
        split at hr
        · rename_i err hv
          injection hr with hr; subst hr
          cases err with
          | TokenExpiredError => simp [verifyTokenCatch, failureCode] at hcode
          | JsonWebTokenError => exact Or.inl hv
          | MongoError =>
            exfalso
            cases token with
            | text s => simp [jwtVerify] at hv
            | jws p key =>
              unfold jwtVerify at hv
              simp only at hv
              split at hv
              · cases hv
              · split at hv <;> cases hv
        · right
          split at hr
          · rename_i err hfo
            unfold Token.findOne at hfo
            split at hfo
            · rename_i h0; exact Or.inl h0
            · cases hfo
          · injection hr with hr; subst hr; simp [failure] at hcode
          · split at hr
            · split at hr
              · rename_i err hsv
                unfold Token.findByIdAndUpdate at hsv
                split at hsv
                · rename_i h1; exact Or.inr h1
                · cases hsv
              · cases hr
            · cases hr

/-- C9 fails on the code: a request without an Authorization header, and a request
whose validly signed token has no document, are refused by `verifyToken` with a
response that carries no code, so not with AUTH_FAILED. -/
theorem gate_rejection_without_code :
    (∃ r, (verifyToken demoEnv { authorization := none } 0 [] []).1 = .respond r ∧
      r.status = 401 ∧ r.code = none ∧ r.code ≠ some "AUTH_FAILED") ∧
    (jwtVerify aliceAccess demoEnv.JWT_SECRET 1000 =
        .ok { id := 1, role := some "user", iat := 0, exp := 900 } ∧
      ∃ r, (verifyToken demoEnv (bearerRequest aliceAccess) 1000 [] []).1 = .respond r ∧
        r.status = 401 ∧ r.code = none ∧ r.code ≠ some "AUTH_FAILED") ∧
    (∃ r, (auth demoEnv { authorization := none } 0 0 [] []).1 = .respond r ∧
      r.status = 401 ∧ r.code = none ∧ r.code ≠ some "AUTH_FAILED") := by
  refine ⟨⟨failure 401 "Authentication required. No token found.", by decide, rfl, rfl,
      by decide⟩,
    ⟨rfl, failure 401 "Invalid session. Please login again.", by decide, rfl, rfl,
      by decide⟩,
    ⟨bare 401 "Authorization token required", by decide, rfl, rfl, by decide⟩⟩

/-- C10, as the code has it.  A token signed with the access secret whose claim expiry
has passed is refused by both gates with 401 and code TOKEN_EXPIRED, and `verifyToken`
leaves the collection as it is.  The `auth` gate blacklists the document it found when
the token still verified but its expiry has passed at the later clock reading of the
gate's own expiry check; it then answers 401. -/
theorem expired_token_rejected (env : Env) (req : Request) (now later : Nat) (f : Faults)
    (db : Db) (p : Claims) :
    (bearer req = some (.jws p env.JWT_SECRET) → p.exp ≤ now / 1000 →
      verifyToken env req now f db =
        (.respond (failureCode 401 "Session expired. Please refresh your token."
          "TOKEN_EXPIRED"), db)) ∧
    (req.authorization = some [.text "Bearer", .jws p env.JWT_SECRET] →
      p.exp ≤ now / 1000 →
      (auth env req now later f db).1 =
        .respond (bareCode 401 "Session expired" "TOKEN_EXPIRED")) ∧
    (req.authorization = some [.text "Bearer", .jws p env.JWT_SECRET] →
      now / 1000 < p.exp → p.exp * 1000 < later → f.fails 0 = false → f.fails 1 = false →
      ∀ s, db.find? (authFilter (.jws p env.JWT_SECRET) p.id) = some s →
        (auth env req now later f db).1 = .respond (bare 401 "Token expired") ∧
        ({ s with blacklisted := true } : TokenDoc) ∈ (auth env req now later f db).2) := by
  refine ⟨?_, ?_, ?_⟩
  · intro hb hexp
    exact verifyToken_expired env req now f db p hb hexp
  · intro hh hexp
    unfold auth
    simp [hh, startsWithBearer, replaceBearer, jwtVerify, hexp, authCatch]
  · intro hh hlive hlate h0 h1 s hs
    have hnot : ¬ p.exp ≤ now / 1000 := by omega
    have hmem := mem_updateFirst_of_find? _ (fun d => { d with blacklisted := true }) db s hs
    simp only [auth, hh, startsWithBearer, replaceBearer, jwtVerify, Option.getD_some,
      Token.findOne, Token.findByIdAndUpdate, h0, h1, hs, hnot, hlate, beq_self_eq_true,
      Bool.not_true, Bool.false_eq_true, if_false, if_true, ne_eq, not_true_eq_false]
    exact ⟨trivial, hmem⟩

/-- C10 fails on the code: the access token of `aliceSession`, presented to
`verifyToken` after its claim expiry while its document is not blacklisted, is
refused, and afterwards that document still has blacklisted = false.  The `auth` gate
leaves it so as well. -/
theorem expired_token_not_blacklisted :
    jwtVerify aliceAccess demoEnv.JWT_SECRET 900000 = .error .TokenExpiredError ∧
    (aliceSession.2.find? (fun d => d.token == aliceAccess)).map (fun d => d.blacklisted) =
      some false ∧
    (∃ r, (verifyToken demoEnv (bearerRequest aliceAccess) 900000 [] aliceSession.2).1 =
      .respond r ∧ r.code = some "TOKEN_EXPIRED") ∧
    (((verifyToken demoEnv (bearerRequest aliceAccess) 900000 [] aliceSession.2).2).find?
        (fun d => d.token == aliceAccess)).map (fun d => d.blacklisted) = some false ∧
    (((auth demoEnv (bearerRequest aliceAccess) 900000 900000 [] aliceSession.2).2).find?
        (fun d => d.token == aliceAccess)).map (fun d => d.blacklisted) = some false := by
  refine ⟨rfl, by decide,
    ⟨failureCode 401 "Session expired. Please refresh your token." "TOKEN_EXPIRED",
      by decide, rfl⟩, by decide, by decide⟩

/-! ## C11, C12 and C13: the admin gate and the admin-only listing -/

theorem bearer_of_startsWithBearer (req : Request)
    (h : startsWithBearer req.authorization = true) : ∃ token, bearer req = some token := by
  unfold bearer
  cases hreq : req.authorization with
  | none => rw [hreq] at h; simp [startsWithBearer] at h
  | some pieces =>
    rw [hreq] at h
    match pieces, h with
    | _ :: t :: _, _ => exact ⟨t, rfl⟩

theorem verifyAdmin_next_iff (env : Env) (req : Request) (now : Nat) (d : Claims) :
    verifyAdmin env req now = .next d ↔
      startsWithBearer req.authorization = true ∧
      ∃ token, bearer req = some token ∧ jwtVerify token env.JWT_SECRET now = .ok d ∧
        d.role = some "admin" := by
  unfold verifyAdmin
  cases hsw : startsWithBearer req.authorization with
  | false => simp
  | true =>
    obtain ⟨token, hb⟩ := bearer_of_startsWithBearer req hsw
    simp only [Bool.not_true, Bool.false_eq_true, if_false, hb, Option.getD_some, true_and]
    cases hv : jwtVerify token env.JWT_SECRET now with
    | error e =>
      constructor
      · intro h; cases h
      · rintro ⟨t, ht, hv', -⟩
        injection ht with ht; subst ht; rw [hv] at hv'; cases hv'
    | ok decoded =>
      by_cases hrole : decoded.role = some "admin"
      · simp only [hrole, ne_eq, not_true_eq_false, if_false]
        constructor
        · intro h; injection h with h; subst h
          exact ⟨token, rfl, hv, hrole⟩
        · rintro ⟨t, ht, hv', -⟩
          injection ht with ht; subst ht; rw [hv] at hv'; injection hv' with hv'; rw [hv']
      · simp only [ne_eq, hrole, not_false_eq_true, if_true]
        constructor
        · intro h; cases h
        · rintro ⟨t, ht, hv', hr⟩
          injection ht with ht; subst ht; rw [hv] at hv'; injection hv' with hv'
          subst hv'; exact absurd hr hrole

theorem listUsers_of_respond (env : Env) (users : List User) (req : Request) (now : Nat)
    (f : Faults) (findFails : Bool) (db : Db) (r : Response)
    (h : (verifyToken env req now f db).1 = .respond r) :
    listUsers env users req now f findFails db = ((r, none), (verifyToken env req now f db).2) := by
  unfold listUsers
  rcases hres : verifyToken env req now f db with ⟨g, db1⟩
  rw [hres] at h
  simp only at h
  subst h
  rfl

theorem listUsers_of_next (env : Env) (users : List User) (req : Request) (now : Nat)
    (f : Faults) (findFails : Bool) (db : Db) (user : ReqUser)
    (h : (verifyToken env req now f db).1 = .next user) (hrole : user.role ≠ some "admin") :
    listUsers env users req now f findFails db =
      ((bare 403 "Access denied. Admins only.", none), (verifyToken env req now f db).2) := by
  unfold listUsers
  rcases hres : verifyToken env req now f db with ⟨g, db1⟩
  rw [hres] at h
  simp only at h
  subst h
  simp [hrole]

/-- C11. A token that verifies under the access secret with a role claim other than
'admin', presented as the second piece of the Authorization header, never makes
`verifyAdmin` call `next`, and is answered 403 by it when the header starts with
`Bearer `.  The user listing never returns user data for it: whenever `verifyToken`
accepts the request, the listing answers 403 "Access denied. Admins only."; a request
that `verifyToken` does not accept gets the 401 of `verifyToken`, not a 403. -/
theorem non_admin_forbidden (env : Env) (users : List User) (req : Request) (now : Nat)
    (f : Faults) (findFails : Bool) (db : Db) (token : TokenString) (d : Claims)
    (hb : bearer req = some token) (hv : jwtVerify token env.JWT_SECRET now = .ok d)
    (hrole : d.role ≠ some "admin") :
    (∀ d2, verifyAdmin env req now ≠ .next d2) ∧
    (startsWithBearer req.authorization = true →
      verifyAdmin env req now = .respond (bare 403 "Access denied. Admins only.")) ∧
    (listUsers env users req now f findFails db).1.2 = none ∧
    (∀ user, (verifyToken env req now f db).1 = .next user →
      listUsers env users req now f findFails db =
        ((bare 403 "Access denied. Admins only.", none), (verifyToken env req now f db).2)) ∧
    ((∀ user, (verifyToken env req now f db).1 ≠ .next user) →
      (listUsers env users req now f findFails db).1.1.status = 401) := by
  have hnext : ∀ user, (verifyToken env req now f db).1 = .next user →
      user.role ≠ some "admin" := by
    intro user hu
    obtain ⟨t, d', ht, hv', hu', -⟩ := (verifyToken_next_iff env req now f db user).1 hu
    rw [hb] at ht; injection ht with ht; subst ht
    rw [hv] at hv'; injection hv' with hv'; subst hv'
    rw [hu']; exact hrole
  refine ⟨?_, ?_, ?_, ?_, ?_⟩
  · intro d2 h2
    obtain ⟨-, t, ht, hv', hr⟩ := (verifyAdmin_next_iff env req now d2).1 h2
    rw [hb] at ht; injection ht with ht; subst ht
    rw [hv] at hv'; injection hv' with hv'; subst hv'
    exact hrole hr
  · intro hsw
    unfold verifyAdmin
    simp [hsw, hb, hv, hrole]
  · cases hres : (verifyToken env req now f db).1 with
    | next user =>
      rw [listUsers_of_next env users req now f findFails db user hres (hnext user hres)]
    | respond r => rw [listUsers_of_respond env users req now f findFails db r hres]
  · intro user hu
    exact listUsers_of_next env users req now f findFails db user hu (hnext user hu)
  · intro hno
    cases hres : (verifyToken env req now f db).1 with
    | next user => exact absurd hres (hno user)
    | respond r =>
      rw [listUsers_of_respond env users req now f findFails db r hres]
      exact (verifyToken_respond env req now f db r hres).1

/-- C11 at the worked example: the access token of `aliceSession`, role 'user', in the
collection of that session, where `verifyToken` accepts it. -/
theorem non_admin_forbidden_witness :
    bearer (bearerRequest aliceAccess) = some aliceAccess ∧
    jwtVerify aliceAccess demoEnv.JWT_SECRET 1000 =
      .ok { id := 1, role := some "user", iat := 0, exp := 900 } ∧
    (some "user" : Option String) ≠ some "admin" ∧
    (verifyToken demoEnv (bearerRequest aliceAccess) 1000 [] aliceSession.2).1 =
      .next { id := 1, role := some "user" } ∧
    listUsers demoEnv [alice, bob] (bearerRequest aliceAccess) 1000 [] false aliceSession.2 =
      ((bare 403 "Access denied. Admins only.", none), aliceSession.2) ∧
    (∀ d2, verifyAdmin demoEnv (bearerRequest aliceAccess) 1000 ≠ .next d2) ∧
    (startsWithBearer (bearerRequest aliceAccess).authorization = true →
      verifyAdmin demoEnv (bearerRequest aliceAccess) 1000 =
        .respond (bare 403 "Access denied. Admins only.")) ∧
    (listUsers demoEnv [alice, bob] (bearerRequest aliceAccess) 1000 [] false
      aliceSession.2).1.2 = none ∧
    (∀ user, (verifyToken demoEnv (bearerRequest aliceAccess) 1000 [] aliceSession.2).1 =
        .next user →
      listUsers demoEnv [alice, bob] (bearerRequest aliceAccess) 1000 [] false aliceSession.2 =
        ((bare 403 "Access denied. Admins only.", none),
          (verifyToken demoEnv (bearerRequest aliceAccess) 1000 [] aliceSession.2).2)) ∧
    ((∀ user, (verifyToken demoEnv (bearerRequest aliceAccess) 1000 [] aliceSession.2).1 ≠
        .next user) →
      (listUsers demoEnv [alice, bob] (bearerRequest aliceAccess) 1000 [] false
        aliceSession.2).1.1.status = 401) :=
  ⟨rfl, rfl, by decide, by decide, by decide,
    non_admin_forbidden demoEnv [alice, bob] (bearerRequest aliceAccess) 1000 [] false
      aliceSession.2 aliceAccess { id := 1, role := some "user", iat := 0, exp := 900 }
      rfl rfl (by decide)⟩

/-- C12, as the code has it.  `verifyAdmin` answers 401 only when the Authorization
header is missing or does not start with `Bearer `.  A token that fails `jwt.verify`,
by its signature or by its expiry, is answered 403 from the `catch` block, and so is a
verified token whose role is not 'admin': status 403 stands for both. -/
theorem verifyAdmin_status (env : Env) (req : Request) (now : Nat) :
    (startsWithBearer req.authorization = false →
      verifyAdmin env req now = .respond (bare 401 "Access denied. No token provided.")) ∧
    (startsWithBearer req.authorization = true →
      ∀ token e, bearer req = some token → jwtVerify token env.JWT_SECRET now = .error e →
        verifyAdmin env req now = .respond (bare 403 "Invalid or expired token.")) ∧
    (startsWithBearer req.authorization = true →
      ∀ token d, bearer req = some token → jwtVerify token env.JWT_SECRET now = .ok d →
        d.role ≠ some "admin" →
        verifyAdmin env req now = .respond (bare 403 "Access denied. Admins only.")) ∧
    (∀ r, verifyAdmin env req now = .respond r →
      (r.status = 401 ↔ startsWithBearer req.authorization = false) ∧
      (r.status = 403 ↔ startsWithBearer req.authorization = true)) := by
  refine ⟨?_, ?_, ?_, ?_⟩
  · intro hsw
    simp [verifyAdmin, hsw]
  · intro hsw token e hb hv
    simp [verifyAdmin, hsw, hb, hv]
  · intro hsw token d hb hv hrole
    simp [verifyAdmin, hsw, hb, hv, hrole]
  · intro r hr
    unfold verifyAdmin at hr
    cases hsw : startsWithBearer req.authorization with
    | false =>
      simp [hsw] at hr
      subst hr
      simp [bare, failure]
    | true =>
      simp only [hsw, Bool.not_true, Bool.false_eq_true, if_false] at hr
      split at hr
      · injection hr with hr; subst hr; simp [bare, failure]
      · split at hr
        · injection hr with hr; subst hr; simp [bare, failure]
        · cases hr

/-- C12 fails on the code.  The access token of `bobSession` after its claim expiry,
the refresh token of that session (signed with the other secret) and an empty token,
each in a header that starts with `Bearer `, are answered 403 by `verifyAdmin`, not
401. -/
theorem verifyAdmin_invalid_token_403 :
    jwtVerify bobAccess demoEnv.JWT_SECRET 900000 = .error .TokenExpiredError ∧
    verifyAdmin demoEnv (bearerRequest bobAccess) 900000 =
      .respond (bare 403 "Invalid or expired token.") ∧
    jwtVerify bobRefresh demoEnv.JWT_SECRET 1000 = .error .JsonWebTokenError ∧
    verifyAdmin demoEnv (bearerRequest bobRefresh) 1000 =
      .respond (bare 403 "Invalid or expired token.") ∧
    verifyAdmin demoEnv (bearerRequest (.text "")) 1000 =
      .respond (bare 403 "Invalid or expired token.") ∧
    (bare 403 "Invalid or expired token.").status ≠ 401 := by
  refine ⟨rfl, by decide, rfl, by decide, by decide, by decide⟩

/-- C13, as the code has it.  `verifyAdmin` calls `next` exactly when the header starts
with `Bearer `, the token verifies under the access secret and its role claim is
'admin'; it does not read the collection.  When it calls `next`, `verifyToken` on the
same input calls `next`, with the same id and role, if and only if, besides, the
collection holds a live access document for the token and the store calls of the gate
do not reject; so a token every access document of which is blacklisted, or that has no
document, is accepted by `verifyAdmin` and refused with 401 by `verifyToken`. -/
theorem verifyAdmin_stateless (env : Env) (req : Request) (now : Nat) (f : Faults) (db : Db)
    (d : Claims) :
    (verifyAdmin env req now = .next d ↔
      startsWithBearer req.authorization = true ∧
      ∃ token, bearer req = some token ∧ jwtVerify token env.JWT_SECRET now = .ok d ∧
        d.role = some "admin") ∧
    (verifyAdmin env req now = .next d →
      ∃ token, bearer req = some token ∧
        (∀ user, (verifyToken env req now f db).1 = .next user →
          user = { id := d.id, role := d.role }) ∧
        ((verifyToken env req now f db).1 = .next { id := d.id, role := d.role } ↔
          (∃ r ∈ db, r.token = token ∧ r.userId = d.id ∧ r.isRefreshToken = false ∧
            r.blacklisted = false) ∧
          f.fails 0 = false ∧
          (f.fails 1 = true → ∀ s, db.find? (accessFilter token d.id) = some s →
            now - s.lastUsedAt ≤ 60000)) ∧
        ((∀ r ∈ db, r.token = token → r.isRefreshToken = false → r.blacklisted = true) →
          ∃ r, verifyToken env req now f db = (.respond r, db) ∧ r.status = 401)) := by
  refine ⟨verifyAdmin_next_iff env req now d, ?_⟩
  intro h
  obtain ⟨-, token, hb, hv, -⟩ := (verifyAdmin_next_iff env req now d).1 h
  have hsame : ∀ user, (verifyToken env req now f db).1 = .next user →
      user = { id := d.id, role := d.role } ∧
        ∃ r ∈ db, r.token = token ∧ r.userId = d.id ∧ r.isRefreshToken = false ∧
          r.blacklisted = false := by
    intro user hu
    obtain ⟨t, d', ht, hv', hu', hrec, -⟩ :=
      (verifyToken_next_iff env req now f db user).1 hu
    rw [hb] at ht; injection ht with ht; subst ht
    rw [hv] at hv'; injection hv' with hv'; subst hv'
    exact ⟨hu', hrec⟩
  refine ⟨token, hb, fun user hu => (hsame user hu).1, ?_, ?_⟩
  · rw [verifyToken_next_iff]
    constructor
    · rintro ⟨t, d', ht, hv', -, hrec, h0, h1⟩
      rw [hb] at ht; injection ht with ht; subst ht
      rw [hv] at hv'; injection hv' with hv'; subst hv'
      exact ⟨hrec, h0, h1⟩
    · rintro ⟨hrec, h0, h1⟩
      exact ⟨token, d, hb, hv, rfl, hrec, h0, h1⟩
  · intro hdead
    cases hres : (verifyToken env req now f db).1 with
    | next user =>
      exfalso
      obtain ⟨-, r, hr, h1, -, h3, h4⟩ := hsame user hres
      rw [hdead r hr h1 h3] at h4
      cases h4
    | respond r =>
      exact ⟨r, Prod.ext hres (verifyToken_respond_store env req now f db r hres),
        (verifyToken_respond env req now f db r hres).1⟩

/-- C13 at the worked example: the access token of `bobSession`, role 'admin'.  In the
collection of that session both gates call `next`; after the logout of Bob
`verifyAdmin` calls `next` as before and `verifyToken` answers 401. -/
theorem verifyAdmin_stateless_witness :
    verifyAdmin demoEnv (bearerRequest bobAccess) 1000 =
      .next { id := 2, role := some "admin", iat := 0, exp := 900 } ∧
    (verifyToken demoEnv (bearerRequest bobAccess) 1000 [] bobSession.2).1 =
      .next { id := 2, role := some "admin" } ∧
    (verifyToken demoEnv (bearerRequest bobAccess) 1000 []
      (logout (bearerRequest bobAccess) [] bobSession.2).2).1 =
      .respond (failure 401 "Invalid session. Please login again.") ∧
    ∃ token, bearer (bearerRequest bobAccess) = some token ∧
      (∀ user, (verifyToken demoEnv (bearerRequest bobAccess) 1000 []
          (logout (bearerRequest bobAccess) [] bobSession.2).2).1 = .next user →
        user = { id := 2, role := some "admin" }) ∧
      ((verifyToken demoEnv (bearerRequest bobAccess) 1000 []
          (logout (bearerRequest bobAccess) [] bobSession.2).2).1 =
          .next { id := 2, role := some "admin" } ↔
        (∃ r ∈ (logout (bearerRequest bobAccess) [] bobSession.2).2,
          r.token = token ∧ r.userId = 2 ∧ r.isRefreshToken = false ∧
          r.blacklisted = false) ∧
        Faults.fails [] 0 = false ∧
        (Faults.fails [] 1 = true →
          ∀ s, (logout (bearerRequest bobAccess) [] bobSession.2).2.find?
              (accessFilter token 2) = some s →
            1000 - s.lastUsedAt ≤ 60000)) ∧
      ((∀ r ∈ (logout (bearerRequest bobAccess) [] bobSession.2).2,
          r.token = token → r.isRefreshToken = false → r.blacklisted = true) →
        ∃ r, verifyToken demoEnv (bearerRequest bobAccess) 1000 []
            (logout (bearerRequest bobAccess) [] bobSession.2).2 =
          (.respond r, (logout (bearerRequest bobAccess) [] bobSession.2).2) ∧
          r.status = 401) :=
  ⟨by decide, by decide, by decide,
    (verifyAdmin_stateless demoEnv (bearerRequest bobAccess) 1000 []
      (logout (bearerRequest bobAccess) [] bobSession.2).2
      { id := 2, role := some "admin", iat := 0, exp := 900 }).2 (by decide)⟩

/-- C13 fails on the code.  After Bob has logged out, and likewise in a collection
that has no document for his token, `verifyAdmin` still calls `next` for the access
token of `bobSession`, while `verifyToken` answers 401 on the same input. -/
theorem verifyAdmin_accepts_revoked :
    (logout (bearerRequest bobAccess) [] bobSession.2).1.success = some true ∧
    verifyAdmin demoEnv (bearerRequest bobAccess) 1000 =
      .next { id := 2, role := some "admin", iat := 0, exp := 900 } ∧
    (verifyToken demoEnv (bearerRequest bobAccess) 1000 []
      (logout (bearerRequest bobAccess) [] bobSession.2).2).1 =
      .respond (failure 401 "Invalid session. Please login again.") ∧
    (verifyToken demoEnv (bearerRequest bobAccess) 1000 [] []).1 =
      .respond (failure 401 "Invalid session. Please login again.") := by
  refine ⟨by decide, by decide, by decide, by decide⟩

/-! ## C14 and C19: what a refresh and a login put in the response -/

theorem rotate_ok_response (env : Env) (bl : Bool) (rt : TokenString) (decoded : Claims)
    (now : Nat) (f : Faults) (db db2 : Db) (r : Response)
    (h : rotate env bl rt decoded now f db = (.ok r, db2)) (hs : r.success = some true) :
    r = refreshOk (newAccess env decoded now) (newRefresh env decoded now) := by
  unfold rotate at h
  split at h
  · cases h
  · injection h with h1 h2; injection h1 with h1; subst h1
    simp [failure] at hs
  · simp only at h
    split at h
    · cases h
    · split at h
      · cases h
      · injection h with h1 h2; injection h1 with h1; subst h1
        rfl

theorem verify_loginRefresh (env : Env) (user : User) (now now2 : Nat) (d : Claims)
    (h : jwtVerify (loginRefresh env user now) env.JWT_REFRESH_SECRET now2 = .ok d) :
    d.id = user._id ∧ d.role = none := by
  simp only [loginRefresh, jwtSign, jwtVerify, ne_eq, not_true_eq_false, if_false] at h
  split at h
  · cases h
  · injection h with h; subst h; exact ⟨rfl, rfl⟩

/-- C14 fails on the code, for every login and either refresh handler.  A successful
refresh with the refresh token login returned answers with an access token whose
payload has the id of the user and no role: the handlers copy `decoded.role`, and the
refresh token login signs carries none.  Whenever `verifyToken` accepts that token it
attaches no role, whatever the role of the user. -/
theorem refresh_drops_role (env : Env) (users : List User) (body : LoginBody) (now : Nat)
    (f : Faults) (db : Db) (user : User)
    (hfind : User.findOne env users (body.email.getD "") = some user)
    (hs : (login env users body now f db).1.success = some true)
    (now2 : Nat) (f2 : Faults) :
    ((refreshServer env (login env users body now f db).1.refreshToken now2 f2
        (login env users body now f db).2).1.success = some true →
      (refreshServer env (login env users body now f db).1.refreshToken now2 f2
        (login env users body now f db).2).1.token =
        some (.jws { id := user._id, role := none, iat := now2 / 1000,
                     exp := now2 / 1000 + 900 } env.JWT_SECRET)) ∧
    ((refreshAuth env (login env users body now f db).1.refreshToken now2 f2
        (login env users body now f db).2).1.success = some true →
      (refreshAuth env (login env users body now f db).1.refreshToken now2 f2
        (login env users body now f db).2).1.token =
        some (.jws { id := user._id, role := none, iat := now2 / 1000,
                     exp := now2 / 1000 + 900 } env.JWT_SECRET)) ∧
    (∀ req now3 f3 db3 u,
      bearer req = some (.jws { id := user._id, role := none, iat := now2 / 1000,
                                exp := now2 / 1000 + 900 } env.JWT_SECRET) →
      (verifyToken env req now3 f3 db3).1 = .next u → u.id = user._id ∧ u.role = none) := by
  obtain ⟨u, hu, -, hr, -⟩ := login_ok env users body now f db hs
  rw [hfind] at hu; injection hu with hu; subst hu
  have hrt : (login env users body now f db).1.refreshToken =
      some (loginRefresh env user now) := by rw [hr]; rfl
  rw [hrt]
  refine ⟨?_, ?_, ?_⟩
  · intro hok
    obtain ⟨rt, decoded, hrt', hv, hrot⟩ := refreshServer_ok env _ now2 f2 _ hok
    injection hrt' with hrt'; subst hrt'
    obtain ⟨hid, hrole⟩ := verify_loginRefresh env user now now2 decoded hv
    rw [rotate_ok_response env true _ decoded now2 f2 _ _ _ hrot hok]
    simp [refreshOk, newAccess, jwtSign, hid, hrole]
  · intro hok
    obtain ⟨rt, decoded, hrt', hv, hrot⟩ := refreshAuth_ok env _ now2 f2 _ hok
    injection hrt' with hrt'; subst hrt'
    obtain ⟨hid, hrole⟩ := verify_loginRefresh env user now now2 decoded hv
    rw [rotate_ok_response env false _ decoded now2 f2 _ _ _ hrot hok]
    simp [refreshOk, newAccess, jwtSign, hid, hrole]
  · intro req now3 f3 db3 u hb hacc
    obtain ⟨t, d, ht, hv, hu', -⟩ := (verifyToken_next_iff env req now3 f3 db3 u).1 hacc
    rw [hb] at ht; injection ht with ht; subst ht
    simp only [jwtVerify, ne_eq, not_true_eq_false, if_false] at hv
    split at hv
    · cases hv
    · injection hv with hv; subst hv; rw [hu']; exact ⟨rfl, rfl⟩

/-- C14 at the worked example.  Bob, an administrator, logs in and the gate attaches
role 'admin' for his access token.  He refreshes five seconds later, through either
handler; the gate accepts the new access token and attaches no role, and `verifyAdmin`
answers 403 to it. -/
theorem refresh_drops_role_witness :
    User.findOne demoEnv [alice, bob] (bobBody.email.getD "") = some bob ∧
    (login demoEnv [alice, bob] bobBody 0 [] []).1.success = some true ∧
    (verifyToken demoEnv (bearerRequest bobAccess) 1000 [] bobSession.2).1 =
      .next { id := 2, role := some "admin" } ∧
    (refreshServer demoEnv (some bobRefresh) 5000 [] bobSession.2).1.success = some true ∧
    (refreshAuth demoEnv (some bobRefresh) 5000 [] bobSession.2).1.success = some true ∧
    (verifyToken demoEnv
        (bearerRequest (.jws { id := 2, role := none, iat := 5, exp := 905 } "access-secret"))
        6000 [] (refreshServer demoEnv (some bobRefresh) 5000 [] bobSession.2).2).1 =
      .next { id := 2, role := none } ∧
    (verifyToken demoEnv
        (bearerRequest (.jws { id := 2, role := none, iat := 5, exp := 905 } "access-secret"))
        6000 [] (refreshAuth demoEnv (some bobRefresh) 5000 [] bobSession.2).2).1 =
      .next { id := 2, role := none } ∧
    verifyAdmin demoEnv
        (bearerRequest (.jws { id := 2, role := none, iat := 5, exp := 905 } "access-secret"))
        6000 = .respond (bare 403 "Access denied. Admins only.") ∧
    ((refreshServer demoEnv (login demoEnv [alice, bob] bobBody 0 [] []).1.refreshToken 5000 []
        (login demoEnv [alice, bob] bobBody 0 [] []).2).1.success = some true →
      (refreshServer demoEnv (login demoEnv [alice, bob] bobBody 0 [] []).1.refreshToken 5000 []
        (login demoEnv [alice, bob] bobBody 0 [] []).2).1.token =
        some (.jws { id := bob._id, role := none, iat := 5000 / 1000,
                     exp := 5000 / 1000 + 900 } demoEnv.JWT_SECRET)) ∧
    ((refreshAuth demoEnv (login demoEnv [alice, bob] bobBody 0 [] []).1.refreshToken 5000 []
        (login demoEnv [alice, bob] bobBody 0 [] []).2).1.success = some true →
      (refreshAuth demoEnv (login demoEnv [alice, bob] bobBody 0 [] []).1.refreshToken 5000 []
        (login demoEnv [alice, bob] bobBody 0 [] []).2).1.token =
        some (.jws { id := bob._id, role := none, iat := 5000 / 1000,
                     exp := 5000 / 1000 + 900 } demoEnv.JWT_SECRET)) ∧
    (∀ req now3 f3 db3 u,
      bearer req = some (.jws { id := bob._id, role := none, iat := 5000 / 1000,
                                exp := 5000 / 1000 + 900 } demoEnv.JWT_SECRET) →
      (verifyToken demoEnv req now3 f3 db3).1 = .next u → u.id = bob._id ∧ u.role = none) :=
  ⟨by decide, by decide, by decide, by decide, by decide, by decide, by decide, by decide,
    refresh_drops_role demoEnv [alice, bob] bobBody 0 [] [] bob (by decide) (by decide)
      5000 []⟩

/-- C19 fails on login.  Every successful login of routes/auth.js answers with
`expiresIn` 3600 together with an access token whose expiry is 900 seconds after its
issue time.  Both refresh handlers answer with `expiresIn` 900 and an access token of
that same lifetime. -/
theorem issuance_expiresIn (env : Env) (users : List User) (body : LoginBody)
    (rto : Option TokenString) (now : Nat) (f : Faults) (db : Db) :
    ((login env users body now f db).1.success = some true →
      (login env users body now f db).1.expiresIn = some 3600 ∧
      ∃ p, (login env users body now f db).1.token = some (.jws p env.JWT_SECRET) ∧
        p.exp = p.iat + 900) ∧
    ((refreshServer env rto now f db).1.success = some true →
      (refreshServer env rto now f db).1.expiresIn = some 900 ∧
      ∃ p, (refreshServer env rto now f db).1.token = some (.jws p env.JWT_SECRET) ∧
        p.exp = p.iat + 900) ∧
    ((refreshAuth env rto now f db).1.success = some true →
      (refreshAuth env rto now f db).1.expiresIn = some 900 ∧
      ∃ p, (refreshAuth env rto now f db).1.token = some (.jws p env.JWT_SECRET) ∧
        p.exp = p.iat + 900) := by
  refine ⟨?_, ?_, ?_⟩
  · intro hs
    obtain ⟨user, -, -, hr, -⟩ := login_ok env users body now f db hs
    rw [hr]
    exact ⟨rfl, _, rfl, rfl⟩
  · intro hs
    obtain ⟨rt, decoded, -, -, hrot⟩ := refreshServer_ok env rto now f db hs
    rw [rotate_ok_response env true rt decoded now f db _ _ hrot hs]
    exact ⟨rfl, _, rfl, rfl⟩
  · intro hs
    obtain ⟨rt, decoded, -, -, hrot⟩ := refreshAuth_ok env rto now f db hs
    rw [rotate_ok_response env false rt decoded now f db _ _ hrot hs]
    exact ⟨rfl, _, rfl, rfl⟩

/-- C19 at the worked example: the login of `aliceSession` answers `expiresIn` 3600
with an access token that expires 900 seconds after it was issued. -/
theorem issuance_expiresIn_witness :
    aliceSession.1.success = some true ∧
    aliceSession.1.expiresIn = some 3600 ∧
    aliceSession.1.token =
      some (.jws { id := 1, role := some "user", iat := 0, exp := 900 } "access-secret") ∧
    ((3600 : Nat) ≠ 900) ∧
    ∃ p, (login demoEnv [alice] aliceBody 0 [] []).1.token = some (.jws p demoEnv.JWT_SECRET) ∧
      p.exp = p.iat + 900 :=
  ⟨by decide, by decide, by decide, by decide,
    ((issuance_expiresIn demoEnv [alice] aliceBody none 0 [] []).1 (by decide)).2⟩

/-! ## C15: the refusals of the refresh handlers -/

theorem rotate_response (env : Env) (bl : Bool) (rt : TokenString) (decoded : Claims)
    (now : Nat) (f : Faults) (db db2 : Db) (r : Response)
    (h : rotate env bl rt decoded now f db = (.ok r, db2)) :
    r = failure 401 "Invalid refresh token" ∨
      r = refreshOk (newAccess env decoded now) (newRefresh env decoded now) := by
  unfold rotate at h
  split at h
  · cases h
  · injection h with h1 h2; injection h1 with h1; subst h1
    exact Or.inl rfl
  · simp only at h
    split at h
    · cases h
    · split at h
      · cases h
      · injection h with h1 h2; injection h1 with h1; subst h1
        exact Or.inr rfl

theorem refreshServer_shape (env : Env) (rto : Option TokenString) (now : Nat) (f : Faults)
    (db : Db) :
    (∃ msg, (refreshServer env rto now f db).1 = failure 401 msg) ∨
    (∃ msg, (refreshServer env rto now f db).1 = failureCode 401 msg "REFRESH_FAILED") ∨
    ∃ a b, (refreshServer env rto now f db).1 = refreshOk a b := by
  unfold refreshServer
  split
  · exact Or.inl ⟨_, rfl⟩
  · split
    · exact Or.inr (Or.inl ⟨_, rfl⟩)
    · rename_i decoded _
      rcases hrot : rotate env true (rto.getD (.text "")) decoded now f db with ⟨a, db1⟩
      cases a with
      | error e => exact Or.inr (Or.inl ⟨_, rfl⟩)
      | ok r =>
        rcases rotate_response env true _ decoded now f db db1 r hrot with hr | hr
        · exact Or.inl ⟨_, hr⟩
        · exact Or.inr (Or.inr ⟨_, _, hr⟩)

theorem refreshAuth_shape (env : Env) (rto : Option TokenString) (now : Nat) (f : Faults)
    (db : Db) :
    (∃ msg, (refreshAuth env rto now f db).1 = failure 401 msg) ∨
    ∃ a b, (refreshAuth env rto now f db).1 = refreshOk a b := by
  unfold refreshAuth
  split
  · exact Or.inl ⟨_, rfl⟩
  · rename_i decoded _
    rcases hrot : rotate env false (rto.getD (.text "")) decoded now f db with ⟨a, db1⟩
    cases a with
    | error e => exact Or.inl ⟨_, rfl⟩
    | ok r =>
      rcases rotate_response env false _ decoded now f db db1 r hrot with hr | hr
      · exact Or.inl ⟨_, hr⟩
      · exact Or.inr ⟨_, _, hr⟩

/-- C15, as the code has it.  A refresh that yields no pair is answered 401 with
success = false by both handlers.  The handler of server.js sends the code
REFRESH_FAILED from its `catch` block only, that is after a failed `jwt.verify` (bad
signature or expired claims) or a store call that threw; a missing refresh token and a
lookup that finds no document are answered without a code.  The handler of
routes/auth.js never sends a code. -/
theorem refresh_failure_codes (env : Env) (rto : Option TokenString) (now : Nat)
    (f : Faults) (db : Db) :
    ((refreshServer env rto now f db).1.success ≠ some true →
      (refreshServer env rto now f db).1.status = 401 ∧
      (refreshServer env rto now f db).1.success = some false) ∧
    (falsy rto = true →
      refreshServer env rto now f db = (failure 401 "Refresh token required", db)) ∧
    (∀ rt e, rto = some rt → falsy rto = false →
      jwtVerify rt env.JWT_REFRESH_SECRET now = .error e →
      refreshServer env rto now f db =
        (failureCode 401 (refreshErrorMessage e) "REFRESH_FAILED", db)) ∧
    (∀ rt d, rto = some rt → jwtVerify rt env.JWT_REFRESH_SECRET now = .ok d →
      f.fails 0 = false → db.find? (refreshFilter rt d.id) = none →
      refreshServer env rto now f db = (failure 401 "Invalid refresh token", db)) ∧
    (∀ rt d e db1, rto = some rt → jwtVerify rt env.JWT_REFRESH_SECRET now = .ok d →
      rotate env true rt d now f db = (.error e, db1) →
      refreshServer env rto now f db =
        (failureCode 401 (refreshErrorMessage e) "REFRESH_FAILED", db1)) ∧
    ((refreshServer env rto now f db).1.code = some "REFRESH_FAILED" →
      ∃ rt, rto = some rt ∧ falsy rto = false ∧
        ((∃ e, jwtVerify rt env.JWT_REFRESH_SECRET now = .error e) ∨
          ∃ d e db1, jwtVerify rt env.JWT_REFRESH_SECRET now = .ok d ∧
            rotate env true rt d now f db = (.error e, db1))) ∧
    ((refreshAuth env rto now f db).1.success ≠ some true →
      (refreshAuth env rto now f db).1.status = 401 ∧
      (refreshAuth env rto now f db).1.success = some false) ∧
    (refreshAuth env rto now f db).1.code = none := by
  refine ⟨?_, ?_, ?_, ?_, ?_, ?_, ?_, ?_⟩
  · intro hs
    rcases refreshServer_shape env rto now f db with ⟨m, h⟩ | ⟨m, h⟩ | ⟨a, b, h⟩
    · rw [h]; exact ⟨rfl, rfl⟩
    · rw [h]; exact ⟨rfl, rfl⟩
    · rw [h] at hs; exact absurd rfl hs
  · intro hf
    simp [refreshServer, hf]
  · intro rt e hrt hf hv
    subst hrt
    simp [refreshServer, hf, hv]
  · intro rt d hrt hv h0 hnone
    subst hrt
    have hf := not_falsy_of_verify rt _ _ d hv
    simp [refreshServer, hf, hv, rotate, Token.findOne, h0, hnone]
  · intro rt d e db1 hrt hv hrot
    subst hrt
    have hf := not_falsy_of_verify rt _ _ d hv
    simp [refreshServer, hf, hv, hrot]
  · intro hc
    cases rto with
    | none => simp [refreshServer, falsy, failure] at hc
    | some rt =>
      cases hf : falsy (some rt) with
      | true => simp [refreshServer, hf, failure] at hc
      | false =>
        refine ⟨rt, rfl, rfl, ?_⟩
        cases hv : jwtVerify rt env.JWT_REFRESH_SECRET now with
        | error e => exact Or.inl ⟨e, rfl⟩
        | ok d =>
          right
          rcases hrot : rotate env true rt d now f db with ⟨a, db1⟩
          cases a with
          | error e => exact ⟨d, e, db1, rfl, hrot⟩
          | ok r =>
            exfalso
            simp only [refreshServer, hf, Bool.false_eq_true, if_false, Option.getD_some, hv,
              hrot] at hc
            rcases rotate_response env true rt d now f db db1 r hrot with hr | hr <;>
              subst hr <;> simp [failure, refreshOk] at hc
  · intro hs
    rcases refreshAuth_shape env rto now f db with ⟨m, h⟩ | ⟨a, b, h⟩
    · rw [h]; exact ⟨rfl, rfl⟩
    · rw [h] at hs; exact absurd rfl hs
  · rcases refreshAuth_shape env rto now f db with ⟨m, h⟩ | ⟨a, b, h⟩ <;> rw [h] <;> rfl

/-- C15 fails on the code.  The handler of server.js answers a body without a refresh
token, and a refresh token of valid signature that has no document, with no code; the
handler of routes/auth.js answers a token signed with the other secret, and an expired
refresh token, with no code. -/
theorem refresh_failure_without_code :
    refreshServer demoEnv none 1000 [] aliceSession.2 =
      (failure 401 "Refresh token required", aliceSession.2) ∧
    (failure 401 "Refresh token required").code ≠ some "REFRESH_FAILED" ∧
    jwtVerify aliceRefresh demoEnv.JWT_REFRESH_SECRET 1000 =
      .ok { id := 1, role := none, iat := 0, exp := 604800 } ∧
    refreshServer demoEnv (some aliceRefresh) 1000 [] [] =
      (failure 401 "Invalid refresh token", []) ∧
    (failure 401 "Invalid refresh token").code ≠ some "REFRESH_FAILED" ∧
    refreshAuth demoEnv (some aliceAccess) 1000 [] aliceSession.2 =
      (failure 401 "Invalid refresh token", aliceSession.2) ∧
    refreshAuth demoEnv (some aliceRefresh) 604800000 [] aliceSession.2 =
      (failure 401 "Refresh token expired", aliceSession.2) ∧
    (failure 401 "Refresh token expired").code ≠ some "REFRESH_FAILED" := by
  refine ⟨by decide, by decide, rfl, by decide, by decide, by decide, by decide, by decide⟩

/-! ## C16 and C17: the touch of `lastUsedAt`, and the header -/

theorem updateFirst_split (q : TokenDoc → Bool) (g : TokenDoc → TokenDoc) (db : Db)
    (s : TokenDoc) (h : db.find? q = some s) :
    ∃ pre post, db = pre ++ s :: post ∧ (∀ x ∈ pre, q x = false) ∧
      updateFirst q g db = pre ++ g s :: post := by
  induction db with
  | nil => simp at h
  | cons e es ih =>
    by_cases hq : q e = true
    · rw [List.find?_cons_of_pos _ hq] at h; injection h with h; subst h
      exact ⟨[], es, rfl, by simp, by simp [updateFirst, hq]⟩
    · rw [List.find?_cons_of_neg _ hq] at h
      obtain ⟨pre, post, h1, h2, h3⟩ := ih h
      refine ⟨e :: pre, post, by rw [h1]; rfl, ?_, ?_⟩
      · intro x hx
        rcases List.mem_cons.1 hx with rfl | hx
        · simpa using hq
        · exact h2 x hx
      · simp [updateFirst, hq, h3]

theorem verifyToken_store (env : Env) (req : Request) (now : Nat) (f : Faults) (db : Db) :
    ((∀ user, (verifyToken env req now f db).1 ≠ .next user) →
      (verifyToken env req now f db).2 = db) ∧
    (∀ token d s, bearer req = some token → jwtVerify token env.JWT_SECRET now = .ok d →
      db.find? (accessFilter token d.id) = some s →
      (now - s.lastUsedAt ≤ 60000 → (verifyToken env req now f db).2 = db) ∧
      (60000 < now - s.lastUsedAt → ∀ user, (verifyToken env req now f db).1 = .next user →
        (verifyToken env req now f db).2 =
          updateFirst (accessFilter token d.id) (fun x => { x with lastUsedAt := now }) db)) := by
  constructor
  · intro hno
    cases hres : (verifyToken env req now f db).1 with
    | next user => exact absurd hres (hno user)
    | respond r => exact verifyToken_respond_store env req now f db r hres
  · intro token d s hb hv hfind
    have hnf := not_falsy_of_verify token _ _ d hv
    constructor
    · intro hwin
      have : ¬ (now - s.lastUsedAt > 60000) := by omega
      unfold verifyToken
      rw [hb]
      simp only [hnf, Bool.false_eq_true, if_false, hv, Token.findOne]
      cases f.fails 0 with
      | true => rfl
      | false => simp only [Bool.false_eq_true, if_false, hfind, this]
    · intro hout user hacc
      unfold verifyToken at hacc ⊢
      rw [hb] at hacc ⊢
      simp only [hnf, Bool.false_eq_true, if_false, hv, Token.findOne] at hacc ⊢
      cases h0 : f.fails 0 with
      | true => simp [h0] at hacc
      | false =>
        simp only [h0, Bool.false_eq_true, if_false, hfind, gt_iff_lt, hout, if_true,
          Token.findByIdAndUpdate] at hacc ⊢
        cases h1 : f.fails 1 with
        | true => simp [h1] at hacc
        | false => simp

theorem verifyToken_accept_found (env : Env) (req : Request) (now : Nat) (f : Faults)
    (db : Db) (user : ReqUser) (h : (verifyToken env req now f db).1 = .next user) :
    ∃ token d s, bearer req = some token ∧ jwtVerify token env.JWT_SECRET now = .ok d ∧
      db.find? (accessFilter token d.id) = some s := by
  obtain ⟨token, d, hb, hv, -, ⟨r, hr, hrest⟩, -⟩ :=
    (verifyToken_next_iff env req now f db user).1 h
  obtain ⟨s, hs⟩ := find?_isSome_of_mem (q := accessFilter token d.id) hr
    ((accessFilter_iff _ _ _).2 hrest)
  exact ⟨token, d, s, hb, hv, hs⟩

theorem verifyToken_in_window (env : Env) (req : Request) (now : Nat) (f : Faults) (db : Db)
    (token : TokenString) (hb : bearer req = some token)
    (hwin : ∀ d s, jwtVerify token env.JWT_SECRET now = .ok d →
      db.find? (accessFilter token d.id) = some s → now - s.lastUsedAt ≤ 60000) :
    (verifyToken env req now f db).2 = db := by
  cases hres : (verifyToken env req now f db).1 with
  | respond r => exact verifyToken_respond_store env req now f db r hres
  | next user =>
    obtain ⟨t, d, s, ht, hv, hs⟩ := verifyToken_accept_found env req now f db user hres
    rw [hb] at ht; injection ht with ht; subst ht
    exact ((verifyToken_store env req now f db).2 token d s hb hv hs).1 (hwin d s hv hs)

/-- C16. When `verifyToken` accepts a request, it found a document `s` for the token.
If at most 60000 ms have passed since `s.lastUsedAt`, the collection is left exactly as
it was; if more have passed, the collection differs in that one document only, whose
`lastUsedAt` becomes the clock reading.  A refused request leaves the collection as it
was.  So any number of validations of a token, each within 60 seconds of the recorded
`lastUsedAt`, leave the collection, and with it `lastUsedAt`, unchanged. -/
theorem verifyToken_touch_throttled (env : Env) (req : Request) (now : Nat) (f : Faults)
    (db : Db) :
    (∀ user, (verifyToken env req now f db).1 = .next user →
      ∃ token d s pre post, bearer req = some token ∧
        jwtVerify token env.JWT_SECRET now = .ok d ∧
        db.find? (accessFilter token d.id) = some s ∧ db = pre ++ s :: post ∧
        (now - s.lastUsedAt ≤ 60000 → (verifyToken env req now f db).2 = db) ∧
        (60000 < now - s.lastUsedAt →
          (verifyToken env req now f db).2 = pre ++ { s with lastUsedAt := now } :: post)) ∧
    (∀ r, (verifyToken env req now f db).1 = .respond r →
      (verifyToken env req now f db).2 = db) ∧
    (∀ token (times : List (Nat × Faults)), bearer req = some token →
      (∀ p ∈ times, ∀ d s, jwtVerify token env.JWT_SECRET p.1 = .ok d →
        db.find? (accessFilter token d.id) = some s → p.1 - s.lastUsedAt ≤ 60000) →
      run env db (times.map (fun p => Op.verifyToken req p.1 p.2)) = db) := by
  refine ⟨?_, ?_, ?_⟩
  · intro user hacc
    obtain ⟨token, d, s, hb, hv, hs⟩ := verifyToken_accept_found env req now f db user hacc
    obtain ⟨pre, post, hsplit, -, hupd⟩ :=
      updateFirst_split (accessFilter token d.id) (fun x => { x with lastUsedAt := now }) db s hs
    refine ⟨token, d, s, pre, post, hb, hv, hs, hsplit, ?_, ?_⟩
    · exact ((verifyToken_store env req now f db).2 token d s hb hv hs).1
    · intro hout
      rw [((verifyToken_store env req now f db).2 token d s hb hv hs).2 hout user hacc, hupd]
  · intro r hr
    exact verifyToken_respond_store env req now f db r hr
  · intro token times hb
    induction times with
    | nil => intro _; rfl
    | cons p ps ih =>
      intro hwin
      have h1 : (verifyToken env req p.1 p.2 db).2 = db :=
        verifyToken_in_window env req p.1 p.2 db token hb
          (hwin p (List.mem_cons_self _ _))
      simp only [List.map_cons, run, List.foldl_cons, step, h1]
      exact ih (fun q hq => hwin q (List.mem_cons_of_mem _ hq))

/-- C16 at the worked example: the access token of `aliceSession`, whose document has
`lastUsedAt` 0.  At 60000 ms the gate accepts and changes nothing; at 60001 ms it
accepts and sets `lastUsedAt` of that document to 60001. -/
theorem verifyToken_touch_throttled_witness :
    verifyToken demoEnv (bearerRequest aliceAccess) 60000 [] aliceSession.2 =
      (.next { id := 1, role := some "user" }, aliceSession.2) ∧
    verifyToken demoEnv (bearerRequest aliceAccess) 60001 [] aliceSession.2 =
      (.next { id := 1, role := some "user" },
        [{ userId := 1, token := aliceRefresh, blacklisted := false, isRefreshToken := true,
           createdAt := 0, lastUsedAt := 0 },
         { userId := 1, token := aliceAccess, blacklisted := false, isRefreshToken := false,
           createdAt := 0, lastUsedAt := 60001 }]) ∧
    run demoEnv aliceSession.2
        ([(1000, []), (30000, []), (60000, [])].map
          (fun p => Op.verifyToken (bearerRequest aliceAccess) p.1 p.2)) =
      aliceSession.2 :=
  ⟨by decide, by decide,
    (verifyToken_touch_throttled demoEnv (bearerRequest aliceAccess) 0 [] aliceSession.2).2.2
      aliceAccess [(1000, []), (30000, []), (60000, [])] rfl (by
        intro p hp d s _ _
        have hp' : p.1 ≤ 60000 := by
          simp only [List.mem_cons, List.mem_singleton, List.not_mem_nil, or_false] at hp
          rcases hp with rfl | rfl | rfl <;> decide
        omega)⟩

theorem verifyToken_reads_second_piece (env : Env) (req req2 : Request) (now : Nat)
    (f : Faults) (db : Db) (h : bearer req2 = bearer req) :
    verifyToken env req2 now f db = verifyToken env req now f db := by
  unfold verifyToken
  rw [h]

/-- C17, as the code has it.  `verifyToken` answers 401 without calling `next` when the
Authorization header is absent or has no second piece (or an empty one).  It reads
nothing but that second piece: two headers with the same second piece get the same
answer, whatever their first piece, so a header that does not start with `Bearer ` is
accepted when what follows its first space validates.  The `auth` gate answers 401 to
every header that is absent or does not start with `Bearer `. -/
theorem header_handling (env : Env) (req : Request) (now later : Nat) (f : Faults)
    (db : Db) :
    (falsy (bearer req) = true →
      verifyToken env req now f db =
        (.respond (failure 401 "Authentication required. No token found."), db)) ∧
    (∀ scheme token,
      verifyToken env { authorization := some [scheme, token] } now f db =
        verifyToken env (bearerRequest token) now f db) ∧
    (startsWithBearer req.authorization = false →
      auth env req now later f db =
        (.respond (bare 401 "Authorization token required"), db)) := by
  refine ⟨?_, ?_, ?_⟩
  · intro hf
    unfold verifyToken
    cases hb : bearer req with
    | none => rfl
    | some token => rw [hb] at hf; simp [hf]
  · intro scheme token
    exact verifyToken_reads_second_piece env _ _ now f db rfl
  · intro hsw
    simp [auth, hsw]

/-- C17 fails on `verifyToken`.  The header `Token <access token of aliceSession>` does
not start with `Bearer `, and `verifyToken` calls `next` for it; so it does for a
header whose first piece is empty. -/
theorem verifyToken_accepts_other_scheme :
    startsWithBearer (some [.text "Token", aliceAccess]) = false ∧
    (verifyToken demoEnv { authorization := some [.text "Token", aliceAccess] } 1000 []
      aliceSession.2).1 = .next { id := 1, role := some "user" } ∧
    startsWithBearer (some [.text "", aliceAccess]) = false ∧
    (verifyToken demoEnv { authorization := some [.text "", aliceAccess] } 1000 []
      aliceSession.2).1 = .next { id := 1, role := some "user" } := by
  refine ⟨by decide, by decide, by decide, by decide⟩

/-! ## C18: the documents login adds -/

theorem create_fresh (doc : TokenDoc) (db : Db) (h : ∀ x ∈ db, x.token ≠ doc.token) :
    Token.create false doc db = .ok (db ++ [doc]) := by
  unfold Token.create
  have : db.any (fun d => d.token == doc.token) = false := by
    rw [List.any_eq_false]
    intro x hx
    simpa using h x hx
  simp [this]

theorem login_appends (env : Env) (users : List User) (body : LoginBody) (now : Nat)
    (f : Faults) (db : Db) :
    ∃ added, (login env users body now f db).2 = db ++ added ∧ added.length ≤ 2 := by
  unfold login
  dsimp only
  split
  · exact ⟨[], by simp, by simp⟩
  · split
    · exact ⟨[], by simp, by simp⟩
    · split
      · exact ⟨[], by simp, by simp⟩
      · split
        · exact ⟨[], by simp, by simp⟩
        · split
          · exact ⟨[], by simp, by simp⟩
          · rename_i db1 hc1
            obtain ⟨h1, -⟩ := create_ok _ _ _ _ hc1
            split
            · exact ⟨_, h1, by simp⟩
            · rename_i db2 hc2
              obtain ⟨h2, -⟩ := create_ok _ _ _ _ hc2
              exact ⟨_, by rw [h2, h1, List.append_assoc], by simp⟩

/-- C18 fails on the code.  Login only appends to the collection, at most two
documents, so every document that existed before is unchanged; and when the account
found by email passes the password check, the store calls do not reject and the
collection holds neither of the two token strings login signs, login answers 200 with
the pair and appends exactly two documents of that account, not blacklisted: first the
one of the refresh token, with `isRefreshToken` set, then the one of the access token.
But after a login that succeeded, the same valid credentials presented again within
the same second of the clock are answered 500 and add nothing: `jwt.sign` gives the
same two strings, and the unique index refuses the first `Token.create`. -/
theorem login_adds_two_records (env : Env) (users : List User) (body : LoginBody)
    (now : Nat) (f : Faults) (db : Db) (user : User)
    (hfind : User.findOne env users (body.email.getD "") = some user)
    (hpw : user.correctPassword (body.password.getD "") = true) :
    (∃ added, (login env users body now f db).2 = db ++ added ∧ added.length ≤ 2) ∧
    (falsyStr body.email = false → falsyStr body.password = false →
      f.fails 0 = false → f.fails 1 = false → f.fails 2 = false →
      (∀ x ∈ db, x.token ≠ loginRefresh env user now ∧ x.token ≠ loginAccess env user now) →
      login env users body now f db =
        (loginOk user (loginAccess env user now) (loginRefresh env user now),
          db ++ [{ userId := user._id, token := loginRefresh env user now,
                   blacklisted := false, isRefreshToken := true, createdAt := now,
                   lastUsedAt := now },
                 { userId := user._id, token := loginAccess env user now,
                   blacklisted := false, isRefreshToken := false, createdAt := now,
                   lastUsedAt := now }])) ∧
    ((login env users body now f db).1.success = some true →
      ∀ later g, later / 1000 = now / 1000 →
        login env users body later g (login env users body now f db).2 =
          (failure 500 "Login failed due to a server error",
            (login env users body now f db).2)) := by
  refine ⟨login_appends env users body now f db, ?_, ?_⟩
  · intro he hp h0 h1 h2 hfresh
    have hc1 := create_fresh
      { userId := user._id, token := loginRefresh env user now, blacklisted := false,
        isRefreshToken := true, createdAt := now, lastUsedAt := now } db
      (fun x hx => (hfresh x hx).1)
    have hc2 := create_fresh
      { userId := user._id, token := loginAccess env user now, blacklisted := false,
        isRefreshToken := false, createdAt := now, lastUsedAt := now }
      (db ++ [{ userId := user._id, token := loginRefresh env user now, blacklisted := false,
                isRefreshToken := true, createdAt := now, lastUsedAt := now }])
      (by
        intro x hx
        rcases List.mem_append.1 hx with hx | hx
        · exact (hfresh x hx).2
        · rw [List.mem_singleton] at hx; subst hx
          simp [loginRefresh, loginAccess, jwtSign])
    unfold login
    simp only [he, hp, Bool.or_self, Bool.false_eq_true, if_false, h0, hfind, hpw,
      Bool.not_true, h1, h2]
    simp only [loginAccess, loginRefresh] at hc1 hc2 ⊢
    rw [hc1]
    simp only
    rw [hc2]
    simp
  · intro hs later g hsec
    obtain ⟨u, hu, -, -, hdb⟩ := login_ok env users body now f db hs
    rw [hfind] at hu; injection hu with hu; subst hu
    have hfalsy : (falsyStr body.email || falsyStr body.password) = false := by
      cases hfa : (falsyStr body.email || falsyStr body.password) with
      | false => rfl
      | true =>
        exfalso
        unfold login at hs
        rw [if_pos hfa] at hs
        simp [failure] at hs
    have hheld : ((login env users body now f db).2.any
        (fun d => d.token ==
          jwtSign { id := user._id, role := none } env.JWT_REFRESH_SECRET 604800 later)) =
        true := by
      rw [List.any_eq_true, hdb]
      refine ⟨{ userId := user._id, token := loginRefresh env user now,
                blacklisted := false, isRefreshToken := true, createdAt := now,
                lastUsedAt := now }, ?_, ?_⟩
      · exact List.mem_append_left _ (List.mem_append_right _ (List.mem_singleton.2 rfl))
      · simp [loginRefresh, jwtSign, hsec]
    generalize (login env users body now f db).2 = db1 at hheld ⊢
    unfold login
    rw [if_neg (by simp [hfalsy])]
    by_cases hg : g.fails 0 = true
    · rw [if_pos hg]
    · rw [if_neg hg]
      simp only [hfind, hpw, Bool.not_true, Bool.false_eq_true, if_false]
      have hcreate : ∀ doc : TokenDoc,
          doc.token =
            jwtSign { id := user._id, role := none } env.JWT_REFRESH_SECRET 604800 later →
          ∃ e, Token.create (g.fails 1) doc db1 = .error e := by
        intro doc hdoc
        unfold Token.create
        by_cases h1 : g.fails 1 = true
        · exact ⟨_, by rw [if_pos h1]⟩
        · rw [if_neg h1, hdoc, if_pos hheld]
          exact ⟨_, rfl⟩
      obtain ⟨e, he⟩ := hcreate
        { userId := user._id,
          token := jwtSign { id := user._id, role := none } env.JWT_REFRESH_SECRET 604800
            later,
          blacklisted := false, isRefreshToken := true, createdAt := later,
          lastUsedAt := later } rfl
      rw [he]

/-- C18 at the worked example.  Bob logs in while the collection holds the session of
Alice, and two documents of his are appended.  Alice presents her valid credentials a
second time 500 ms after the login of `aliceSession`, within the same second, and gets
500 with nothing added. -/
theorem login_adds_two_records_witness :
    User.findOne demoEnv [alice, bob] (bobBody.email.getD "") = some bob ∧
    bob.correctPassword (bobBody.password.getD "") = true ∧
    login demoEnv [alice, bob] bobBody 7000 [] aliceSession.2 =
      (loginOk bob (loginAccess demoEnv bob 7000) (loginRefresh demoEnv bob 7000),
        aliceSession.2 ++
          [{ userId := 2, token := loginRefresh demoEnv bob 7000, blacklisted := false,
             isRefreshToken := true, createdAt := 7000, lastUsedAt := 7000 },
           { userId := 2, token := loginAccess demoEnv bob 7000, blacklisted := false,
             isRefreshToken := false, createdAt := 7000, lastUsedAt := 7000 }]) ∧
    User.findOne demoEnv [alice] (aliceBody.email.getD "") = some alice ∧
    alice.correctPassword (aliceBody.password.getD "") = true ∧
    aliceSession.1.success = some true ∧
    login demoEnv [alice] aliceBody 500 [] aliceSession.2 =
      (failure 500 "Login failed due to a server error", aliceSession.2) ∧
    ∀ later g, later / 1000 = 0 / 1000 →
      login demoEnv [alice] aliceBody later g (login demoEnv [alice] aliceBody 0 [] []).2 =
        (failure 500 "Login failed due to a server error",
          (login demoEnv [alice] aliceBody 0 [] []).2) :=
  ⟨by decide, by decide,
    (login_adds_two_records demoEnv [alice, bob] bobBody 7000 [] aliceSession.2 bob
      (by decide) (by decide)).2.1 (by decide) (by decide) (by decide) (by decide)
      (by decide) (by decide),
    by decide, by decide, by decide, by decide,
    (login_adds_two_records demoEnv [alice] aliceBody 0 [] [] alice
      (by decide) (by decide)).2.2 (by decide)⟩

/-! ## C20: a blacklisted document stays blacklisted -/

theorem blacklistKept_refl (db : Db) : BlacklistKept db db :=
  fun _ d hd hb => ⟨d, hd, hb⟩

theorem blacklistKept_trans {a b c : Db} (h1 : BlacklistKept a b) (h2 : BlacklistKept b c) :
    BlacklistKept a c := by
  intro i d hd hb
  obtain ⟨d2, hd2, hb2⟩ := h1 i d hd hb
  exact h2 i d2 hd2 hb2

theorem blacklistKept_append (db added : Db) : BlacklistKept db (db ++ added) := by
  intro i d hd hb
  have hlt : i < db.length := by
    obtain ⟨h, -⟩ := List.getElem?_eq_some_iff.1 hd
    exact h
  exact ⟨d, by rw [List.getElem?_append_left hlt]; exact hd, hb⟩

theorem getElem?_updateFirst (q : TokenDoc → Bool) (g : TokenDoc → TokenDoc) (db : Db)
    (i : Nat) (d : TokenDoc) (hd : db[i]? = some d) :
    (updateFirst q g db)[i]? = some d ∨
      (db.find? q = some d ∧ (updateFirst q g db)[i]? = some (g d)) := by
  induction db generalizing i with
  | nil => simp at hd
  | cons e es ih =>
    unfold updateFirst
    by_cases hq : q e = true
    · rw [if_pos hq]
      cases i with
      | zero =>
        right
        simp only [List.getElem?_cons_zero, Option.some.injEq] at hd
        subst hd
        exact ⟨List.find?_cons_of_pos _ hq, by simp⟩
      | succ n =>
        left
        simpa using hd
    · rw [if_neg hq]
      cases i with
      | zero => left; simpa using hd
      | succ n =>
        simp only [List.getElem?_cons_succ] at hd ⊢
        rcases ih n hd with h | ⟨h1, h2⟩
        · exact Or.inl h
        · exact Or.inr ⟨by rw [List.find?_cons_of_neg _ hq]; exact h1, h2⟩

theorem blacklistKept_updateFirst_keeps (q : TokenDoc → Bool) (g : TokenDoc → TokenDoc)
    (hg : Keeps g) (db : Db) : BlacklistKept db (updateFirst q g db) := by
  intro i d hd hb
  rcases getElem?_updateFirst q g db i d hd with h | ⟨-, h⟩
  · exact ⟨d, h, hb⟩
  · exact ⟨g d, h, (hg d).2.2 hb⟩

theorem blacklistKept_updateFirst_live (rt : TokenString) (g : TokenDoc → TokenDoc) (db : Db)
    (hu : UniqueTokens db) (s : TokenDoc) (hs : s ∈ db) (hst : s.token = rt)
    (hsb : s.blacklisted = false) :
    BlacklistKept db (updateFirst (fun d => d.token == rt) g db) := by
  intro i d hd hb
  rcases getElem?_updateFirst (fun d => d.token == rt) g db i d hd with h | ⟨hfind, -⟩
  · exact ⟨d, h, hb⟩
  · exfalso
    have hq := List.find?_some hfind
    have hdt : d.token = rt := by simpa using hq
    have hmem := List.mem_of_find?_eq_some hfind
    have : d = s := unique_eq_of_token hu hmem hs (hdt.trans hst.symm)
    subst this
    rw [hb] at hsb; cases hsb

theorem findByIdAndUpdate_ok (fault : Bool) (q : TokenDoc → Bool) (g : TokenDoc → TokenDoc)
    (db db1 : Db) (h : Token.findByIdAndUpdate fault q g db = .ok db1) :
    db1 = updateFirst q g db := by
  unfold Token.findByIdAndUpdate at h
  split at h
  · cases h
  · injection h with h; exact h.symm

/-- What one operation keeps: the unique index, and every blacklisted document. -/
theorem verifyToken_keeps (env : Env) (req : Request) (now : Nat) (f : Faults) (db : Db)
    (hu : UniqueTokens db) :
    UniqueTokens (verifyToken env req now f db).2 ∧
      BlacklistKept db (verifyToken env req now f db).2 := by
  unfold verifyToken
  repeat' split
  all_goals first
    | exact ⟨hu, blacklistKept_refl db⟩
    | (rename_i hok
       rw [findByIdAndUpdate_ok _ _ _ _ _ hok]
       exact ⟨unique_updateFirst_keeps _ _ (fun d => (keeps_lastUsedAt now d).1) db hu,
         blacklistKept_updateFirst_keeps _ _ (keeps_lastUsedAt now) db⟩)

theorem auth_keeps (env : Env) (req : Request) (now later : Nat) (f : Faults) (db : Db)
    (hu : UniqueTokens db) :
    UniqueTokens (auth env req now later f db).2 ∧
      BlacklistKept db (auth env req now later f db).2 := by
  unfold auth
  dsimp only
  repeat' split
  all_goals first
    | exact ⟨hu, blacklistKept_refl db⟩
    | (rename_i hok
       rw [findByIdAndUpdate_ok _ _ _ _ _ hok]
       exact ⟨unique_updateFirst_keeps _ _ (fun d => (keeps_lastUsedAt later d).1) db hu,
         blacklistKept_updateFirst_keeps _ _ (keeps_lastUsedAt later) db⟩)
    | (rename_i hok
       rw [findByIdAndUpdate_ok _ _ _ _ _ hok]
       exact ⟨unique_updateFirst_keeps _ _ (fun d => (keeps_blacklisted d).1) db hu,
         blacklistKept_updateFirst_keeps _ _ keeps_blacklisted db⟩)

theorem logout_keeps (req : Request) (f : Faults) (db : Db) (hu : UniqueTokens db) :
    UniqueTokens (logout req f db).2 ∧ BlacklistKept db (logout req f db).2 := by
  unfold logout
  repeat' split
  all_goals first
    | exact ⟨hu, blacklistKept_refl db⟩
    | (rename_i hok
       obtain ⟨h1, -⟩ := findOneAndUpdate_ok _ _ _ _ _ hok
       rw [h1]
       exact ⟨unique_updateFirst_keeps _ _ (fun d => (keeps_blacklisted d).1) db hu,
         blacklistKept_updateFirst_keeps _ _ keeps_blacklisted db⟩)

theorem login_keeps (env : Env) (users : List User) (body : LoginBody) (now : Nat)
    (f : Faults) (db : Db) (hu : UniqueTokens db) :
    UniqueTokens (login env users body now f db).2 ∧
      BlacklistKept db (login env users body now f db).2 := by
  constructor
  · unfold login
    dsimp only
    split
    · exact hu
    · split
      · exact hu
      · split
        · exact hu
        · split
          · exact hu
          · split
            · exact hu
            · rename_i db1 hok1
              have hu1 := unique_create _ _ _ _ hu hok1
              split
              · exact hu1
              · rename_i db2 hok2
                exact unique_create _ _ _ _ hu1 hok2
  · obtain ⟨added, h, -⟩ := login_appends env users body now f db
    rw [h]
    exact blacklistKept_append db added

theorem rotate_keeps (env : Env) (bl : Bool) (rt : TokenString) (decoded : Claims)
    (now : Nat) (f : Faults) (db : Db) (hu : UniqueTokens db) :
    UniqueTokens (rotate env bl rt decoded now f db).2 ∧
      BlacklistKept db (rotate env bl rt decoded now f db).2 := by
  unfold rotate
  split
  · exact ⟨hu, blacklistKept_refl db⟩
  · exact ⟨hu, blacklistKept_refl db⟩
  · rename_i s hfind
    obtain ⟨-, hfind⟩ := findOne_ok _ _ _ _ hfind
    have hs := List.find?_some hfind
    have hmem := List.mem_of_find?_eq_some hfind
    rw [refreshFilter_iff] at hs
    simp only
    split
    · exact ⟨hu, blacklistKept_refl db⟩
    · rename_i db1 hupd
      have hu1 := unique_findOneAndUpdate _ _ _ db db1 hu hupd
      obtain ⟨h1, -⟩ := findOneAndUpdate_ok _ _ _ _ _ hupd
      have hk1 : BlacklistKept db db1 := by
        rw [h1]
        exact blacklistKept_updateFirst_live rt _ db hu s hmem hs.1 hs.2.2.2
      split
      · exact ⟨hu1, hk1⟩
      · rename_i db2 hcr
        obtain ⟨h2, -⟩ := create_ok _ _ _ _ hcr
        refine ⟨unique_create _ _ _ _ hu1 hcr, blacklistKept_trans hk1 ?_⟩
        rw [h2]
        exact blacklistKept_append db1 _

theorem refreshAuth_keeps (env : Env) (rto : Option TokenString) (now : Nat) (f : Faults)
    (db : Db) (hu : UniqueTokens db) :
    UniqueTokens (refreshAuth env rto now f db).2 ∧
      BlacklistKept db (refreshAuth env rto now f db).2 := by
  unfold refreshAuth
  split
  · exact ⟨hu, blacklistKept_refl db⟩
  · rename_i decoded _
    have := rotate_keeps env false (rto.getD (.text "")) decoded now f db hu
    split <;> rename_i heq <;> rw [heq] at this <;> exact this

theorem refreshServer_keeps (env : Env) (rto : Option TokenString) (now : Nat) (f : Faults)
    (db : Db) (hu : UniqueTokens db) :
    UniqueTokens (refreshServer env rto now f db).2 ∧
      BlacklistKept db (refreshServer env rto now f db).2 := by
  unfold refreshServer
  split
  · exact ⟨hu, blacklistKept_refl db⟩
  · split
    · exact ⟨hu, blacklistKept_refl db⟩
    · rename_i decoded _
      have := rotate_keeps env true (rto.getD (.text "")) decoded now f db hu
      split <;> rename_i heq <;> rw [heq] at this <;> exact this

theorem step_keeps (env : Env) (db : Db) (op : Op) (hu : UniqueTokens db) :
    UniqueTokens (step env db op) ∧ BlacklistKept db (step env db op) := by
  cases op with
  | login users body now f => exact login_keeps env users body now f db hu
  | logout req f => exact logout_keeps req f db hu
  | refreshAuth rt now f => exact refreshAuth_keeps env rt now f db hu
  | refreshServer rt now f => exact refreshServer_keeps env rt now f db hu
  | verifyToken req now f => exact verifyToken_keeps env req now f db hu
  | auth req now later f => exact auth_keeps env req now later f db hu

theorem run_keeps (env : Env) (ops : List Op) (db : Db) (hu : UniqueTokens db) :
    UniqueTokens (run env db ops) ∧ BlacklistKept db (run env db ops) := by
  induction ops generalizing db with
  | nil => exact ⟨hu, blacklistKept_refl db⟩
  | cons op ops ih =>
    obtain ⟨h1, h2⟩ := step_keeps env db op hu
    obtain ⟨h3, h4⟩ := ih (step env db op) h1
    exact ⟨h3, blacklistKept_trans h2 h4⟩

/-- C20. In every collection reached from one that respects the unique index (the
empty collection for one) by operations of the core run one after the other, a
document that is blacklisted is still in its place and blacklisted after one more
operation (login, logout, either refresh handler, either gate), and so after any
further sequence of operations. -/
theorem blacklisted_terminal (env : Env) (db0 : Db) (hu : UniqueTokens db0) (ops : List Op)
    (i : Nat) (d : TokenDoc) (hd : (run env db0 ops)[i]? = some d)
    (hb : d.blacklisted = true) :
    (∀ op, ∃ d2, (step env (run env db0 ops) op)[i]? = some d2 ∧ d2.blacklisted = true) ∧
    (∀ more, ∃ d2, (run env (run env db0 ops) more)[i]? = some d2 ∧
      d2.blacklisted = true) := by
  have hu1 := (run_keeps env ops db0 hu).1
  exact ⟨fun op => (step_keeps env _ op hu1).2 i d hd hb,
    fun more => (run_keeps env more _ hu1).2 i d hd hb⟩

/-- C20 at the worked example: after the login and the logout of Alice, starting from
the empty collection, the document of her access token, second in the collection, is
blacklisted, and stays so. -/
theorem blacklisted_terminal_witness :
    UniqueTokens ([] : Db) ∧
    (run demoEnv [] demoRevoked)[1]? =
      some { userId := 1, token := aliceAccess, blacklisted := true, isRefreshToken := false,
             createdAt := 0, lastUsedAt := 0 } ∧
    (∀ op, ∃ d2 : TokenDoc, (step demoEnv (run demoEnv [] demoRevoked) op)[1]? = some d2 ∧
      d2.blacklisted = true) ∧
    (∀ more, ∃ d2 : TokenDoc, (run demoEnv (run demoEnv [] demoRevoked) more)[1]? = some d2 ∧
      d2.blacklisted = true) :=
  ⟨by decide, by decide,
    blacklisted_terminal demoEnv [] (by decide) demoRevoked 1
      { userId := 1, token := aliceAccess, blacklisted := true, isRefreshToken := false,
        createdAt := 0, lastUsedAt := 0 } (by decide) rfl⟩

/-! ## C21 and C26: the documents a refresh writes -/

/-- What a rotation that succeeds writes: the first document holding the presented
token gets the new refresh token, `lastUsedAt` and the `blacklisted` of the update, and
nothing else; one document for the new access token is appended. -/
theorem rotate_frame (env : Env) (bl : Bool) (rt : TokenString) (decoded : Claims)
    (now : Nat) (f : Faults) (db db2 : Db) (r : Response)
    (h : rotate env bl rt decoded now f db = (.ok r, db2)) (hs : r.success = some true) :
    ∃ pre s post, db = pre ++ s :: post ∧ s.token = rt ∧ (∀ x ∈ pre, x.token ≠ rt) ∧
      r = refreshOk (newAccess env decoded now) (newRefresh env decoded now) ∧
      db2 = pre ++
        { s with token := newRefresh env decoded now, lastUsedAt := now, blacklisted := bl } ::
        post ++
        [{ userId := decoded.id, token := newAccess env decoded now, blacklisted := false,
           isRefreshToken := false, createdAt := now, lastUsedAt := now }] := by
  unfold rotate at h
  split at h
  · cases h
  · simp only [Prod.mk.injEq, Except.ok.injEq] at h
    obtain ⟨h1, -⟩ := h
    subst h1
    cases hs
  · rename_i s0 hfind
    obtain ⟨-, hfind⟩ := findOne_ok _ _ _ _ hfind
    have hs0 := List.find?_some hfind
    have hmem := List.mem_of_find?_eq_some hfind
    rw [refreshFilter_iff] at hs0
    simp only at h
    split at h
    · cases h
    · rename_i db1 hupd
      obtain ⟨h1, -⟩ := findOneAndUpdate_ok _ _ _ _ _ hupd
      split at h
      · cases h
      · rename_i db2x hcr
        obtain ⟨h2, -⟩ := create_ok _ _ _ _ hcr
        simp only [Prod.mk.injEq, Except.ok.injEq] at h
        obtain ⟨hr, hdb⟩ := h
        obtain ⟨s, hfs⟩ :=
          find?_isSome_of_mem (q := fun d : TokenDoc => d.token == rt) hmem
            (by simp [hs0.1])
        obtain ⟨pre, post, hsplit, hpre, hupdate⟩ :=
          updateFirst_split (fun d => d.token == rt)
            (fun d => { d with token := newRefresh env decoded now, lastUsedAt := now,
                               blacklisted := bl }) db s hfs
        have hst : s.token = rt := by
          have := List.find?_some hfs
          simpa using this
        refine ⟨pre, s, post, hsplit, hst, ?_, ?_, ?_⟩
        · intro x hx
          have := hpre x hx
          simpa using this
        · rw [← hr]
          rfl
        · have hupdate2 : db1 = pre ++
              { s with token := newRefresh env decoded now, lastUsedAt := now,
                       blacklisted := bl } :: post := by
            rw [h1]
            exact hupdate
          rw [← hdb, h2, hupdate2]
          simp [newAccess]

theorem refreshAuth_frame (env : Env) (rto : Option TokenString) (now : Nat) (f : Faults)
    (db : Db) (hs : (refreshAuth env rto now f db).1.success = some true) :
    ∃ rt decoded pre s post, rto = some rt ∧
      jwtVerify rt env.JWT_REFRESH_SECRET now = .ok decoded ∧
      db = pre ++ s :: post ∧ s.token = rt ∧ (∀ x ∈ pre, x.token ≠ rt) ∧
      (refreshAuth env rto now f db).1 =
        refreshOk (newAccess env decoded now) (newRefresh env decoded now) ∧
      (refreshAuth env rto now f db).2 = pre ++
        { s with token := newRefresh env decoded now, lastUsedAt := now,
                 blacklisted := false } ::
        post ++
        [{ userId := decoded.id, token := newAccess env decoded now, blacklisted := false,
           isRefreshToken := false, createdAt := now, lastUsedAt := now }] := by
  obtain ⟨rt, decoded, hrto, hv, hrot⟩ := refreshAuth_ok env rto now f db hs
  obtain ⟨pre, s, post, h1, h2, h3, h4, h5⟩ :=
    rotate_frame env false rt decoded now f db _ _ hrot hs
  exact ⟨rt, decoded, pre, s, post, hrto, hv, h1, h2, h3, h4, h5⟩

theorem refreshServer_frame (env : Env) (rto : Option TokenString) (now : Nat) (f : Faults)
    (db : Db) (hs : (refreshServer env rto now f db).1.success = some true) :
    ∃ rt decoded pre s post, rto = some rt ∧
      jwtVerify rt env.JWT_REFRESH_SECRET now = .ok decoded ∧
      db = pre ++ s :: post ∧ s.token = rt ∧ (∀ x ∈ pre, x.token ≠ rt) ∧
      (refreshServer env rto now f db).1 =
        refreshOk (newAccess env decoded now) (newRefresh env decoded now) ∧
      (refreshServer env rto now f db).2 = pre ++
        { s with token := newRefresh env decoded now, lastUsedAt := now,
                 blacklisted := true } ::
        post ++
        [{ userId := decoded.id, token := newAccess env decoded now, blacklisted := false,
           isRefreshToken := false, createdAt := now, lastUsedAt := now }] := by
  obtain ⟨rt, decoded, hrto, hv, hrot⟩ := refreshServer_ok env rto now f db hs
  obtain ⟨pre, s, post, h1, h2, h3, h4, h5⟩ :=
    rotate_frame env true rt decoded now f db _ _ hrot hs
  exact ⟨rt, decoded, pre, s, post, hrto, hv, h1, h2, h3, h4, h5⟩

theorem getElem?_append_cons_length (pre post extra : Db) (s : TokenDoc) :
    (pre ++ s :: post ++ extra)[pre.length]? = some s := by
  rw [List.append_assoc, List.getElem?_append_right (le_refl _)]
  simp

/-- C21. After a refresh that succeeds, the document that held the presented refresh
token (the first one of the collection with that token string) is still in its place,
with its `userId` and `createdAt`; in server.js its `blacklisted` is true, in
routes/auth.js its `blacklisted` is false, whatever it was before. -/
theorem refresh_old_record_flag (env : Env) (rto : Option TokenString) (now : Nat)
    (f : Faults) (db : Db) :
    ((refreshServer env rto now f db).1.success = some true →
      ∃ pre s post s2, db = pre ++ s :: post ∧ rto = some s.token ∧
        (∀ x ∈ pre, x.token ≠ s.token) ∧
        (refreshServer env rto now f db).2[pre.length]? = some s2 ∧
        s2.userId = s.userId ∧ s2.createdAt = s.createdAt ∧ s2.blacklisted = true) ∧
    ((refreshAuth env rto now f db).1.success = some true →
      ∃ pre s post s2, db = pre ++ s :: post ∧ rto = some s.token ∧
        (∀ x ∈ pre, x.token ≠ s.token) ∧
        (refreshAuth env rto now f db).2[pre.length]? = some s2 ∧
        s2.userId = s.userId ∧ s2.createdAt = s.createdAt ∧ s2.blacklisted = false) := by
  constructor
  · intro hs
    obtain ⟨rt, decoded, pre, s, post, hrto, -, h1, h2, h3, -, h5⟩ :=
      refreshServer_frame env rto now f db hs
    subst h2
    refine ⟨pre, s, post,
      { s with token := newRefresh env decoded now, lastUsedAt := now, blacklisted := true },
      h1, hrto, h3, ?_, rfl, rfl, rfl⟩
    rw [h5]
    exact getElem?_append_cons_length pre _ _ _
  · intro hs
    obtain ⟨rt, decoded, pre, s, post, hrto, -, h1, h2, h3, -, h5⟩ :=
      refreshAuth_frame env rto now f db hs
    subst h2
    refine ⟨pre, s, post,
      { s with token := newRefresh env decoded now, lastUsedAt := now, blacklisted := false },
      h1, hrto, h3, ?_, rfl, rfl, rfl⟩
    rw [h5]
    exact getElem?_append_cons_length pre _ _ _

/-- C21 at the worked example: Alice logs in and, five seconds later, presents her
refresh token to the handler of routes/auth.js.  The refresh succeeds, and the document
that held the token, first in the collection, is not blacklisted. -/
theorem refresh_old_record_flag_witness :
    (aliceSession.2[0]?).map (fun d => d.token) = some aliceRefresh ∧
    (refreshAuth demoEnv (some aliceRefresh) 5000 [] aliceSession.2).1.success = some true ∧
    ((refreshAuth demoEnv (some aliceRefresh) 5000 [] aliceSession.2).2[0]?).map
        (fun d => (d.userId, d.createdAt, d.blacklisted)) = some (1, 0, false) ∧
    ∃ pre s post s2, aliceSession.2 = pre ++ s :: post ∧ some aliceRefresh = some s.token ∧
      (∀ x ∈ pre, x.token ≠ s.token) ∧
      (refreshAuth demoEnv (some aliceRefresh) 5000 [] aliceSession.2).2[pre.length]? =
        some s2 ∧
      s2.userId = s.userId ∧ s2.createdAt = s.createdAt ∧ s2.blacklisted = false :=
  ⟨by decide, by decide, by decide,
    (refresh_old_record_flag demoEnv (some aliceRefresh) 5000 [] aliceSession.2).2
      (by decide)⟩

/-- C26. A refresh that succeeds, in routes/auth.js and in server.js, changes the
collection so: the first document that held the presented refresh token keeps its
place, its `userId`, `isRefreshToken` and `createdAt`, and gets the new refresh token,
`lastUsedAt` at the time of the request and the `blacklisted` of the handler (false in
routes/auth.js, true in server.js); every other document stays as it was, in its place;
one document is appended, for the new access token of the response. -/
theorem refresh_frame (env : Env) (rto : Option TokenString) (now : Nat) (f : Faults)
    (db : Db) :
    ((refreshAuth env rto now f db).1.success = some true →
      ∃ rt decoded pre s post, rto = some rt ∧
        jwtVerify rt env.JWT_REFRESH_SECRET now = .ok decoded ∧
        db = pre ++ s :: post ∧ s.token = rt ∧ (∀ x ∈ pre, x.token ≠ rt) ∧
        (refreshAuth env rto now f db).1.token = some (newAccess env decoded now) ∧
        (refreshAuth env rto now f db).1.refreshToken = some (newRefresh env decoded now) ∧
        (refreshAuth env rto now f db).2 = pre ++
          { userId := s.userId, token := newRefresh env decoded now, blacklisted := false,
            isRefreshToken := s.isRefreshToken, createdAt := s.createdAt,
            lastUsedAt := now } ::
          post ++
          [{ userId := decoded.id, token := newAccess env decoded now, blacklisted := false,
             isRefreshToken := false, createdAt := now, lastUsedAt := now }]) ∧
    ((refreshServer env rto now f db).1.success = some true →
      ∃ rt decoded pre s post, rto = some rt ∧
        jwtVerify rt env.JWT_REFRESH_SECRET now = .ok decoded ∧
        db = pre ++ s :: post ∧ s.token = rt ∧ (∀ x ∈ pre, x.token ≠ rt) ∧
        (refreshServer env rto now f db).1.token = some (newAccess env decoded now) ∧
        (refreshServer env rto now f db).1.refreshToken =
          some (newRefresh env decoded now) ∧
        (refreshServer env rto now f db).2 = pre ++
          { userId := s.userId, token := newRefresh env decoded now, blacklisted := true,
            isRefreshToken := s.isRefreshToken, createdAt := s.createdAt,
            lastUsedAt := now } ::
          post ++
          [{ userId := decoded.id, token := newAccess env decoded now, blacklisted := false,
             isRefreshToken := false, createdAt := now, lastUsedAt := now }]) := by
  constructor
  · intro hs
    obtain ⟨rt, decoded, pre, s, post, hrto, hv, h1, h2, h3, h4, h5⟩ :=
      refreshAuth_frame env rto now f db hs
    refine ⟨rt, decoded, pre, s, post, hrto, hv, h1, h2, h3, ?_, ?_, h5⟩
    · rw [h4]
      rfl
    · rw [h4]
      rfl
  · intro hs
    obtain ⟨rt, decoded, pre, s, post, hrto, hv, h1, h2, h3, h4, h5⟩ :=
      refreshServer_frame env rto now f db hs
    refine ⟨rt, decoded, pre, s, post, hrto, hv, h1, h2, h3, ?_, ?_, h5⟩
    · rw [h4]
      rfl
    · rw [h4]
      rfl

/-- C26 at the worked example: Bob logs in after Alice and, five seconds later, presents
his refresh token to the handler of server.js.  Of the four documents, the third one,
which held his refresh token, gets the new token, the new `lastUsedAt` and
`blacklisted`; the two of Alice and the one of his access token are as before; a fifth
one holds his new access token. -/
theorem refresh_frame_witness :
    (refreshServer demoEnv (some bobRefresh) 5000 [] (login demoEnv [alice, bob] bobBody 0 []
        aliceSession.2).2).2 =
      [{ userId := 1, token := aliceRefresh, blacklisted := false, isRefreshToken := true,
         createdAt := 0, lastUsedAt := 0 },
       { userId := 1, token := aliceAccess, blacklisted := false, isRefreshToken := false,
         createdAt := 0, lastUsedAt := 0 },
       { userId := 2,
         token := jwtSign { id := 2, role := none } demoEnv.JWT_REFRESH_SECRET 604800 5000,
         blacklisted := true, isRefreshToken := true, createdAt := 0, lastUsedAt := 5000 },
       { userId := 2, token := bobAccess, blacklisted := false, isRefreshToken := false,
         createdAt := 0, lastUsedAt := 0 },
       { userId := 2,
         token := jwtSign { id := 2, role := none } demoEnv.JWT_SECRET 900 5000,
         blacklisted := false, isRefreshToken := false, createdAt := 5000,
         lastUsedAt := 5000 }] ∧
    ∃ rt decoded pre s post, some bobRefresh = some rt ∧
      jwtVerify rt demoEnv.JWT_REFRESH_SECRET 5000 = .ok decoded ∧
      (login demoEnv [alice, bob] bobBody 0 [] aliceSession.2).2 = pre ++ s :: post ∧
      s.token = rt ∧ (∀ x ∈ pre, x.token ≠ rt) ∧
      (refreshServer demoEnv (some bobRefresh) 5000 []
        (login demoEnv [alice, bob] bobBody 0 [] aliceSession.2).2).1.token =
          some (newAccess demoEnv decoded 5000) ∧
      (refreshServer demoEnv (some bobRefresh) 5000 []
        (login demoEnv [alice, bob] bobBody 0 [] aliceSession.2).2).1.refreshToken =
          some (newRefresh demoEnv decoded 5000) ∧
      (refreshServer demoEnv (some bobRefresh) 5000 []
        (login demoEnv [alice, bob] bobBody 0 [] aliceSession.2).2).2 = pre ++
        { userId := s.userId, token := newRefresh demoEnv decoded 5000, blacklisted := true,
          isRefreshToken := s.isRefreshToken, createdAt := s.createdAt,
          lastUsedAt := 5000 } ::
        post ++
        [{ userId := decoded.id, token := newAccess demoEnv decoded 5000,
           blacklisted := false, isRefreshToken := false, createdAt := 5000,
           lastUsedAt := 5000 }] :=
  ⟨by decide,
    (refresh_frame demoEnv (some bobRefresh) 5000 []
      (login demoEnv [alice, bob] bobBody 0 [] aliceSession.2).2).2 (by decide)⟩

/-! ## C22: the owner of a document -/

theorem userIdKept_refl (db : Db) : UserIdKept db db :=
  fun _ d hd => ⟨d, hd, rfl⟩

theorem userIdKept_trans {a b c : Db} (h1 : UserIdKept a b) (h2 : UserIdKept b c) :
    UserIdKept a c := by
  intro i d hd
  obtain ⟨d2, hd2, hu2⟩ := h1 i d hd
  obtain ⟨d3, hd3, hu3⟩ := h2 i d2 hd2
  exact ⟨d3, hd3, hu3.trans hu2⟩

theorem userIdKept_append (db added : Db) : UserIdKept db (db ++ added) := by
  intro i d hd
  have hlt : i < db.length := by
    obtain ⟨h, -⟩ := List.getElem?_eq_some_iff.1 hd
    exact h
  exact ⟨d, by rw [List.getElem?_append_left hlt]; exact hd, rfl⟩

theorem userIdKept_updateFirst (q : TokenDoc → Bool) (g : TokenDoc → TokenDoc)
    (hg : ∀ d, (g d).userId = d.userId) (db : Db) : UserIdKept db (updateFirst q g db) := by
  intro i d hd
  rcases getElem?_updateFirst q g db i d hd with h | ⟨-, h⟩
  · exact ⟨d, h, rfl⟩
  · exact ⟨g d, h, hg d⟩

theorem owned_updateFirst (q : TokenDoc → Bool) (g : TokenDoc → TokenDoc)
    (hg : ∀ d, (g d).token = d.token ∧ (g d).userId = d.userId) (db : Db) (ho : Owned db) :
    Owned (updateFirst q g db) := by
  intro x hx
  rcases mem_of_mem_updateFirst q g db x hx with h | ⟨d, hfind, rfl⟩
  · exact ho x h
  · obtain ⟨p, key, h1, h2⟩ := ho d (List.mem_of_find?_eq_some hfind)
    exact ⟨p, key, (hg d).1.trans h1, (hg d).2.trans h2⟩

theorem owned_create (fault : Bool) (doc : TokenDoc) (db db1 : Db) (ho : Owned db)
    (hdoc : ∃ p key, doc.token = .jws p key ∧ doc.userId = p.id)
    (hok : Token.create fault doc db = .ok db1) : Owned db1 := by
  obtain ⟨h1, -⟩ := create_ok _ _ _ _ hok
  subst h1
  intro x hx
  rcases List.mem_append.1 hx with h | h
  · exact ho x h
  · rw [List.mem_singleton] at h
    subst h
    exact hdoc

/-- What one operation keeps: the owner of every document. -/
theorem verifyToken_owns (env : Env) (req : Request) (now : Nat) (f : Faults) (db : Db)
    (ho : Owned db) :
    Owned (verifyToken env req now f db).2 ∧
      UserIdKept db (verifyToken env req now f db).2 := by
  unfold verifyToken
  repeat' split
  all_goals first
    | exact ⟨ho, userIdKept_refl db⟩
    | (rename_i hok
       rw [findByIdAndUpdate_ok _ _ _ _ _ hok]
       exact ⟨owned_updateFirst _ _ (by intro _; exact ⟨rfl, rfl⟩) db ho,
         userIdKept_updateFirst _ _ (by intro _; rfl) db⟩)

theorem auth_owns (env : Env) (req : Request) (now later : Nat) (f : Faults) (db : Db)
    (ho : Owned db) :
    Owned (auth env req now later f db).2 ∧
      UserIdKept db (auth env req now later f db).2 := by
  unfold auth
  dsimp only
  repeat' split
  all_goals first
    | exact ⟨ho, userIdKept_refl db⟩
    | (rename_i hok
       rw [findByIdAndUpdate_ok _ _ _ _ _ hok]
       exact ⟨owned_updateFirst _ _ (by intro _; exact ⟨rfl, rfl⟩) db ho,
         userIdKept_updateFirst _ _ (by intro _; rfl) db⟩)

theorem logout_owns (req : Request) (f : Faults) (db : Db) (ho : Owned db) :
    Owned (logout req f db).2 ∧ UserIdKept db (logout req f db).2 := by
  unfold logout
  repeat' split
  all_goals first
    | exact ⟨ho, userIdKept_refl db⟩
    | (rename_i hok
       obtain ⟨h1, -⟩ := findOneAndUpdate_ok _ _ _ _ _ hok
       rw [h1]
       exact ⟨owned_updateFirst _ _ (by intro _; exact ⟨rfl, rfl⟩) db ho,
         userIdKept_updateFirst _ _ (by intro _; rfl) db⟩)

theorem login_owns (env : Env) (users : List User) (body : LoginBody) (now : Nat)
    (f : Faults) (db : Db) (ho : Owned db) :
    Owned (login env users body now f db).2 ∧
      UserIdKept db (login env users body now f db).2 := by
  constructor
  · unfold login
    dsimp only
    split
    · exact ho
    · split
      · exact ho
      · split
        · exact ho
        · split
          · exact ho
          · split
            · exact ho
            · rename_i db1 hok1
              have ho1 := owned_create _ _ _ _ ho ⟨_, _, rfl, rfl⟩ hok1
              split
              · exact ho1
              · rename_i db2 hok2
                exact owned_create _ _ _ _ ho1 ⟨_, _, rfl, rfl⟩ hok2
  · obtain ⟨added, h, -⟩ := login_appends env users body now f db
    rw [h]
    exact userIdKept_append db added

theorem rotate_owns (env : Env) (bl : Bool) (rt : TokenString) (decoded : Claims)
    (now : Nat) (f : Faults) (db : Db) (ho : Owned db) :
    Owned (rotate env bl rt decoded now f db).2 ∧
      UserIdKept db (rotate env bl rt decoded now f db).2 := by
  unfold rotate
  split
  · exact ⟨ho, userIdKept_refl db⟩
  · exact ⟨ho, userIdKept_refl db⟩
  · rename_i s0 hfind
    obtain ⟨-, hfind⟩ := findOne_ok _ _ _ _ hfind
    have hs := List.find?_some hfind
    have hmem := List.mem_of_find?_eq_some hfind
    rw [refreshFilter_iff] at hs
    simp only
    split
    · exact ⟨ho, userIdKept_refl db⟩
    · rename_i db1 hupd
      obtain ⟨h1, -⟩ := findOneAndUpdate_ok _ _ _ _ _ hupd
      have ho1 : Owned db1 := by
        rw [h1]
        intro x hx
        rcases mem_of_mem_updateFirst _ _ db x hx with h | ⟨d, hfd, rfl⟩
        · exact ho x h
        · have hdt : d.token = rt := by simpa using List.find?_some hfd
          obtain ⟨p, key, hp1, hp2⟩ := ho d (List.mem_of_find?_eq_some hfd)
          obtain ⟨p0, key0, hq1, hq2⟩ := ho s0 hmem
          have hpp : p = p0 := by
            have : TokenString.jws p key = TokenString.jws p0 key0 := by
              rw [← hp1, ← hq1, hdt, hs.1]
            injection this
          refine ⟨_, _, rfl, ?_⟩
          show d.userId = decoded.id
          rw [hp2, hpp, ← hq2, hs.2.1]
      have hk1 : UserIdKept db db1 := by
        rw [h1]
        exact userIdKept_updateFirst _ _ (by intro _; rfl) db
      split
      · exact ⟨ho1, hk1⟩
      · rename_i db2 hcr
        obtain ⟨h2, -⟩ := create_ok _ _ _ _ hcr
        refine ⟨owned_create _ _ _ _ ho1 ⟨_, _, rfl, rfl⟩ hcr, userIdKept_trans hk1 ?_⟩
        rw [h2]
        exact userIdKept_append db1 _

theorem refreshAuth_owns (env : Env) (rto : Option TokenString) (now : Nat) (f : Faults)
    (db : Db) (ho : Owned db) :
    Owned (refreshAuth env rto now f db).2 ∧
      UserIdKept db (refreshAuth env rto now f db).2 := by
  unfold refreshAuth
  split
  · exact ⟨ho, userIdKept_refl db⟩
  · rename_i decoded _
    have := rotate_owns env false (rto.getD (.text "")) decoded now f db ho
    split <;> rename_i heq <;> rw [heq] at this <;> exact this

theorem refreshServer_owns (env : Env) (rto : Option TokenString) (now : Nat) (f : Faults)
    (db : Db) (ho : Owned db) :
    Owned (refreshServer env rto now f db).2 ∧
      UserIdKept db (refreshServer env rto now f db).2 := by
  unfold refreshServer
  split
  · exact ⟨ho, userIdKept_refl db⟩
  · split
    · exact ⟨ho, userIdKept_refl db⟩
    · rename_i decoded _
      have := rotate_owns env true (rto.getD (.text "")) decoded now f db ho
      split <;> rename_i heq <;> rw [heq] at this <;> exact this

theorem step_owns (env : Env) (db : Db) (op : Op) (ho : Owned db) :
    Owned (step env db op) ∧ UserIdKept db (step env db op) := by
  cases op with
  | login users body now f => exact login_owns env users body now f db ho
  | logout req f => exact logout_owns req f db ho
  | refreshAuth rt now f => exact refreshAuth_owns env rt now f db ho
  | refreshServer rt now f => exact refreshServer_owns env rt now f db ho
  | verifyToken req now f => exact verifyToken_owns env req now f db ho
  | auth req now later f => exact auth_owns env req now later f db ho

theorem run_owns (env : Env) (ops : List Op) (db : Db) (ho : Owned db) :
    Owned (run env db ops) ∧ UserIdKept db (run env db ops) := by
  induction ops generalizing db with
  | nil => exact ⟨ho, userIdKept_refl db⟩
  | cons op ops ih =>
    obtain ⟨h1, h2⟩ := step_owns env db op ho
    obtain ⟨h3, h4⟩ := ih (step env db op) h1
    exact ⟨h3, userIdKept_trans h2 h4⟩

theorem owned_nil : Owned [] := by
  intro d hd
  cases hd

/-- C22. In every collection reached from the empty one by operations of the core run
one after the other (login, logout, either refresh handler, either gate), each document
holds a signed token whose `id` claim is the `userId` of the document; and one more
operation, or any further sequence of operations, leaves every document in its place
with the `userId` it had. -/
theorem ownership_invariant (env : Env) (ops : List Op) :
    (∀ d ∈ run env [] ops, ∃ p key, d.token = .jws p key ∧ d.userId = p.id) ∧
    (∀ (op : Op) (i : Nat) (d : TokenDoc), (run env [] ops)[i]? = some d →
      ∃ d2 : TokenDoc, (step env (run env [] ops) op)[i]? = some d2 ∧
        d2.userId = d.userId) ∧
    (∀ (more : List Op) (i : Nat) (d : TokenDoc), (run env [] ops)[i]? = some d →
      ∃ d2 : TokenDoc, (run env (run env [] ops) more)[i]? = some d2 ∧
        d2.userId = d.userId) := by
  have ho := (run_owns env ops [] owned_nil).1
  exact ⟨ho, fun op => (step_owns env _ op ho).2, fun more => (run_owns env more _ ho).2⟩

/-- C22 at the worked example: after the login of Alice, the rotation of her refresh
token in server.js and a pass of her access token through the gate, the three
documents belong to her, user 1, as the tokens they hold say. -/
theorem ownership_invariant_witness :
    (run demoEnv [] (.login [alice] aliceBody 0 [] :: demoBefore)).map
        (fun d => (d.userId, d.token)) =
      [(1, jwtSign { id := 1, role := none } demoEnv.JWT_REFRESH_SECRET 604800 2000),
       (1, aliceAccess),
       (1, jwtSign { id := 1, role := none } demoEnv.JWT_SECRET 900 2000)] ∧
    ∀ d ∈ run demoEnv [] (.login [alice] aliceBody 0 [] :: demoBefore),
      ∃ p key, d.token = .jws p key ∧ d.userId = p.id :=
  ⟨by decide, (ownership_invariant demoEnv (.login [alice] aliceBody 0 [] :: demoBefore)).1⟩

/-! ## C23, C24 and C25: registration, and the login of routes/users.js -/

theorem save_ok (env : Env) (fault : Bool) (doc : NewUser) (newId : ObjectId) (salt : Nat)
    (users users1 : List User) (h : User.save env fault doc newId salt users = .ok users1) :
    fault = false ∧ (doc.role.getD "user" = "admin" ∨ doc.role.getD "user" = "user") ∧
      8 ≤ doc.password.length ∧ (∀ x ∈ users, x.email ≠ env.toLowerCase doc.email) ∧
      users1 = users ++ [{ _id := newId, name := doc.name,
                           email := env.toLowerCase doc.email,
                           password := preSave doc.password salt,
                           role := doc.role.getD "user", active := true }] := by
  unfold User.save at h
  split at h
  · cases h
  · rename_i h1
    split at h
    · cases h
    · rename_i h2
      split at h
      · cases h
      · rename_i h3
        split at h
        · cases h
        · rename_i h4
          injection h with h
          refine ⟨by simpa using h1, ?_, by omega, ?_, h.symm⟩
          · by_cases ha : doc.role.getD "user" = "admin"
            · exact Or.inl ha
            · right
              simpa [ha] using h2
          · intro x hx hxe
            apply h4
            rw [List.any_eq_true]
            exact ⟨x, hx, by simp [hxe]⟩

theorem save_new (env : Env) (doc : NewUser) (newId : ObjectId) (salt : Nat)
    (users : List User)
    (hrole : doc.role.getD "user" = "admin" ∨ doc.role.getD "user" = "user")
    (hlen : 8 ≤ doc.password.length)
    (hnew : ∀ x ∈ users, x.email ≠ env.toLowerCase doc.email) :
    User.save env false doc newId salt users =
      .ok (users ++ [{ _id := newId, name := doc.name, email := env.toLowerCase doc.email,
                       password := preSave doc.password salt,
                       role := doc.role.getD "user", active := true }]) := by
  unfold User.save
  have h2 : (!(doc.role.getD "user" == "admin" || doc.role.getD "user" == "user")) = false := by
    rcases hrole with h | h <;> simp [h]
  have h3 : ¬ doc.password.length < 8 := by omega
  have h4 : (users.any (fun u => u.email == env.toLowerCase doc.email)) = false := by
    rw [List.any_eq_false]
    intro x hx
    simpa using hnew x hx
  simp [h2, h3, h4]

/-- A query finds an account appended to the collection when the email of the query, in
lower case, is its email and no other account has it. -/
theorem findOne_new (env : Env) (users : List User) (u : User) (e : String)
    (hact : u.active = true) (he : env.toLowerCase e = u.email)
    (hnew : ∀ x ∈ users, x.email ≠ u.email) :
    User.findOne env (users ++ [u]) e = some u := by
  unfold User.findOne
  rw [List.find?_append, he]
  have : users.find? (fun x => x.active && x.email == u.email) = none := by
    rw [List.find?_eq_none]
    intro x hx
    simp [hnew x hx]
  rw [this]
  simp [hact]

theorem falsyStr_toLowerCase (env : Env) (s : String) (h : falsyStr (some s) = false) :
    falsyStr (some (env.toLowerCase s)) = false := by
  simp only [falsyStr, beq_eq_false_iff_ne, ne_eq] at h ⊢
  exact fun hl => h (env.toLowerCase_eq_empty s hl)

theorem falsyStr_getD (o : Option String) (h : falsyStr o = false) :
    falsyStr (some (o.getD "")) = false := by
  cases o with
  | none => simp [falsyStr] at h
  | some s => exact h

/-- What a registration of routes/auth.js that answers 201 did. -/
theorem register_ok (env : Env) (users : List User) (body : RegisterBody) (newId : ObjectId)
    (salt : Nat) (f : Faults) :
    (register env users body newId salt f).1.status = 201 →
      falsyStr body.email = false ∧ falsyStr body.password = false ∧
      User.save env (f.fails 1)
        { name := body.name.getD "", email := body.email.getD "",
          password := .plain (body.password.getD ""),
          role := some (body.role.getD "user") } newId salt users =
        .ok (register env users body newId salt f).2 := by
  unfold register
  split
  · intro h; simp [failure] at h
  · rename_i hf
    split
    · intro h; simp [failure] at h
    · split
      · intro h; simp [failure] at h
      · split
        · intro h; simp [failure] at h
        · rename_i hsave
          intro _
          simp only [Bool.or_eq_true, not_or, Bool.not_eq_true] at hf
          exact ⟨hf.1.1.2, hf.1.2, hsave⟩

/-- What a registration of routes/users.js that answers 201 did. -/
theorem usersRegister_ok (env : Env) (users : List User) (body : RegisterBody)
    (newId : ObjectId) (salt hookSalt : Nat) (f : Faults) :
    (usersRegister env users body newId salt hookSalt f).1.status = 201 →
      falsyStr body.email = false ∧ falsyStr body.password = false ∧
      User.save env (f.fails 1)
        { email := env.toLowerCase (body.email.getD ""), name := body.name.getD "",
          password := bcryptHash (.plain (body.password.getD "")) 10 salt,
          role := none } newId hookSalt users =
        .ok (usersRegister env users body newId salt hookSalt f).2 := by
  unfold usersRegister
  dsimp only
  split
  · intro h; simp [failureCode, failure] at h
  · rename_i hf
    split
    · intro h; simp [failureCode, failure] at h
    · split
      · intro h; simp [failureCode, failure] at h
      · split
        · intro h; simp [failureCode, failure] at h
        · rename_i hsave
          intro _
          simp only [Bool.or_eq_true, not_or, Bool.not_eq_true] at hf
          exact ⟨hf.1.1.1, hf.1.2, hsave⟩

/-- What an admin registration that answers 201 did. -/
theorem registerAdmin_ok (env : Env) (users : List User) (body : RegisterBody)
    (newId : ObjectId) (salt hookSalt now : Nat) (f : Faults) :
    (registerAdmin env users body newId salt hookSalt now f).1.status = 201 →
      falsyStr body.email = false ∧ falsyStr body.password = false ∧
      (registerAdmin env users body newId salt hookSalt now f).1.token =
        some (jwtSign { id := newId, role := some "admin" } env.JWT_SECRET 3600 now) ∧
      User.save env (f.fails 1)
        { name := body.name.getD "", email := body.email.getD "",
          password := bcryptHash (.plain (body.password.getD "")) 10 salt,
          role := some "admin" } newId hookSalt users =
        .ok (registerAdmin env users body newId salt hookSalt now f).2 := by
  unfold registerAdmin
  dsimp only
  split
  · intro h; simp [bare, failure] at h
  · rename_i hf
    split
    · intro h; simp [bare, failure] at h
    · split
      · intro h; simp [bare, failure] at h
      · split
        · intro h; simp [bare, failure] at h
        · split
          · intro h; simp [bare, failure] at h
          · split
            · intro h; simp [bare, failure] at h
            · split
              · intro h; simp [bare, failure] at h
              · rename_i hsave
                intro _
                simp only [Bool.or_eq_true, not_or, Bool.not_eq_true] at hf
                exact ⟨hf.1.1.2, hf.2, rfl, hsave⟩

theorem login_wrong_password (env : Env) (users : List User) (e p : String) (u : User)
    (now : Nat) (f : Faults) (db : Db) (he : falsyStr (some e) = false)
    (hp : falsyStr (some p) = false) (hf : f.fails 0 = false)
    (hfind : User.findOne env users e = some u) (hpw : u.correctPassword p = false) :
    login env users { email := some e, password := some p } now f db =
      (failure 400 "Invalid email or password", db) := by
  unfold login
  simp [he, hp, hf, hfind, hpw]

theorem login_right_password (env : Env) (users : List User) (e p : String) (u : User)
    (now : Nat) (he : falsyStr (some e) = false) (hp : falsyStr (some p) = false)
    (hfind : User.findOne env users e = some u) (hpw : u.correctPassword p = true) :
    (login env users { email := some e, password := some p } now [] []).1 =
      loginOk u (loginAccess env u now) (loginRefresh env u now) := by
  unfold login
  simp [he, hp, hfind, hpw, Faults.fails, Token.create, jwtSign, loginAccess, loginRefresh]

theorem correctPassword_hashed (u : User) (p : String) (salt : Nat)
    (h : u.password = preSave (.plain p) salt) : u.correctPassword p = true := by
  simp [User.correctPassword, bcryptCompare, preSave, bcryptHash, h]

theorem correctPassword_hashed_twice (u : User) (p : String) (salt hookSalt : Nat)
    (h : u.password = preSave (bcryptHash (.plain p) 10 salt) hookSalt) :
    u.correctPassword p = false := by
  simp [User.correctPassword, bcryptCompare, preSave, bcryptHash, h, PwString.read]

/-- C24. A registration that answers 201 appends one account, which a query by its
stored email finds.  After routes/auth.js the stored password is the hash of the
password of the body, `correctPassword` accepts that password, and the login of
routes/auth.js on an empty `tokens` collection succeeds.  After routes/users.js and
after routes/adminRegistration.js the stored password is the hash of a hash,
`correctPassword` refuses the password of the body, and the login of routes/auth.js
answers 400 "Invalid email or password". -/
theorem register_then_login (env : Env) (users : List User) (body : RegisterBody)
    (newId : ObjectId) (salt hookSalt now : Nat) (f : Faults) :
    ((register env users body newId hookSalt f).1.status = 201 →
      ∃ u, (register env users body newId hookSalt f).2 = users ++ [u] ∧
        u.password = bcryptHash (.plain (body.password.getD "")) 12 hookSalt ∧
        User.findOne env (users ++ [u]) u.email = some u ∧
        u.correctPassword (body.password.getD "") = true ∧
        ∀ later, (login env (users ++ [u])
            { email := some u.email, password := some (body.password.getD "") }
            later [] []).1.success = some true) ∧
    ((usersRegister env users body newId salt hookSalt f).1.status = 201 →
      ∃ u, (usersRegister env users body newId salt hookSalt f).2 = users ++ [u] ∧
        u.password =
          bcryptHash (bcryptHash (.plain (body.password.getD "")) 10 salt) 12 hookSalt ∧
        User.findOne env (users ++ [u]) u.email = some u ∧
        u.correctPassword (body.password.getD "") = false ∧
        ∀ later g db, g.fails 0 = false →
          login env (users ++ [u])
            { email := some u.email, password := some (body.password.getD "") }
            later g db = (failure 400 "Invalid email or password", db)) ∧
    ((registerAdmin env users body newId salt hookSalt now f).1.status = 201 →
      ∃ u, (registerAdmin env users body newId salt hookSalt now f).2 = users ++ [u] ∧
        u.password =
          bcryptHash (bcryptHash (.plain (body.password.getD "")) 10 salt) 12 hookSalt ∧
        User.findOne env (users ++ [u]) u.email = some u ∧
        u.correctPassword (body.password.getD "") = false ∧
        ∀ later g db, g.fails 0 = false →
          login env (users ++ [u])
            { email := some u.email, password := some (body.password.getD "") }
            later g db = (failure 400 "Invalid email or password", db)) := by
  refine ⟨?_, ?_, ?_⟩
  · intro h
    obtain ⟨he, hp, hsave⟩ := register_ok env users body newId hookSalt f h
    obtain ⟨-, -, -, hnew, hu⟩ := save_ok _ _ _ _ _ _ _ hsave
    have hfind := findOne_new env users
      { _id := newId, name := body.name.getD "",
        email := env.toLowerCase (body.email.getD ""),
        password := preSave (.plain (body.password.getD "")) hookSalt,
        role := (some (body.role.getD "user")).getD "user", active := true }
      (env.toLowerCase (body.email.getD "")) rfl (env.toLowerCase_idem _) hnew
    have hpw := correctPassword_hashed
      { _id := newId, name := body.name.getD "",
        email := env.toLowerCase (body.email.getD ""),
        password := preSave (.plain (body.password.getD "")) hookSalt,
        role := (some (body.role.getD "user")).getD "user", active := true }
      (body.password.getD "") hookSalt rfl
    refine ⟨_, hu, rfl, hfind, hpw, ?_⟩
    intro later
    rw [login_right_password env _ _ _ _ later
      (falsyStr_toLowerCase env _ (falsyStr_getD _ he)) (falsyStr_getD _ hp) hfind hpw]
    rfl
  · intro h
    obtain ⟨he, hp, hsave⟩ := usersRegister_ok env users body newId salt hookSalt f h
    obtain ⟨-, -, -, hnew, hu⟩ := save_ok _ _ _ _ _ _ _ hsave
    have hfind := findOne_new env users
      { _id := newId, name := body.name.getD "",
        email := env.toLowerCase (env.toLowerCase (body.email.getD "")),
        password := preSave (bcryptHash (.plain (body.password.getD "")) 10 salt) hookSalt,
        role := (none : Option String).getD "user", active := true }
      (env.toLowerCase (env.toLowerCase (body.email.getD ""))) rfl
      (env.toLowerCase_idem _) hnew
    have hpw := correctPassword_hashed_twice
      { _id := newId, name := body.name.getD "",
        email := env.toLowerCase (env.toLowerCase (body.email.getD "")),
        password := preSave (bcryptHash (.plain (body.password.getD "")) 10 salt) hookSalt,
        role := (none : Option String).getD "user", active := true }
      (body.password.getD "") salt hookSalt rfl
    refine ⟨_, hu, rfl, hfind, hpw, ?_⟩
    intro later g db hg
    exact login_wrong_password env _ _ _ _ later g db
      (falsyStr_toLowerCase env _ (falsyStr_toLowerCase env _ (falsyStr_getD _ he)))
      (falsyStr_getD _ hp) hg hfind hpw
  · intro h
    obtain ⟨he, hp, -, hsave⟩ := registerAdmin_ok env users body newId salt hookSalt now f h
    obtain ⟨-, -, -, hnew, hu⟩ := save_ok _ _ _ _ _ _ _ hsave
    have hfind := findOne_new env users
      { _id := newId, name := body.name.getD "",
        email := env.toLowerCase (body.email.getD ""),
        password := preSave (bcryptHash (.plain (body.password.getD "")) 10 salt) hookSalt,
        role := (some "admin" : Option String).getD "user", active := true }
      (env.toLowerCase (body.email.getD "")) rfl (env.toLowerCase_idem _) hnew
    have hpw := correctPassword_hashed_twice
      { _id := newId, name := body.name.getD "",
        email := env.toLowerCase (body.email.getD ""),
        password := preSave (bcryptHash (.plain (body.password.getD "")) 10 salt) hookSalt,
        role := (some "admin" : Option String).getD "user", active := true }
      (body.password.getD "") salt hookSalt rfl
    refine ⟨_, hu, rfl, hfind, hpw, ?_⟩
    intro later g db hg
    exact login_wrong_password env _ _ _ _ later g db
      (falsyStr_toLowerCase env _ (falsyStr_getD _ he)) (falsyStr_getD _ hp) hg hfind hpw

/-- C24 at the worked example: Carol registers through routes/users.js with the
password "passw0rd1" while Alice is the only account.  The registration answers 201 and
stores the hash of a hash; the login of routes/auth.js with her email and that password
answers 400. -/
theorem register_then_login_witness :
    usersRegister demoEnv [alice] carolBody 3 5 7 [] =
      (registered "Registration successful! Redirecting...",
       [alice, { _id := 3, name := "Carol", email := "carol@example.com",
                 password := .bcrypt (.bcrypt (.plain "passw0rd1") 10 5) 12 7,
                 role := "user", active := true }]) ∧
    login demoEnv (usersRegister demoEnv [alice] carolBody 3 5 7 []).2 carolLogin 1000 [] [] =
      (failure 400 "Invalid email or password", []) ∧
    ∃ u, (usersRegister demoEnv [alice] carolBody 3 5 7 []).2 = [alice] ++ [u] ∧
      u.password = bcryptHash (bcryptHash (.plain (carolBody.password.getD "")) 10 5) 12 7 ∧
      User.findOne demoEnv ([alice] ++ [u]) u.email = some u ∧
      u.correctPassword (carolBody.password.getD "") = false ∧
      ∀ later g db, g.fails 0 = false →
        login demoEnv ([alice] ++ [u])
          { email := some u.email, password := some (carolBody.password.getD "") }
          later g db = (failure 400 "Invalid email or password", db) :=
  ⟨by decide, by decide,
    (register_then_login demoEnv [alice] carolBody 3 5 7 0 []).2.1 (by decide)⟩

/-- The gate refuses a token that no document of the collection holds, and writes
nothing. -/
theorem verifyToken_unrecorded (env : Env) (req : Request) (now : Nat) (f : Faults) (db : Db)
    (t : TokenString) (hreq : bearer req = some t) (hdb : ∀ x ∈ db, x.token ≠ t) :
    ∃ r, verifyToken env req now f db = (.respond r, db) ∧ r.status = 401 ∧
      r.success = some false := by
  cases h : (verifyToken env req now f db).1 with
  | next user =>
    exfalso
    obtain ⟨token, d, hb, -, -, ⟨x, hx, hxt, -⟩, -⟩ :=
      (verifyToken_next_iff env req now f db user).1 h
    rw [hreq] at hb
    injection hb with hb
    exact hdb x hx (hxt.trans hb.symm)
  | respond r =>
    obtain ⟨h1, h2⟩ := verifyToken_respond env req now f db r h
    have h3 := verifyToken_respond_store env req now f db r h
    exact ⟨r, Prod.ext h h3, h1, h2⟩

/-- What the login of routes/users.js answers once its query has found an account. -/
theorem usersLogin_found (env : Env) (users : List User) (body : LoginBody) (now : Nat)
    (f : Faults) (user : User) (hf : f.fails 0 = false)
    (hfind : body.email.bind (User.findOne env users) = some user) :
    usersLogin env users body now f =
      bare 500 ("Illegal arguments: " ++ typeofStr (body.password.map .plain) ++ ", " ++
        "undefined") := by
  unfold usersLogin
  rw [if_neg (by simp [hf]), hfind]
  have : bcryptCompareArgs (body.password.map .plain) (user.selectedPassword false) =
      .error ("Illegal arguments: " ++ typeofStr (body.password.map .plain) ++ ", " ++
        typeofStr none) := by
    unfold bcryptCompareArgs User.selectedPassword
    cases body.password <;> rfl
  simp only [this]
  rfl

theorem usersLogin_no_token (env : Env) (users : List User) (body : LoginBody) (now : Nat)
    (f : Faults) :
    (usersLogin env users body now f).token = none ∧
      ((usersLogin env users body now f).status = 404 ∨
        (usersLogin env users body now f).status = 500) := by
  by_cases hf : f.fails 0 = true
  · unfold usersLogin
    rw [if_pos hf]
    exact ⟨rfl, Or.inr rfl⟩
  · cases hfind : body.email.bind (User.findOne env users) with
    | none =>
      unfold usersLogin
      rw [if_neg hf, hfind]
      exact ⟨rfl, Or.inl rfl⟩
    | some user =>
      rw [usersLogin_found env users body now f user (by simpa using hf) hfind]
      exact ⟨rfl, Or.inr rfl⟩

/-- C23, as the code has it.  Neither handler is given the `tokens` collection: they
read and write the `users` collection alone.  The token an admin registration answers
with is the one it signed for the new account; it verifies for one hour, and yet
`verifyToken` refuses it with 401, the collection staying as it is, whenever no
document of the collection holds that token string.  The login of routes/users.js
answers no token at all: for every account its query finds, whatever the password of
the body, `bcrypt.compare` is called on `undefined` and rejects, and the answer is
500; when the query finds no account the answer is 404. -/
theorem unrecorded_token_rejected (env : Env) (users : List User) (body : RegisterBody)
    (loginBody : LoginBody) (newId : ObjectId) (salt hookSalt now : Nat) (f : Faults) :
    ((registerAdmin env users body newId salt hookSalt now f).1.status = 201 →
      ∃ t, (registerAdmin env users body newId salt hookSalt now f).1.token = some t ∧
        t = jwtSign { id := newId, role := some "admin" } env.JWT_SECRET 3600 now ∧
        (∀ later, later / 1000 < now / 1000 + 3600 →
          ∃ d, jwtVerify t env.JWT_SECRET later = .ok d ∧ d.id = newId ∧
            d.role = some "admin") ∧
        ∀ (req : Request) (later : Nat) (g : Faults) (db : Db), bearer req = some t →
          (∀ x ∈ db, x.token ≠ t) →
          ∃ r, verifyToken env req later g db = (.respond r, db) ∧ r.status = 401 ∧
            r.success = some false) ∧
    (usersLogin env users loginBody now f).token = none ∧
    ((usersLogin env users loginBody now f).status = 404 ∨
      (usersLogin env users loginBody now f).status = 500) ∧
    (∀ user, f.fails 0 = false →
      loginBody.email.bind (User.findOne env users) = some user →
      usersLogin env users loginBody now f =
        bare 500 ("Illegal arguments: " ++ typeofStr (loginBody.password.map .plain) ++
          ", " ++ "undefined")) := by
  refine ⟨?_, (usersLogin_no_token env users loginBody now f).1,
    (usersLogin_no_token env users loginBody now f).2,
    fun user hf hfind => usersLogin_found env users loginBody now f user hf hfind⟩
  intro h
  refine ⟨_, (registerAdmin_ok env users body newId salt hookSalt now f h).2.2.1, rfl,
    ?_, ?_⟩
  · intro later hl
    refine ⟨{ id := newId, role := some "admin", iat := now / 1000,
              exp := now / 1000 + 3600 }, ?_, rfl, rfl⟩
    unfold jwtSign jwtVerify
    have : ¬ (now / 1000 + 3600 ≤ later / 1000) := by omega
    simp [this]
  · intro req later g db hreq hdb
    exact verifyToken_unrecorded env req later g db _ hreq hdb

/-- C23 at the worked example.  Alice, whose credentials the login of routes/auth.js
accepts, presents them to the login of routes/users.js and gets 500 and no token.
Carol registers as an administrator while Alice is logged in: the token of the answer
verifies, but no document holds it, and the gate refuses it. -/
theorem unrecorded_token_rejected_witness :
    aliceSession.1.success = some true ∧
    usersLogin demoEnv [alice] aliceBody 0 [] =
      bare 500 "Illegal arguments: string, undefined" ∧
    (registerAdmin demoEnv [alice] carolBody 3 5 7 0 []).1.token =
      some (.jws { id := 3, role := some "admin", iat := 0, exp := 3600 } "access-secret") ∧
    verifyToken demoEnv
        (bearerRequest (.jws { id := 3, role := some "admin", iat := 0, exp := 3600 }
          "access-secret")) 1000 [] aliceSession.2 =
      (.respond (failure 401 "Invalid session. Please login again."), aliceSession.2) ∧
    (usersLogin demoEnv [alice] aliceBody 0 []).token = none ∧
    ∃ t, (registerAdmin demoEnv [alice] carolBody 3 5 7 0 []).1.token = some t ∧
      t = jwtSign { id := 3, role := some "admin" } demoEnv.JWT_SECRET 3600 0 ∧
      (∀ later, later / 1000 < 0 / 1000 + 3600 →
        ∃ d, jwtVerify t demoEnv.JWT_SECRET later = .ok d ∧ d.id = 3 ∧
          d.role = some "admin") ∧
      ∀ (req : Request) (later : Nat) (g : Faults) (db : Db), bearer req = some t →
        (∀ x ∈ db, x.token ≠ t) →
        ∃ r, verifyToken demoEnv req later g db = (.respond r, db) ∧ r.status = 401 ∧
          r.success = some false :=
  ⟨by decide, by decide, by decide, by decide,
    (unrecorded_token_rejected demoEnv [alice] carolBody aliceBody 3 5 7 0 []).2.1,
    (unrecorded_token_rejected demoEnv [alice] carolBody aliceBody 3 5 7 0 []).1
      (by decide)⟩

/-- The login of routes/users.js answers no token: when it finds the account, the
password it hands to `bcrypt.compare` is `undefined`, and the handler answers 500;
otherwise it answers 404, or 500 when the store rejects the query. -/
theorem usersLogin_never_succeeds (env : Env) (users : List User) (body : LoginBody)
    (now : Nat) (f : Faults) :
    (usersLogin env users body now f).token = none ∧
      ((usersLogin env users body now f).status = 404 ∨
        (usersLogin env users body now f).status = 500) :=
  usersLogin_no_token env users body now f

/-- The login of routes/users.js at the worked example: Alice, with her own
credentials, gets 500. -/
theorem usersLogin_never_succeeds_witness :
    usersLogin demoEnv [alice] aliceBody 0 [] =
      bare 500 "Illegal arguments: string, undefined" ∧
    (usersLogin demoEnv [alice] aliceBody 0 []).token = none :=
  ⟨by decide, (usersLogin_never_succeeds demoEnv [alice] aliceBody 0 []).1⟩

theorem register_keeps_users (env : Env) (users : List User) (body : RegisterBody)
    (newId : ObjectId) (salt : Nat) (f : Faults) :
    (register env users body newId salt f).1.status ≠ 201 →
      (register env users body newId salt f).2 = users := by
  unfold register
  repeat' split
  all_goals first
    | (intro _; rfl)
    | (intro h; exact absurd rfl h)

/-- C25. A registration of routes/auth.js, which takes no token, answers 201 only after
appending one account whose role is the `role` of the body, `'user'` when the body has
none, and that role is `'admin'` or `'user'`; with any other role it creates no
account.  And it does answer 201, creating that account, whenever the four fields are
there, the role is `'admin'`, `'user'` or absent, the password has a `length` of eight
or more, no account has the email of the body put in lower case, and the store rejects
nothing. -/
theorem register_role (env : Env) (users : List User) (body : RegisterBody)
    (newId : ObjectId) (salt : Nat) (f : Faults) :
    ((register env users body newId salt f).1.status = 201 →
      (register env users body newId salt f).2 = users ++
        [{ _id := newId, name := body.name.getD "",
           email := env.toLowerCase (body.email.getD ""),
           password := bcryptHash (.plain (body.password.getD "")) 12 salt,
           role := body.role.getD "user", active := true }] ∧
      (body.role.getD "user" = "admin" ∨ body.role.getD "user" = "user")) ∧
    (body.role.getD "user" ≠ "admin" → body.role.getD "user" ≠ "user" →
      (register env users body newId salt f).1.status ≠ 201 ∧
      (register env users body newId salt f).2 = users) ∧
    (falsyStr body.name = false → falsyStr body.email = false →
      falsyStr body.password = false → falsyStr body.phone = false →
      (body.role = some "admin" ∨ body.role = some "user" ∨ body.role = none) →
      8 ≤ utf16Length (body.password.getD "") →
      (∀ x ∈ users, x.email ≠ env.toLowerCase (body.email.getD "")) →
      f.fails 0 = false → f.fails 1 = false →
      register env users body newId salt f =
        (registered "User registered successfully", users ++
          [{ _id := newId, name := body.name.getD "",
             email := env.toLowerCase (body.email.getD ""),
             password := bcryptHash (.plain (body.password.getD "")) 12 salt,
             role := body.role.getD "user", active := true }])) := by
  have hfirst : (register env users body newId salt f).1.status = 201 →
      (register env users body newId salt f).2 = users ++
        [{ _id := newId, name := body.name.getD "",
           email := env.toLowerCase (body.email.getD ""),
           password := bcryptHash (.plain (body.password.getD "")) 12 salt,
           role := body.role.getD "user", active := true }] ∧
      (body.role.getD "user" = "admin" ∨ body.role.getD "user" = "user") := by
    intro h
    obtain ⟨-, -, hsave⟩ := register_ok env users body newId salt f h
    obtain ⟨-, hrole, -, -, hu⟩ := save_ok _ _ _ _ _ _ _ hsave
    exact ⟨hu, hrole⟩
  refine ⟨hfirst, ?_, ?_⟩
  · intro h1 h2
    have hno : (register env users body newId salt f).1.status ≠ 201 := by
      intro h
      rcases (hfirst h).2 with h3 | h3
      · exact h1 h3
      · exact h2 h3
    exact ⟨hno, register_keeps_users env users body newId salt f hno⟩
  · intro h1 h2 h3 h4 hrole hlen hnew hf0 hf1
    have hfind : User.findOne env users (body.email.getD "") = none := by
      unfold User.findOne
      rw [List.find?_eq_none]
      intro x hx
      simp [hnew x hx]
    have hsave := save_new env
      { name := body.name.getD "", email := body.email.getD "",
        password := .plain (body.password.getD ""),
        role := some (body.role.getD "user") } newId salt users
      (by rcases hrole with h | h | h <;> simp [h]) hlen hnew
    unfold register
    simp only [h1, h2, h3, h4, hf0, hf1, hfind, hsave, Bool.or_self, Bool.false_eq_true,
      if_false]
    rfl

/-- C25 at the worked example: Carol registers through routes/auth.js with
`role: 'admin'`, no header being part of the request; the answer is 201 and her account
is an administrator.  Without a role her account is a user, and with the role 'root'
she gets 500 and no account. -/
theorem register_role_witness :
    register demoEnv [alice] { carolBody with role := some "admin" } 3 7 [] =
      (registered "User registered successfully",
       [alice, { _id := 3, name := "Carol", email := "carol@example.com",
                 password := .bcrypt (.plain "passw0rd1") 12 7, role := "admin",
                 active := true }]) ∧
    (register demoEnv [alice] carolBody 3 7 []).2 =
      [alice, { _id := 3, name := "Carol", email := "carol@example.com",
                password := .bcrypt (.plain "passw0rd1") 12 7, role := "user",
                active := true }] ∧
    (register demoEnv [alice] { carolBody with role := some "root" } 3 7 []) =
      (failure 500 "Server error during registration", [alice]) ∧
    (register demoEnv [alice] { carolBody with role := some "admin" } 3 7 []).2 =
      [alice] ++
      [{ _id := 3, name := "Carol", email := demoEnv.toLowerCase "carol@example.com",
         password := bcryptHash (.plain "passw0rd1") 12 7,
         role := "admin", active := true }] :=
  ⟨by decide, by decide, by decide,
    ((register_role demoEnv [alice] { carolBody with role := some "admin" } 3 7 []).1
      (by decide)).1⟩
end MernBackend
